import Mathlib

/-!
# Flex online compiler: lexer, parser, environment and tree-walking interpreter

A shallow embedding of `src/js/interpreter/{lexer,parser,environment,interpreter}.js`.

Conventions of the embedding

* A JavaScript Number is modelled by the rational (`Rat`) that a finite IEEE 754 double
  is, or by `Infinity`.  `parseFloat` and the arithmetic operators round the real result
  to the nearest double (`nearestDouble`), and `String(n)` prints the shortest decimal
  that reads back as the double (`numberToString`).  The two zeros are one value;
  `-Infinity` and `NaN` are outside the model, and an operation that yields one ends the
  run of the model with the signal `notEmbedded`.
* JavaScript strings are `String`; the lexer walks the source as a list of characters.
* Objects with identity (environments, arrays, promises, function objects) carry a numeric
  identity taken from a counter of the interpreter state.
* Every loop or recursion of the source that is not structurally bounded takes a `fuel`
  argument; running out of fuel is a distinguished outcome, never a result.
-/

namespace Flex

/-! ## Tokens (`lexer.js`) -/

/-- Token kinds: the values of `FlexLexer.TOKEN_TYPES`.  The extra constructor `inherited`
stands for what `this.keywords[text]` yields when `text` names a member that the plain
object `this.keywords` inherits from `Object.prototype` (for instance `constructor`): a
truthy host value that is no token-kind string. -/
inductive TokenType where
  | LEFT_PAREN | RIGHT_PAREN | LEFT_BRACE | RIGHT_BRACE | LEFT_BRACKET | RIGHT_BRACKET
  | COMMA | DOT | MINUS | PLUS | SEMICOLON | SLASH | STAR
  | BANG | BANG_EQUAL | EQUAL | EQUAL_EQUAL
  | GREATER | GREATER_EQUAL | LESS | LESS_EQUAL
  | IDENTIFIER | STRING | NUMBER
  | AND | OR | IF | ELSE | TRUE | FALSE | FOR | WHILE | FUNCTION | RETURN | NULL
  | PRINT | PRINT_LINE | INPUT
  | EOF
  | inherited (member : String)
  deriving DecidableEq, Repr

/-- Literal payload of a token or of a `Literal` AST node.  A JavaScript Number is the
exact value of a finite IEEE 754 double (`number`) or `Infinity`; the literals of the
lexer are never negative and never `NaN`. -/
inductive Literal where
  | null
  | bool (b : Bool)
  | number (n : Rat)
  | infinity
  | string (s : String)
  deriving DecidableEq, Repr

/-- Token object built by `FlexLexer.createToken`. -/
structure Token where
  type : TokenType
  lexeme : String
  literal : Literal
  line : Nat
  deriving DecidableEq, Repr

/-- Names every plain JavaScript object inherits from `Object.prototype`. -/
def objectPrototypeNames : List String :=
  ["constructor", "hasOwnProperty", "isPrototypeOf", "propertyIsEnumerable",
   "toLocaleString", "toString", "valueOf", "__defineGetter__", "__defineSetter__",
   "__lookupGetter__", "__lookupSetter__", "__proto__"]

/-- Own entries of the table `this.keywords`. -/
def keywords : List (String × TokenType) :=
  [("and", .AND), ("or", .OR), ("if", .IF), ("else", .ELSE), ("true", .TRUE),
   ("false", .FALSE), ("for", .FOR), ("while", .WHILE), ("function", .FUNCTION),
   ("return", .RETURN), ("null", .NULL), ("print", .PRINT), ("etb3", .PRINT_LINE),
   ("da5l", .INPUT), ("d5l", .INPUT), ("scan", .INPUT)]

/-- The expression `this.keywords[text] || this.TOKEN_TYPES.IDENTIFIER`. -/
def keywordType (text : String) : TokenType :=
  match keywords.lookup text with
  | some t => t
  | none => if objectPrototypeNames.contains text then .inherited text else .IDENTIFIER

/-- Port of `FlexLexer.isDigit`. -/
def isDigit (c : Char) : Bool := decide ('0' ≤ c) && decide (c ≤ '9')

/-- Port of `FlexLexer.isAlpha`. -/
def isAlpha (c : Char) : Bool :=
  (decide ('a' ≤ c) && decide (c ≤ 'z')) || (decide ('A' ≤ c) && decide (c ≤ 'Z')) || c == '_'

/-- Port of `FlexLexer.isAlphaNumeric`. -/
def isAlphaNumeric (c : Char) : Bool := isAlpha c || isDigit c

/-- Value of a run of decimal digits. -/
def digitsValue (ds : List Char) : Nat :=
  ds.foldl (fun acc c => 10 * acc + (c.toNat - '0'.toNat)) 0

/-- Decimal value of the text `intPart` or `intPart.fracPart`. -/
def decimalValue (intPart fracPart : List Char) : Rat :=
  (digitsValue intPart : Rat) + (digitsValue fracPart : Rat) / ((10 : Rat) ^ fracPart.length)

/-- The power `2 ^ e` for an integer exponent. -/
def pow2 (e : Int) : Rat := if 0 ≤ e then (2 : Rat) ^ e.toNat else 1 / (2 : Rat) ^ (-e).toNat

/-- The power `10 ^ e` for an integer exponent. -/
def pow10 (e : Int) : Rat := if 0 ≤ e then (10 : Rat) ^ e.toNat else 1 / (10 : Rat) ^ (-e).toNat

/-- Number of binary digits of `n`, when `fuel` is at least that number. -/
def bitLength : Nat → Nat → Nat
  | 0, _ => 0
  | fuel + 1, n => if n = 0 then 0 else bitLength fuel (n / 2) + 1

/-- The integer `e` with `2 ^ e ≤ n / d < 2 ^ (e + 1)`, for positive `n` and `d`: the
difference of the numbers of binary digits, or one less. -/
def floorLog2 (n d : Nat) : Int :=
  let e : Int := (bitLength n n : Int) - (bitLength d d : Int)
  if pow2 e * d ≤ n then e else e - 1

/-- The Number value for the real `q` (ECMAScript): the IEEE 754 double nearest to `q`,
the one with the even significand when two are as near; `none` is an infinity, when the
magnitude rounds to `2 ^ 1024` or more.  Doubles are the multiples of `2 ^ (e - 52)` in
the binade `2 ^ e`, from `e = -1022` (and below it, the multiples of `2 ^ -1074`). -/
def nearestDouble (q : Rat) : Option Rat :=
  if q = 0 then some 0
  else
    let n := q.num.natAbs
    let d := q.den
    let shift : Int := max (floorLog2 n d) (-1022) - 52
    let a := if shift < 0 then n * 2 ^ (-shift).toNat else n
    let b := if shift < 0 then d else d * 2 ^ shift.toNat
    let m := if 2 * (a % b) < b then a / b
      else if b < 2 * (a % b) then a / b + 1
      else if (a / b) % 2 = 0 then a / b
      else a / b + 1
    let value : Rat := (m : Rat) * pow2 shift
    if (2 : Rat) ^ 1024 ≤ value then none
    else some (if q < 0 then -value else value)

/-- The JavaScript function `parseFloat` on the text `intPart` or `intPart.fracPart`: the
Number value for its decimal value. -/
def parseFloat (intPart fracPart : List Char) : Literal :=
  match nearestDouble (decimalValue intPart fracPart) with
  | some d => .number d
  | none => .infinity

/-- Number of newline characters in a run of characters. -/
def countNewlines (cs : List Char) : Nat := (cs.filter (fun c => c == '\n')).length

/-- Port of `FlexLexer.string`, entered after the opening quote was consumed.  `rest` is
the source after the opening quote.  Returns the token, if one is added, the remaining
source and the line counter. -/
def lexString (quoteType : Char) (rest : List Char) (line : Nat) :
    Option Token × List Char × Nat :=
  match rest.span (fun c => c != quoteType) with
  | (body, []) => (none, [], line + countNewlines body)
  | (body, _ :: after) =>
    let line1 := line + countNewlines body
    (some { type := .STRING
            lexeme := String.mk (quoteType :: body ++ [quoteType])
            literal := .string (String.mk body)
            line := line1 }, after, line1)

/-- Port of `FlexLexer.number`, entered after the first digit `c` was consumed. -/
def lexNumber (c : Char) (rest : List Char) (line : Nat) : Option Token × List Char × Nat :=
  match rest.span isDigit with
  | (ds, after) =>
    let intPart := c :: ds
    match after with
    | '.' :: d :: after2 =>
      if isDigit d then
        match (d :: after2).span isDigit with
        | (fs, after3) =>
          (some { type := .NUMBER
                  lexeme := String.mk (intPart ++ '.' :: fs)
                  literal := parseFloat intPart fs
                  line := line }, after3, line)
      else
        (some { type := .NUMBER, lexeme := String.mk intPart
                literal := parseFloat intPart [], line := line }, after, line)
    | _ =>
      (some { type := .NUMBER, lexeme := String.mk intPart
              literal := parseFloat intPart [], line := line }, after, line)

/-- Port of `FlexLexer.identifier`, entered after the first character `c` was consumed. -/
def lexIdentifier (c : Char) (rest : List Char) (line : Nat) :
    Option Token × List Char × Nat :=
  match rest.span isAlphaNumeric with
  | (cs, after) =>
    let text := String.mk (c :: cs)
    (some { type := keywordType text, lexeme := text, literal := .null, line := line },
      after, line)

/-- Token without literal, as `addToken(type)` builds it. -/
def simpleToken (type : TokenType) (lexeme : List Char) (line : Nat) : Token :=
  { type := type, lexeme := String.mk lexeme, literal := .null, line := line }

/-- Port of `FlexLexer.scanToken`: `c` is the character returned by `advance()`, `rest`
the source after it.  An unexpected character is only logged to the console; no token is
added and scanning goes on.  There is no case for the character `/`. -/
def scanToken (c : Char) (rest : List Char) (line : Nat) : Option Token × List Char × Nat :=
  let one (t : TokenType) : Option Token × List Char × Nat :=
    (some (simpleToken t [c] line), rest, line)
  let oneOrTwo (two single : TokenType) : Option Token × List Char × Nat :=
    match rest with
    | '=' :: rest1 => (some (simpleToken two [c, '='] line), rest1, line)
    | _ => (some (simpleToken single [c] line), rest, line)
  if c = '(' then one .LEFT_PAREN
  else if c = ')' then one .RIGHT_PAREN
  else if c = '{' then one .LEFT_BRACE
  else if c = '}' then one .RIGHT_BRACE
  else if c = '[' then one .LEFT_BRACKET
  else if c = ']' then one .RIGHT_BRACKET
  else if c = ',' then one .COMMA
  else if c = '.' then one .DOT
  else if c = '-' then one .MINUS
  else if c = '+' then one .PLUS
  else if c = ';' then one .SEMICOLON
  else if c = '*' then one .STAR
  else if c = '!' then oneOrTwo .BANG_EQUAL .BANG
  else if c = '=' then oneOrTwo .EQUAL_EQUAL .EQUAL
  else if c = '<' then oneOrTwo .LESS_EQUAL .LESS
  else if c = '>' then oneOrTwo .GREATER_EQUAL .GREATER
  else if c = '#' then (none, (rest.span (fun d => d != '\n')).2, line)
  else if c = ' ' ∨ c = '\r' ∨ c = '\t' then (none, rest, line)
  else if c = '\n' then (none, rest, line + 1)
  else if c = '"' then lexString '"' rest line
  else if c = '\'' then lexString '\'' rest line
  else if isDigit c then lexNumber c rest line
  else if isAlpha c then lexIdentifier c rest line
  else (none, rest, line)

/-- The loop of `FlexLexer.tokenize`; every round consumes at least one character, so
`fuel` equal to the length of the source is enough. -/
def tokenizeLoop : Nat → List Char → Nat → List Token → List Token × Nat
  | 0, _, line, acc => (acc, line)
  | _ + 1, [], line, acc => (acc, line)
  | fuel + 1, c :: rest, line, acc =>
    match scanToken c rest line with
    | (some t, rest1, line1) => tokenizeLoop fuel rest1 line1 (acc ++ [t])
    | (none, rest1, line1) => tokenizeLoop fuel rest1 line1 acc

/-- Port of `FlexLexer.tokenize`. -/
def tokenize (source : String) : List Token :=
  match tokenizeLoop source.data.length source.data 1 [] with
  | (toks, line) => toks ++ [{ type := .EOF, lexeme := "", literal := .null, line := line }]

/-! ## Abstract syntax (`parser.js`) -/

/-- Expression nodes, one constructor per `type` tag the parser builds. -/
inductive Expr where
  | literal (value : Literal)
  | variable (name : String)
  | assignment (name : String) (value : Expr)
  | binary (left : Expr) (operator : Token) (right : Expr)
  | logical (left : Expr) (operator : Token) (right : Expr)
  | unary (operator : Token) (right : Expr)
  | call (callee : Expr) (paren : Token) (arguments : List Expr)
  | grouping (expression : Expr)
  | arrayLiteral (elements : List Expr)
  | get (object : Expr) (name : Token)
  | set (object : Expr) (name : Token) (value : Expr)
  deriving Repr

/-- Statement nodes.  `variableDeclaration` and `assignment` are the two statement tags
that `FlexInterpreter.executeStatement` accepts although the parser never builds them. -/
inductive Stmt where
  | expressionStatement (expression : Expr)
  | printStatement (expression : Expr) (isLine : Bool)
  | inputStatement (inputType : String) (prompt : Option Expr)
  | variableDeclaration (name : String) (init : Option Expr)
  | assignment (name : String) (value : Expr)
  | block (statements : List Stmt)
  | ifStatement (condition : Expr) (thenBranch : Stmt) (elseBranch : Option Stmt)
  | whileStatement (condition : Expr) (body : Stmt)
  | functionDeclaration (name : String) (parameters : List String) (body : List Stmt)
  | returnStatement (keyword : Token) (value : Option Expr)
  deriving Repr

/-! ## Parser (`parser.js`) -/

/-- What a parsing routine can end with instead of a node: the `SyntaxError` thrown by
`FlexParser.error`, with the value of `this.current` at the throw, or exhausted fuel. -/
inductive ParseError where
  | syntaxError (message : String) (current : Nat)
  | outOfFuel
  deriving Repr

/-! A parsing routine returns `Except ParseError (node × Nat)`: the node it built and the
new value of `this.current`. -/

/-- Stand-in for an out-of-range read of `this.tokens`; never reached on a token list
that ends with the end-of-input token. -/
def eofToken : Token := { type := .EOF, lexeme := "", literal := .null, line := 0 }

/-- Port of `FlexParser.peek`. -/
def peek (tokens : List Token) (current : Nat) : Token := tokens.getD current eofToken

/-- Port of `FlexParser.previous`. -/
def previous (tokens : List Token) (current : Nat) : Token :=
  tokens.getD (current - 1) eofToken

/-- Port of `FlexParser.isAtEnd`. -/
def isAtEnd (tokens : List Token) (current : Nat) : Bool :=
  (peek tokens current).type == .EOF

/-- Port of `FlexParser.check`. -/
def check (tokens : List Token) (current : Nat) (type : TokenType) : Bool :=
  if isAtEnd tokens current then false else (peek tokens current).type == type

/-- New value of `this.current` after `FlexParser.advance`. -/
def advance (tokens : List Token) (current : Nat) : Nat :=
  if isAtEnd tokens current then current else current + 1

/-- Whether `FlexParser.match(...types)` succeeds; when it does, `this.current` grows by
one. -/
def matchAny (tokens : List Token) (current : Nat) (types : List TokenType) : Bool :=
  types.any (fun t => check tokens current t)

/-- String form of a token kind, as a template literal prints it. -/
def TokenType.name : TokenType → String
  | .LEFT_PAREN => "LEFT_PAREN" | .RIGHT_PAREN => "RIGHT_PAREN"
  | .LEFT_BRACE => "LEFT_BRACE" | .RIGHT_BRACE => "RIGHT_BRACE"
  | .LEFT_BRACKET => "LEFT_BRACKET" | .RIGHT_BRACKET => "RIGHT_BRACKET"
  | .COMMA => "COMMA" | .DOT => "DOT" | .MINUS => "MINUS" | .PLUS => "PLUS"
  | .SEMICOLON => "SEMICOLON" | .SLASH => "SLASH" | .STAR => "STAR"
  | .BANG => "BANG" | .BANG_EQUAL => "BANG_EQUAL" | .EQUAL => "EQUAL"
  | .EQUAL_EQUAL => "EQUAL_EQUAL" | .GREATER => "GREATER"
  | .GREATER_EQUAL => "GREATER_EQUAL" | .LESS => "LESS" | .LESS_EQUAL => "LESS_EQUAL"
  | .IDENTIFIER => "IDENTIFIER" | .STRING => "STRING" | .NUMBER => "NUMBER"
  | .AND => "AND" | .OR => "OR" | .IF => "IF" | .ELSE => "ELSE" | .TRUE => "TRUE"
  | .FALSE => "FALSE" | .FOR => "FOR" | .WHILE => "WHILE" | .FUNCTION => "FUNCTION"
  | .RETURN => "RETURN" | .NULL => "NULL" | .PRINT => "PRINT"
  | .PRINT_LINE => "PRINT_LINE" | .INPUT => "INPUT" | .EOF => "EOF"
  | .inherited member => "[Object.prototype." ++ member ++ "]"

/-- Port of `FlexParser.error`: the `SyntaxError` it throws. -/
def parseErrorAt (tokens : List Token) (current : Nat) (message : String) : ParseError :=
  let token := peek tokens current
  let place := if token.type == .EOF then " at end" else " at '" ++ token.lexeme ++ "'"
  .syntaxError ("[line " ++ toString token.line ++ "] Error" ++ place ++ ": " ++ message)
    current

/-- Port of `FlexParser.consume`. -/
def consume (tokens : List Token) (current : Nat) (type : TokenType) (message : String) :
    Except ParseError (Token × Nat) :=
  if check tokens current type then .ok (peek tokens current, advance tokens current)
  else .error (parseErrorAt tokens current message)

/-- The loop of `FlexParser.synchronize`, entered after its first `advance()`. -/
def synchronizeLoop (tokens : List Token) : Nat → Nat → Nat
  | 0, current => current
  | n + 1, current =>
    if isAtEnd tokens current then current
    else if (previous tokens current).type == .SEMICOLON then current
    else if [TokenType.FUNCTION, .IF, .WHILE, .FOR, .RETURN, .PRINT, .PRINT_LINE].contains
        (peek tokens current).type then current
    else synchronizeLoop tokens n (advance tokens current)

/-- Port of `FlexParser.synchronize`: the value of `this.current` it leaves. -/
def synchronize (tokens : List Token) (current : Nat) : Nat :=
  synchronizeLoop tokens tokens.length (advance tokens current)

/-- The `do ... while (this.match(COMMA))` loop of `FlexParser.functionDeclaration`. -/
def parametersLoop (tokens : List Token) : Nat → List Token → Nat → Except ParseError ((List Token) × Nat)
  | 0, _, _ => .error .outOfFuel
  | n + 1, parameters, current =>
    if parameters.length ≥ 255 then
      .error (parseErrorAt tokens current "Cannot have more than 255 parameters.")
    else
      match consume tokens current .IDENTIFIER "Expect parameter name." with
      | .error e => .error e
      | .ok (p, c1) =>
        if check tokens c1 .COMMA then parametersLoop tokens n (parameters ++ [p]) (c1 + 1)
        else .ok (parameters ++ [p], c1)

/-- A `while (this.match(ops)) { right = operand(); expr = node }` loop, shared by the
binary tiers of the grammar. -/
def leftAssocLoop (tokens : List Token) (ops : List TokenType)
    (mk : Expr → Token → Expr → Expr) (operand : Nat → Except ParseError (Expr × Nat)) :
    Nat → Expr → Nat → Except ParseError (Expr × Nat)
  | 0, _, _ => .error .outOfFuel
  | n + 1, expr, current =>
    if matchAny tokens current ops then
      match operand (current + 1) with
      | .error e => .error e
      | .ok (right, c1) =>
        leftAssocLoop tokens ops mk operand n (mk expr (peek tokens current) right) c1
    else .ok (expr, current)

mutual

/-- Port of `FlexParser.declaration`: `none` is the `null` returned after an error was
caught and `synchronize` ran. -/
def declaration (tokens : List Token) : Nat → Nat → Except ParseError ((Option Stmt) × Nat)
  | 0, _ => .error .outOfFuel
  | fuel + 1, current =>
    let attempt :=
      if check tokens current .FUNCTION then functionDeclaration tokens fuel (current + 1)
      else statement tokens fuel current
    match attempt with
    | .ok (s, c1) => .ok (some s, c1)
    | .error (.syntaxError _ pos) => .ok (none, synchronize tokens pos)
    | .error .outOfFuel => .error .outOfFuel
termination_by structural fuel _ => fuel

/-- Port of `FlexParser.functionDeclaration`, entered after `function` was consumed. -/
def functionDeclaration (tokens : List Token) : Nat → Nat → Except ParseError (Stmt × Nat)
  | 0, _ => .error .outOfFuel
  | fuel + 1, current => do
    let (name, c1) ← consume tokens current .IDENTIFIER "Expect function name."
    let (_, c2) ← consume tokens c1 .LEFT_PAREN "Expect '(' after function name."
    let (parameters, c3) ←
      if !check tokens c2 .RIGHT_PAREN then parametersLoop tokens tokens.length [] c2
      else (.ok ([], c2) : Except ParseError ((List Token) × Nat))
    let (_, c4) ← consume tokens c3 .RIGHT_PAREN "Expect ')' after parameters."
    let (_, c5) ← consume tokens c4 .LEFT_BRACE "Expect '\x7b' before function body."
    let (body, c6) ← block tokens fuel c5
    .ok (.functionDeclaration name.lexeme (parameters.map (·.lexeme)) body, c6)
termination_by structural fuel _ => fuel

/-- Port of `FlexParser.statement`. -/
def statement (tokens : List Token) : Nat → Nat → Except ParseError (Stmt × Nat)
  | 0, _ => .error .outOfFuel
  | fuel + 1, current =>
    if check tokens current .IF then ifStatement tokens fuel (current + 1)
    else if check tokens current .WHILE then whileStatement tokens fuel (current + 1)
    else if check tokens current .FOR then forStatement tokens fuel (current + 1)
    else if check tokens current .RETURN then returnStatement tokens fuel (current + 1)
    else if matchAny tokens current [.PRINT, .PRINT_LINE] then
      printStatement tokens fuel (current + 1)
    else if check tokens current .INPUT then inputStatement tokens fuel (current + 1)
    else if check tokens current .LEFT_BRACE then
      match block tokens fuel (current + 1) with
      | .ok (stmts, c1) => .ok (.block stmts, c1)
      | .error e => .error e
    else expressionStatement tokens fuel current
termination_by structural fuel _ => fuel

/-- Port of `FlexParser.ifStatement`. -/
def ifStatement (tokens : List Token) : Nat → Nat → Except ParseError (Stmt × Nat)
  | 0, _ => .error .outOfFuel
  | fuel + 1, current => do
    let (_, c1) ← consume tokens current .LEFT_PAREN "Expect '(' after 'if'."
    let (condition, c2) ← expression tokens fuel c1
    let (_, c3) ← consume tokens c2 .RIGHT_PAREN "Expect ')' after if condition."
    let (thenBranch, c4) ← statement tokens fuel c3
    if check tokens c4 .ELSE then
      let (elseBranch, c5) ← statement tokens fuel (c4 + 1)
      .ok (.ifStatement condition thenBranch (some elseBranch), c5)
    else .ok (.ifStatement condition thenBranch none, c4)
termination_by structural fuel _ => fuel

/-- Port of `FlexParser.whileStatement`. -/
def whileStatement (tokens : List Token) : Nat → Nat → Except ParseError (Stmt × Nat)
  | 0, _ => .error .outOfFuel
  | fuel + 1, current => do
    let (_, c1) ← consume tokens current .LEFT_PAREN "Expect '(' after 'while'."
    let (condition, c2) ← expression tokens fuel c1
    let (_, c3) ← consume tokens c2 .RIGHT_PAREN "Expect ')' after while condition."
    let (body, c4) ← statement tokens fuel c3
    .ok (.whileStatement condition body, c4)
termination_by structural fuel _ => fuel

/-- Port of `FlexParser.forStatement`, with its desugaring into `while`. -/
def forStatement (tokens : List Token) : Nat → Nat → Except ParseError (Stmt × Nat)
  | 0, _ => .error .outOfFuel
  | fuel + 1, current => do
    let (_, c1) ← consume tokens current .LEFT_PAREN "Expect '(' after 'for'."
    let (init, c2) ←
      if check tokens c1 .SEMICOLON then (.ok (none, c1 + 1) : Except ParseError ((Option Stmt) × Nat))
      else
        match expressionStatement tokens fuel c1 with
        | .ok (s, c) => .ok (some s, c)
        | .error e => .error e
    let (condition, c3) ←
      if !check tokens c2 .SEMICOLON then
        match expression tokens fuel c2 with
        | .ok (e, c) => (.ok (some e, c) : Except ParseError ((Option Expr) × Nat))
        | .error e => .error e
      else .ok (none, c2)
    let (_, c4) ← consume tokens c3 .SEMICOLON "Expect ';' after loop condition."
    let (increment, c5) ←
      if !check tokens c4 .RIGHT_PAREN then
        match expression tokens fuel c4 with
        | .ok (e, c) => (.ok (some e, c) : Except ParseError ((Option Expr) × Nat))
        | .error e => .error e
      else .ok (none, c4)
    let (_, c6) ← consume tokens c5 .RIGHT_PAREN "Expect ')' after for clauses."
    let (body, c7) ← statement tokens fuel c6
    let body1 :=
      match increment with
      | some inc => Stmt.block [body, .expressionStatement inc]
      | none => body
    let condition1 :=
      match condition with
      | some c => c
      | none => Expr.literal (.bool true)
    let body2 := Stmt.whileStatement condition1 body1
    let body3 :=
      match init with
      | some i => Stmt.block [i, body2]
      | none => body2
    .ok (body3, c7)
termination_by structural fuel _ => fuel

/-- Port of `FlexParser.returnStatement`. -/
def returnStatement (tokens : List Token) : Nat → Nat → Except ParseError (Stmt × Nat)
  | 0, _ => .error .outOfFuel
  | fuel + 1, current => do
    let keyword := previous tokens current
    let (value, c1) ←
      if !check tokens current .SEMICOLON then
        match expression tokens fuel current with
        | .ok (e, c) => (.ok (some e, c) : Except ParseError ((Option Expr) × Nat))
        | .error e => .error e
      else .ok (none, current)
    let (_, c2) ← consume tokens c1 .SEMICOLON "Expect ';' after return value."
    .ok (.returnStatement keyword value, c2)

/-- Port of `FlexParser.printStatement`. -/
def printStatement (tokens : List Token) : Nat → Nat → Except ParseError (Stmt × Nat)
  | 0, _ => .error .outOfFuel
  | fuel + 1, current => do
    let isLine := (previous tokens current).type == .PRINT_LINE
    let (_, c1) ← consume tokens current .LEFT_PAREN "Expect '(' after 'print'."
    let (e, c2) ← expression tokens fuel c1
    let (_, c3) ← consume tokens c2 .RIGHT_PAREN "Expect ')' after print value."
    let (_, c4) ← consume tokens c3 .SEMICOLON "Expect ';' after print statement."
    .ok (.printStatement e isLine, c4)

/-- Port of `FlexParser.inputStatement`. -/
def inputStatement (tokens : List Token) : Nat → Nat → Except ParseError (Stmt × Nat)
  | 0, _ => .error .outOfFuel
  | fuel + 1, current => do
    let inputType := (previous tokens current).lexeme
    let (_, c1) ← consume tokens current .LEFT_PAREN ("Expect '(' after '" ++ inputType ++ "'.")
    let (prompt, c2) ←
      if !check tokens c1 .RIGHT_PAREN then
        match expression tokens fuel c1 with
        | .ok (e, c) => (.ok (some e, c) : Except ParseError ((Option Expr) × Nat))
        | .error e => .error e
      else .ok (none, c1)
    let (_, c3) ← consume tokens c2 .RIGHT_PAREN ("Expect ')' after " ++ inputType ++ " arguments.")
    let (_, c4) ← consume tokens c3 .SEMICOLON ("Expect ';' after " ++ inputType ++ " statement.")
    .ok (.inputStatement inputType prompt, c4)

/-- The `while` loop of `FlexParser.block`. -/
def blockLoop (tokens : List Token) : Nat → List Stmt → Nat → Except ParseError ((List Stmt) × Nat)
  | 0, _, _ => .error .outOfFuel
  | fuel + 1, statements, current =>
    if !check tokens current .RIGHT_BRACE && !isAtEnd tokens current then
      match declaration tokens fuel current with
      | .error e => .error e
      | .ok (some d, c1) => blockLoop tokens fuel (statements ++ [d]) c1
      | .ok (none, c1) => blockLoop tokens fuel statements c1
    else .ok (statements, current)
termination_by structural fuel _ _ => fuel

/-- Port of `FlexParser.block`. -/
def block (tokens : List Token) : Nat → Nat → Except ParseError ((List Stmt) × Nat)
  | 0, _ => .error .outOfFuel
  | fuel + 1, current => do
    let (statements, c1) ← blockLoop tokens fuel [] current
    let (_, c2) ← consume tokens c1 .RIGHT_BRACE "Expect '\x7d' after block."
    .ok (statements, c2)
termination_by structural fuel _ => fuel

/-- Port of `FlexParser.expressionStatement`. -/
def expressionStatement (tokens : List Token) : Nat → Nat → Except ParseError (Stmt × Nat)
  | 0, _ => .error .outOfFuel
  | fuel + 1, current => do
    let (e, c1) ← expression tokens fuel current
    let (_, c2) ← consume tokens c1 .SEMICOLON "Expect ';' after expression."
    .ok (.expressionStatement e, c2)

/-- Port of `FlexParser.expression`. -/
def expression (tokens : List Token) : Nat → Nat → Except ParseError (Expr × Nat)
  | 0, _ => .error .outOfFuel
  | fuel + 1, current => assignment tokens fuel current
termination_by structural fuel _ => fuel

/-- Port of `FlexParser.assignment`. -/
def assignment (tokens : List Token) : Nat → Nat → Except ParseError (Expr × Nat)
  | 0, _ => .error .outOfFuel
  | fuel + 1, current => do
    let (expr, c1) ← logicalOr tokens fuel current
    if check tokens c1 .EQUAL then
      let (value, c2) ← assignment tokens fuel (c1 + 1)
      match expr with
      | .variable name => .ok (.assignment name value, c2)
      | .get object name => .ok (.set object name value, c2)
      | _ => .error (parseErrorAt tokens c2 "Invalid assignment target.")
    else .ok (expr, c1)
termination_by structural fuel _ => fuel

/-- Port of `FlexParser.logicalOr`. -/
def logicalOr (tokens : List Token) : Nat → Nat → Except ParseError (Expr × Nat)
  | 0, _ => .error .outOfFuel
  | fuel + 1, current => do
    let (expr, c1) ← logicalAnd tokens fuel current
    leftAssocLoop tokens [.OR] Expr.logical (fun c => logicalAnd tokens fuel c)
      tokens.length expr c1
termination_by structural fuel _ => fuel

/-- Port of `FlexParser.logicalAnd`. -/
def logicalAnd (tokens : List Token) : Nat → Nat → Except ParseError (Expr × Nat)
  | 0, _ => .error .outOfFuel
  | fuel + 1, current => do
    let (expr, c1) ← equality tokens fuel current
    leftAssocLoop tokens [.AND] Expr.logical (fun c => equality tokens fuel c)
      tokens.length expr c1
termination_by structural fuel _ => fuel

/-- Port of `FlexParser.equality`. -/
def equality (tokens : List Token) : Nat → Nat → Except ParseError (Expr × Nat)
  | 0, _ => .error .outOfFuel
  | fuel + 1, current => do
    let (expr, c1) ← comparison tokens fuel current
    leftAssocLoop tokens [.BANG_EQUAL, .EQUAL_EQUAL] Expr.binary
      (fun c => comparison tokens fuel c) tokens.length expr c1
termination_by structural fuel _ => fuel

/-- Port of `FlexParser.comparison`. -/
def comparison (tokens : List Token) : Nat → Nat → Except ParseError (Expr × Nat)
  | 0, _ => .error .outOfFuel
  | fuel + 1, current => do
    let (expr, c1) ← term tokens fuel current
    leftAssocLoop tokens [.GREATER, .GREATER_EQUAL, .LESS, .LESS_EQUAL] Expr.binary
      (fun c => term tokens fuel c) tokens.length expr c1
termination_by structural fuel _ => fuel

/-- Port of `FlexParser.term`. -/
def term (tokens : List Token) : Nat → Nat → Except ParseError (Expr × Nat)
  | 0, _ => .error .outOfFuel
  | fuel + 1, current => do
    let (expr, c1) ← factor tokens fuel current
    leftAssocLoop tokens [.MINUS, .PLUS] Expr.binary (fun c => factor tokens fuel c)
      tokens.length expr c1
termination_by structural fuel _ => fuel

/-- Port of `FlexParser.factor`. -/
def factor (tokens : List Token) : Nat → Nat → Except ParseError (Expr × Nat)
  | 0, _ => .error .outOfFuel
  | fuel + 1, current => do
    let (expr, c1) ← unary tokens fuel current
    leftAssocLoop tokens [.SLASH, .STAR] Expr.binary (fun c => unary tokens fuel c)
      tokens.length expr c1
termination_by structural fuel _ => fuel

/-- Port of `FlexParser.unary`. -/
def unary (tokens : List Token) : Nat → Nat → Except ParseError (Expr × Nat)
  | 0, _ => .error .outOfFuel
  | fuel + 1, current =>
    if matchAny tokens current [.BANG, .MINUS] then
      match unary tokens fuel (current + 1) with
      | .ok (right, c1) => .ok (.unary (peek tokens current) right, c1)
      | .error e => .error e
    else call tokens fuel current
termination_by structural fuel _ => fuel

/-- The `while (true)` loop of `FlexParser.call`: only `(` and `.` continue a postfix
chain; there is no case for `[`. -/
def callLoop (tokens : List Token) : Nat → Expr → Nat → Except ParseError (Expr × Nat)
  | 0, _, _ => .error .outOfFuel
  | fuel + 1, expr, current =>
    if check tokens current .LEFT_PAREN then
      match finishCall tokens fuel expr (current + 1) with
      | .ok (e, c1) => callLoop tokens fuel e c1
      | .error e => .error e
    else if check tokens current .DOT then
      match consume tokens (current + 1) .IDENTIFIER "Expect property name after '.'." with
      | .ok (name, c1) => callLoop tokens fuel (.get expr name) c1
      | .error e => .error e
    else .ok (expr, current)
termination_by structural fuel _ _ => fuel

/-- Port of `FlexParser.call`. -/
def call (tokens : List Token) : Nat → Nat → Except ParseError (Expr × Nat)
  | 0, _ => .error .outOfFuel
  | fuel + 1, current => do
    let (expr, c1) ← primary tokens fuel current
    callLoop tokens fuel expr c1
termination_by structural fuel _ => fuel

/-- The `do ... while (this.match(COMMA))` loop of `FlexParser.finishCall`. -/
def argumentsLoop (tokens : List Token) : Nat → List Expr → Nat → Except ParseError ((List Expr) × Nat)
  | 0, _, _ => .error .outOfFuel
  | fuel + 1, arguments_, current =>
    if arguments_.length ≥ 255 then
      .error (parseErrorAt tokens current "Cannot have more than 255 arguments.")
    else
      match expression tokens fuel current with
      | .error e => .error e
      | .ok (e, c1) =>
        if check tokens c1 .COMMA then argumentsLoop tokens fuel (arguments_ ++ [e]) (c1 + 1)
        else .ok (arguments_ ++ [e], c1)
termination_by structural fuel _ _ => fuel

/-- Port of `FlexParser.finishCall`, entered after `(` was consumed. -/
def finishCall (tokens : List Token) : Nat → Expr → Nat → Except ParseError (Expr × Nat)
  | 0, _, _ => .error .outOfFuel
  | fuel + 1, callee, current => do
    let (arguments_, c1) ←
      if !check tokens current .RIGHT_PAREN then argumentsLoop tokens fuel [] current
      else (.ok ([], current) : Except ParseError ((List Expr) × Nat))
    let (paren, c2) ← consume tokens c1 .RIGHT_PAREN "Expect ')' after arguments."
    .ok (.call callee paren arguments_, c2)
termination_by structural fuel _ _ => fuel

/-- The `do ... while (this.match(COMMA))` loop of the array literal in
`FlexParser.primary`. -/
def elementsLoop (tokens : List Token) : Nat → List Expr → Nat → Except ParseError ((List Expr) × Nat)
  | 0, _, _ => .error .outOfFuel
  | fuel + 1, elements, current =>
    match expression tokens fuel current with
    | .error e => .error e
    | .ok (e, c1) =>
      if check tokens c1 .COMMA then elementsLoop tokens fuel (elements ++ [e]) (c1 + 1)
      else .ok (elements ++ [e], c1)
termination_by structural fuel _ _ => fuel

/-- Port of `FlexParser.primary`. -/
def primary (tokens : List Token) : Nat → Nat → Except ParseError (Expr × Nat)
  | 0, _ => .error .outOfFuel
  | fuel + 1, current =>
    if check tokens current .FALSE then .ok (.literal (.bool false), current + 1)
    else if check tokens current .TRUE then .ok (.literal (.bool true), current + 1)
    else if check tokens current .NULL then .ok (.literal .null, current + 1)
    else if matchAny tokens current [.NUMBER, .STRING] then
      .ok (.literal (peek tokens current).literal, current + 1)
    else if check tokens current .IDENTIFIER then
      .ok (.variable (peek tokens current).lexeme, current + 1)
    else if check tokens current .LEFT_PAREN then
      match expression tokens fuel (current + 1) with
      | .error e => .error e
      | .ok (expr, c1) =>
        match consume tokens c1 .RIGHT_PAREN "Expect ')' after expression." with
        | .error e => .error e
        | .ok (_, c2) => .ok (.grouping expr, c2)
    else if check tokens current .LEFT_BRACKET then
      let elems :=
        if !check tokens (current + 1) .RIGHT_BRACKET then
          elementsLoop tokens fuel [] (current + 1)
        else (.ok ([], current + 1) : Except ParseError ((List Expr) × Nat))
      match elems with
      | .error e => .error e
      | .ok (elements, c1) =>
        match consume tokens c1 .RIGHT_BRACKET "Expect ']' after array elements." with
        | .error e => .error e
        | .ok (_, c2) => .ok (.arrayLiteral elements, c2)
    else
      .error (parseErrorAt tokens current
        ("Expect expression. Got " ++ (peek tokens current).type.name ++ "."))
termination_by structural fuel _ => fuel

end

/-- The `while (!this.isAtEnd())` loop of `FlexParser.parse`. -/
def parseLoop (tokens : List Token) (fuel : Nat) : Nat → List Stmt → Nat → Option (List Stmt)
  | 0, _, _ => none
  | n + 1, statements, current =>
    if !isAtEnd tokens current then
      match declaration tokens fuel current with
      | .error _ => none
      | .ok (some s, c1) => parseLoop tokens fuel n (statements ++ [s]) c1
      | .ok (none, c1) => parseLoop tokens fuel n statements c1
    else some statements

/-- Recursion budget handed to the parsing routines for a token list. -/
def parseFuel (tokens : List Token) : Nat := 16 * tokens.length + 16

/-- Port of `FlexParser.parse`: the `statements` of the `Program` node it returns.  No
routine called in its `try` block lets an error escape (`declaration` catches them all),
so its `catch` branch is not entered.  `none` only when the recursion budget runs out. -/
def parse (tokens : List Token) : Option (List Stmt) :=
  parseLoop tokens (parseFuel tokens) (tokens.length + 1) [] 0

/-! ## Runtime values -/

/-- JavaScript values the interpreter handles.  `function` is an instance of the class
`FlexFunction` (its declaration and its captured environment); `native` is one of the
objects `{arity, call, toString}` registered by the standard library; the three promise
constructors are the promise an `async` method call returns; `error` and `returnValue` are
instances of `Error` and of the class `ReturnValue`; `hostFunction` and `hostObject` are
built-ins of the JavaScript engine such as the members of `Object.prototype`.  A Number is
`number`, the exact value of a finite double (the two zeros are not told apart), or
`infinity`, the Number `Infinity`; `-Infinity` and `NaN`, which no literal denotes, are not
values of the model. -/
inductive Value where
  | null
  | undefined
  | bool (b : Bool)
  | number (n : Rat)
  | infinity
  | string (s : String)
  | array (id : Nat)
  | function (id : Nat) (name : String) (parameters : List String) (body : List Stmt)
      (closure : Nat)
  | native (name : String) (arity : Int)
  | promiseFulfilled (id : Nat) (value : Value)
  | promiseRejected (id : Nat) (reason : Value)
  | promisePending (id : Nat)
  | error (message : String)
  | returnValue (value : Value)
  | hostFunction (name : String)
  | hostObject (name : String)
  deriving Repr

/-- Value of a literal node. -/
def Literal.toValue : Literal → Value
  | .null => .null
  | .bool b => .bool b
  | .number n => .number n
  | .infinity => .infinity
  | .string s => .string s

/-- The JavaScript operator `typeof`. -/
def typeOf : Value → String
  | .undefined => "undefined"
  | .bool _ => "boolean"
  | .number _ => "number"
  | .infinity => "number"
  | .string _ => "string"
  | .hostFunction _ => "function"
  | _ => "object"

/-- Whether a value is a promise object. -/
def Value.isPromise : Value → Bool
  | .promiseFulfilled _ _ => true
  | .promiseRejected _ _ => true
  | .promisePending _ => true
  | _ => false

/-- Identity of an object value, the key of its dynamically added properties. -/
inductive ObjKey where
  | id (n : Nat)
  | native (name : String)
  | host (name : String)
  deriving DecidableEq, Repr

/-- Identity key of a value, if it is an object.  No identity is kept for `Error` and
`ReturnValue` objects, which never reach an operator of the language. -/
def Value.key : Value → Option ObjKey
  | .array id => some (.id id)
  | .function id _ _ _ _ => some (.id id)
  | .promiseFulfilled id _ => some (.id id)
  | .promiseRejected id _ => some (.id id)
  | .promisePending id => some (.id id)
  | .native name _ => some (.native name)
  | .hostFunction name => some (.host name)
  | .hostObject name => some (.host name)
  | _ => none

/-- The JavaScript operator `===` on the values of the model: primitives by value, objects
by identity. -/
def strictEquals : Value → Value → Bool
  | .null, .null => true
  | .undefined, .undefined => true
  | .bool a, .bool b => a == b
  | .number a, .number b => a == b
  | .infinity, .infinity => true
  | .string a, .string b => a == b
  | a, b =>
    match a.key, b.key with
    | some k, some l => k == l
    | _, _ => false

/-- What a routine of the interpreter can end with instead of a value: a thrown
JavaScript value (an `Error` or a `ReturnValue`); `pending`, when it awaits a promise that
nothing in the model settles (a deferred call, an input request the host has not
answered); exhausted fuel; a state that describes no JavaScript heap (a dangling
reference); or the call of an operation that this embedding does not contain. -/
inductive Signal where
  | throw (thrown : Value)
  | pending
  | outOfFuel
  | illFormed
  | notEmbedded (operation : String)
  deriving Repr

/-- A plain JavaScript object used as a dictionary: its own properties and its prototype
(`none` is the `null` prototype). -/
structure JSObject where
  own : List (String × Value)
  proto : Option Value
  deriving Repr

/-- An instance of the class `Environment`: the object `values` and the reference
`enclosing` (`none` is `null`). -/
structure Environment where
  values : JSObject
  enclosing : Option Nat
  deriving Repr

/-- One call on the terminal collaborator.  `programCompleted` is the call
`writeLine("Program completed in ...s.", "success")`, whose text holds the elapsed time. -/
inductive TerminalCall where
  | write (text : String)
  | writeLine (text : String) (className : String)
  | requestInput (prompt : String)
  | clear
  | programCompleted
  deriving DecidableEq, Repr

/-- State of a `FlexInterpreter` together with the objects it can reach: `envs` holds the
`Environment` instances (an environment is named by its position), `arrays` the arrays
(`none` is a hole of a sparse array), `props` the properties added to other objects.
`inputs` is the script of the host: the answers to the coming input requests, `none` for a
stop command.  `deferred` records that an un-awaited call expression left work pending. -/
structure Interp where
  envs : List Environment
  arrays : List (Nat × List (Option Value))
  props : List (ObjKey × String × Value)
  nextId : Nat
  environment : Nat
  globals : Nat
  locals : Expr → Option Nat
  terminal : List TerminalCall
  inputs : List (Option String)
  isRunning : Bool
  isStopped : Bool
  waitingForInput : Bool
  deferred : Bool

/-! ## JavaScript object semantics used by the interpreter -/

/-- Member names of `Array.prototype` (ECMAScript 2023). -/
def arrayPrototypeNames : List String :=
  ["at", "concat", "copyWithin", "entries", "every", "fill", "filter", "find", "findIndex",
   "findLast", "findLastIndex", "flat", "flatMap", "forEach", "includes", "indexOf", "join",
   "keys", "lastIndexOf", "map", "pop", "push", "reduce", "reduceRight", "reverse", "shift",
   "slice", "some", "sort", "splice", "toLocaleString", "toReversed", "toSorted",
   "toSpliced", "toString", "unshift", "values", "with", "constructor"]

/-- Member names of `Promise.prototype`. -/
def promisePrototypeNames : List String := ["then", "catch", "finally", "constructor"]

/-- Member names of a `FlexFunction` instance: two fields and the methods of the class. -/
def flexFunctionNames : List String :=
  ["declaration", "closure", "arity", "call", "toString", "constructor"]

/-- Member names of a built-in function object. -/
def functionPrototypeNames : List String :=
  ["length", "name", "apply", "bind", "call", "toString", "constructor", "arguments",
   "caller"]

/-- Elements of the array with identity `id`. -/
def Interp.arrayElements (σ : Interp) (id : Nat) : List (Option Value) :=
  (σ.arrays.lookup id).getD []

/-- The index a property name denotes, if it is a canonical array index. -/
def indexOfName (name : String) : Option Nat :=
  match name.data with
  | [] => none
  | ['0'] => some 0
  | c :: cs => if c != '0' && (c :: cs).all isDigit then some (digitsValue (c :: cs)) else none

/-- Dynamically added property `name` of the object `v`. -/
def Interp.dynamicProp (σ : Interp) (v : Value) (name : String) : Option Value :=
  match v.key with
  | none => none
  | some k => (σ.props.find? (fun p => p.1 == k && p.2.1 == name)).map (·.2.2)

/-- Names an object of the kind of `v` has or inherits without any having been added. -/
def builtinNames : Value → List String
  | .array _ => "length" :: arrayPrototypeNames ++ objectPrototypeNames
  | .function _ _ _ _ _ => flexFunctionNames ++ objectPrototypeNames
  | .native _ _ => ["arity", "call", "toString"] ++ objectPrototypeNames
  | .promiseFulfilled _ _ => promisePrototypeNames ++ objectPrototypeNames
  | .promiseRejected _ _ => promisePrototypeNames ++ objectPrototypeNames
  | .promisePending _ => promisePrototypeNames ++ objectPrototypeNames
  | .error _ => ["message", "stack", "name", "toString", "constructor"] ++ objectPrototypeNames
  | .returnValue _ => "value" :: objectPrototypeNames
  | .hostFunction _ => functionPrototypeNames ++ objectPrototypeNames
  | .hostObject _ => objectPrototypeNames
  | _ => []

/-- The JavaScript test `name in v` for an object `v`. -/
def hasMember (σ : Interp) (v : Value) (name : String) : Bool :=
  (σ.dynamicProp v name).isSome || (builtinNames v).contains name ||
  match v, indexOfName name with
  | .array id, some i => ((σ.arrayElements id).getD i none).isSome
  | _, _ => false

/-- The JavaScript read `v[name]` for an object `v`.  Methods and objects supplied by the
engine are named, not modelled. -/
def getMember (σ : Interp) (v : Value) (name : String) : Value :=
  match σ.dynamicProp v name with
  | some w => w
  | none =>
    match v, indexOfName name with
    | .array id, some i => ((σ.arrayElements id).getD i none).getD .undefined
    | _, _ =>
      if !(builtinNames v).contains name then .undefined
      else
        match v, name with
        | .array id, "length" => .number (σ.arrayElements id).length
        | .function _ _ _ _ closure, "closure" => .hostObject ("Environment#" ++ toString closure)
        | .function _ _ _ _ _, "declaration" => .hostObject "FunctionDeclaration"
        | .error m, "message" => .string m
        | .returnValue w, "value" => w
        | _, "__proto__" => .hostObject "prototype"
        | _, _ => .hostFunction name

/-- The JavaScript test `name in o` for a plain object. -/
def JSObject.has (σ : Interp) (o : JSObject) (name : String) : Bool :=
  (o.own.lookup name).isSome ||
  match o.proto with
  | none => false
  | some p => hasMember σ p name

/-- The JavaScript read `o[name]` for a plain object: an own property, else what the
prototype supplies (`__proto__` reads the prototype itself), else `undefined`. -/
def JSObject.read (σ : Interp) (o : JSObject) (name : String) : Value :=
  match o.own.lookup name with
  | some v => v
  | none =>
    match o.proto with
    | none => .undefined
    | some p =>
      if name == "__proto__" then p
      else if hasMember σ p name then getMember σ p name
      else .undefined

/-- Replace or add the own property `name`. -/
def setOwn (own : List (String × Value)) (name : String) (value : Value) :
    List (String × Value) :=
  if (own.lookup name).isSome then
    own.map (fun p => if p.1 == name then (name, value) else p)
  else own ++ [(name, value)]

/-- The JavaScript write `o[name] = value` on a plain object.  Writing `__proto__` on an
object that inherits the accessor replaces the prototype when the value is an object or
`null` and does nothing otherwise; every other write sets an own property. -/
def JSObject.write (o : JSObject) (name : String) (value : Value) : JSObject :=
  if name == "__proto__" && (o.own.lookup name).isNone && o.proto.isSome then
    match value with
    | .null => { o with proto := none }
    | .undefined => o
    | .bool _ => o
    | .number _ => o
    | .infinity => o
    | .string _ => o
    | v => { o with proto := some v }
  else { o with own := setOwn o.own name value }

/-! ## Environments (`environment.js`) -/

/-- The object built by `new Environment(enclosing)`. -/
def Environment.new (enclosing : Option Nat) : Environment :=
  { values := { own := [], proto := some (.hostObject "Object.prototype") }
    enclosing := enclosing }

/-- Replace the environment at position `id`. -/
def Interp.setEnv (σ : Interp) (id : Nat) (e : Environment) : Interp :=
  { σ with envs := σ.envs.set id e }

/-- Port of `Environment.define` on the environment `id`. -/
def Environment.define (σ : Interp) (id : Nat) (name : String) (value : Value) : Interp :=
  match σ.envs.get? id with
  | none => σ
  | some e => σ.setEnv id { e with values := e.values.write name value }

/-- Port of `Environment.assign` on the environment `id`; `fuel` bounds the walk along
`enclosing`.  The result is the new state or the thrown error. -/
def Environment.assign (σ : Interp) : Nat → Nat → String → Value → Except Signal Interp
  | 0, _, _, _ => .error .outOfFuel
  | fuel + 1, id, name, value =>
    match σ.envs.get? id with
    | none => .error .illFormed
    | some e =>
      if e.values.has σ name then
        .ok (σ.setEnv id { e with values := e.values.write name value })
      else
        match e.enclosing with
        | some parent => Environment.assign σ fuel parent name value
        | none => .error (.throw (.error ("Undefined variable '" ++ name ++ "'.")))

/-- Port of `Environment.get` on the environment `id`. -/
def Environment.get (σ : Interp) : Nat → Nat → String → Except Signal Value
  | 0, _, _ => .error .outOfFuel
  | fuel + 1, id, name =>
    match σ.envs.get? id with
    | none => .error .illFormed
    | some e =>
      if e.values.has σ name then .ok (e.values.read σ name)
      else
        match e.enclosing with
        | some parent => Environment.get σ fuel parent name
        | none => .error (.throw (.error ("Undefined variable '" ++ name ++ "'.")))

/-- Port of `Environment.exists` on the environment `id`. -/
def Environment.exists (σ : Interp) : Nat → Nat → String → Bool
  | 0, _, _ => false
  | fuel + 1, id, name =>
    match σ.envs.get? id with
    | none => false
    | some e =>
      if e.values.has σ name then true
      else
        match e.enclosing with
        | some parent => Environment.exists σ fuel parent name
        | none => false

/-- Port of `Environment.ancestor`: follow `enclosing` `distance` times (`none` is
`null`). -/
def Environment.ancestor (σ : Interp) : Nat → Nat → Option Nat
  | 0, id => some id
  | distance + 1, id =>
    match σ.envs.get? id with
    | none => none
    | some e =>
      match e.enclosing with
      | none => none
      | some parent => Environment.ancestor σ distance parent

/-- Port of `Environment.getAt`. -/
def Environment.getAt (σ : Interp) (id distance : Nat) (name : String) :
    Except Signal Value :=
  match (Environment.ancestor σ distance id).bind (fun a => σ.envs.get? a) with
  | none => .error (.throw (.error "Cannot read properties of null (reading 'values')"))
  | some e => .ok (e.values.read σ name)

/-- Port of `Environment.assignAt`. -/
def Environment.assignAt (σ : Interp) (id distance : Nat) (name : String) (value : Value) :
    Except Signal Interp :=
  match Environment.ancestor σ distance id with
  | none => .error (.throw (.error "Cannot read properties of null (reading 'values')"))
  | some a =>
    match σ.envs.get? a with
    | none => .error .illFormed
    | some e => .ok (σ.setEnv a { e with values := e.values.write name value })

/-! ## Interpreter (`interpreter.js`): value-level helpers -/

/-- Port of `FlexInterpreter.isTruthy`. -/
def isTruthy (σ : Interp) : Value → Bool
  | .null => false
  | .bool b => b
  | .number n => n != 0
  | .string s => decide (s.length > 0)
  | .array id => decide ((σ.arrayElements id).length > 0)
  | _ => true

/-- Port of `FlexInterpreter.isEqual`. -/
def isEqual (a b : Value) : Bool :=
  if strictEquals a .null && strictEquals b .null then true
  else if strictEquals a .null then false
  else strictEquals a b

/-- The integer `e` with `10 ^ e ≤ q < 10 ^ (e + 1)`, for positive `q`: an estimate from
the binary logarithm, corrected. -/
def floorLog10 (q : Rat) : Int :=
  let e0 : Int := (floorLog2 q.num.natAbs q.den * 1233) / 4096
  let e1 := if q < pow10 e0 then e0 - 1 else e0
  let e2 := if q < pow10 e1 then e1 - 1 else e1
  let e3 := if pow10 (e2 + 1) ≤ q then e2 + 1 else e2
  if pow10 (e3 + 1) ≤ q then e3 + 1 else e3

/-- The integers `s` and `n` of `Number::toString` (ECMAScript) for a positive double `x`,
searched from `k` digits on: with `k` as small as possible, `s` has `k` digits and
`s * 10 ^ (n - k)` is a real whose Number value is `x`; of two such `s`, the one nearer to
`x` (the even one when they are as near).  Seventeen digits always suffice. -/
def shortestDigits (x : Rat) : Nat → Nat → Nat × Int
  | 0, k => ((x / pow10 (floorLog10 x + 1 - k)).floor.toNat, floorLog10 x + 1)
  | fuel + 1, k =>
    let n := floorLog10 x + 1
    let scale := pow10 (n - k)
    let s0 := (x / scale).floor.toNat
    let s1 := s0 + 1
    let ok0 := nearestDouble (s0 * scale) == some x
    let ok1 := nearestDouble (s1 * scale) == some x
    let pick1 : Nat × Int := if s1 = 10 ^ k then (10 ^ (k - 1), n + 1) else (s1, n)
    if ok0 && ok1 then
      if x - s0 * scale < s1 * scale - x then (s0, n)
      else if s1 * scale - x < x - s0 * scale then pick1
      else if s0 % 2 = 0 then (s0, n) else pick1
    else if ok0 then (s0, n)
    else if ok1 then pick1
    else shortestDigits x fuel (k + 1)

/-- `Number::toString` for a positive double: the digits of `s`, with zeros or a decimal
point when `n` is from -5 to 21, and in exponent form otherwise. -/
def positiveToString (x : Rat) : String :=
  let (s, n) := shortestDigits x 17 1
  let digits := (toString s).data
  let k : Int := digits.length
  if k ≤ n ∧ n ≤ 21 then String.mk (digits ++ List.replicate (n - k).toNat '0')
  else if 0 < n ∧ n ≤ 21 then
    String.mk (digits.take n.toNat ++ '.' :: digits.drop n.toNat)
  else if -6 < n ∧ n ≤ 0 then
    String.mk ('0' :: '.' :: List.replicate (-n).toNat '0' ++ digits)
  else
    let exponent := (if n - 1 < 0 then "-" else "+") ++ toString (n - 1).natAbs
    match digits with
    | [c] => String.mk [c] ++ "e" ++ exponent
    | c :: rest => String.mk (c :: '.' :: rest) ++ "e" ++ exponent
    | [] => ""

/-- The JavaScript conversion `String(n)` of a finite Number. -/
def numberToString (q : Rat) : String :=
  if q = 0 then "0"
  else if q < 0 then "-" ++ positiveToString (-q)
  else positiveToString q

/-- Port of `FlexInterpreter.stringify`; `fuel` bounds the nesting of arrays, and `none`
is the stack overflow of an array that contains itself.  `value.map(...).join(', ')`
renders a hole of a sparse array as the empty string. -/
def stringify (σ : Interp) : Nat → Value → Option String
  | 0, _ => none
  | fuel + 1, v =>
    match v with
    | .null => some "null"
    | .array id =>
      let parts := (σ.arrayElements id).map (fun o =>
        match o with
        | none => some ""
        | some w => stringify σ fuel w)
      if parts.all Option.isSome then
        some ("[" ++ ", ".intercalate (parts.filterMap (fun x => x)) ++ "]")
      else none
    | .undefined => some "undefined"
    | .bool b => some (if b then "true" else "false")
    | .number n => some (numberToString n)
    | .infinity => some "Infinity"
    | .string s => some s
    | .function _ name _ _ _ => some ("<function " ++ name ++ ">")
    | .native name _ => some ("<native fn: " ++ name ++ ">")
    | .promiseFulfilled _ _ => some "[object Promise]"
    | .promiseRejected _ _ => some "[object Promise]"
    | .promisePending _ => some "[object Promise]"
    | .error m => some ("Error: " ++ m)
    | .returnValue _ => some "[object Object]"
    | .hostFunction name => some ("function " ++ name ++ "() \x7b [native code] \x7d")
    | .hostObject _ => some "[object Object]"

/-- `stringify` as the interpreter calls it: an array nested deeper than the number of
arrays contains itself, and the call overflows the stack. -/
def stringifyValue (σ : Interp) (v : Value) : Except Signal String :=
  match stringify σ (σ.arrays.length + 2) v with
  | some s => .ok s
  | none => .error (.throw (.error "Maximum call stack size exceeded"))

/-- Port of `FlexInterpreter.checkNumberOperand`. -/
def checkNumberOperand (operand : Value) : Except Signal Unit :=
  if typeOf operand == "number" then .ok () else .error (.throw (.error "Operand must be a number."))

/-- Port of `FlexInterpreter.checkNumberOperands`. -/
def checkNumberOperands (left right : Value) : Except Signal Unit :=
  if typeOf left == "number" && typeOf right == "number" then .ok ()
  else .error (.throw (.error "Operands must be numbers."))

/-- The Number value of the real result of an operation on finite Numbers; the result
`-Infinity` is not a value of the model. -/
def numberResult (q : Rat) : Except Signal Value :=
  match nearestDouble q with
  | some d => .ok (.number d)
  | none => if 0 < q then .ok .infinity else .error (.notEmbedded "the Number -Infinity")

/-- An arithmetic operator of JavaScript on two values whose `typeof` is `number`: the
Number value of the real result.  The operations on `Infinity` are not embedded. -/
def arithmetic (operation : Rat → Rat → Rat) (left right : Value) : Except Signal Value :=
  match left, right with
  | .number a, .number b => numberResult (operation a b)
  | _, _ => .error (.notEmbedded "arithmetic on Infinity")

/-- The JavaScript operator `<` on two values whose `typeof` is `number`. -/
def numberLess (left right : Value) : Bool :=
  match left, right with
  | .number a, .number b => decide (a < b)
  | .number _, .infinity => true
  | _, _ => false

/-- The `switch` of `FlexInterpreter.evaluateBinaryExpression`, applied to the operand
values `left` and `right` it has obtained. -/
def binaryOperation (σ : Interp) (operator : TokenType) (left right : Value) :
    Except Signal Value :=
  match operator with
  | .MINUS => do
    checkNumberOperands left right
    arithmetic (fun a b => a - b) left right
  | .PLUS =>
    if typeOf left == "number" && typeOf right == "number" then
      arithmetic (fun a b => a + b) left right
    else if typeOf left == "string" || typeOf right == "string" then do
      let l ← stringifyValue σ left
      let r ← stringifyValue σ right
      pure (.string (l ++ r))
    else .error (.throw (.error "Operands must be numbers or strings."))
  | .SLASH => do
    checkNumberOperands left right
    if strictEquals right (.number 0) then .error (.throw (.error "Division by zero."))
    else arithmetic (fun a b => a / b) left right
  | .STAR => do
    checkNumberOperands left right
    arithmetic (fun a b => a * b) left right
  | .GREATER => do
    checkNumberOperands left right
    pure (.bool (numberLess right left))
  | .GREATER_EQUAL => do
    checkNumberOperands left right
    pure (.bool (!numberLess left right))
  | .LESS => do
    checkNumberOperands left right
    pure (.bool (numberLess left right))
  | .LESS_EQUAL => do
    checkNumberOperands left right
    pure (.bool (!numberLess right left))
  | .EQUAL_EQUAL => pure (.bool (isEqual left right))
  | .BANG_EQUAL => pure (.bool (!isEqual left right))
  | _ => pure .null

/-- The `switch` of `FlexInterpreter.evaluateUnaryExpression`, applied to the operand value
it has obtained. -/
def unaryOperation (σ : Interp) (operator : TokenType) (right : Value) : Except Signal Value :=
  match operator with
  | .BANG => pure (.bool (!isTruthy σ right))
  | .MINUS => do
    checkNumberOperand right
    match right with
    | .number n => pure (.number (-n))
    | _ => .error (.notEmbedded "the Number -Infinity")
  | _ => pure .null

/-- The lines of `FlexInterpreter.evaluateGetExpression` after the operand was obtained. -/
def getProperty (σ : Interp) (object : Value) (name : Token) : Except Signal Value :=
  match object with
  | .null => .error (.throw (.error "Cannot read property of null."))
  | _ =>
    let generic : Except Signal Value :=
      if typeOf object == "object" && hasMember σ object name.lexeme then
        .ok (getMember σ object name.lexeme)
      else .error (.throw (.error ("Undefined property: " ++ name.lexeme)))
    match object with
    | .array id =>
      if name.type == .NUMBER then
        match name.literal with
        | .number index =>
          if index < 0 ∨ index ≥ (σ.arrayElements id).length then
            .error (.throw (.error ("Array index out of bounds: " ++ numberToString index)))
          else if index.den = 1 then
            .ok (((σ.arrayElements id).getD index.num.natAbs none).getD .undefined)
          else .ok .undefined
        | .infinity => .error (.throw (.error "Array index out of bounds: Infinity"))
        | _ => .ok .undefined
      else if name.lexeme == "length" then .ok (.number (σ.arrayElements id).length)
      else generic
    | _ => generic

/-- The JavaScript write `a[i] = value` on array elements: a write past the end extends
the array and leaves holes in between. -/
def writeIndex (elements : List (Option Value)) (i : Nat) (value : Value) :
    List (Option Value) :=
  if i < elements.length then elements.set i (some value)
  else elements ++ List.replicate (i - elements.length) none ++ [some value]

/-- Replace the elements of the array `id`. -/
def Interp.setArray (σ : Interp) (id : Nat) (elements : List (Option Value)) : Interp :=
  { σ with arrays := (id, elements) :: σ.arrays.filter (fun p => p.1 != id) }

/-- Add or replace the dynamically added property `name` of the object with key `k`. -/
def Interp.setProp (σ : Interp) (k : ObjKey) (name : String) (value : Value) : Interp :=
  { σ with props := (k, name, value) :: σ.props.filter (fun p => !(p.1 == k && p.2.1 == name)) }

/-- The lines of `FlexInterpreter.evaluateSetExpression` after both operands were obtained
(the `null` test on the object comes before the value is evaluated and is repeated here).
On an array, a whole number below `2^32 - 1` is an element index; any other number names
an ordinary property.  Writes of `length` on an array and of `__proto__` are not modelled
and leave the state unchanged. -/
def setProperty (σ : Interp) (object : Value) (name : Token) (value : Value) :
    Interp × Except Signal Value :=
  let generic : Interp × Except Signal Value :=
    if typeOf object == "object" then
      match object.key with
      | some k =>
        if name.lexeme == "__proto__" || (object matches .array _ && name.lexeme == "length")
        then (σ, .ok value)
        else (σ.setProp k name.lexeme value, .ok value)
      | none => (σ, .ok value)
    else (σ, .error (.throw (.error ("Cannot set property on value of type " ++ typeOf object))))
  match object with
  | .null => (σ, .error (.throw (.error "Cannot set property of null.")))
  | .array id =>
    if name.type == .NUMBER then
      match name.literal with
      | .number index =>
        if index < 0 then
          (σ, .error (.throw (.error ("Array index out of bounds: " ++ numberToString index))))
        else if index.den = 1 ∧ index.num.natAbs < 4294967295 then
          (σ.setArray id (writeIndex (σ.arrayElements id) index.num.natAbs value), .ok value)
        else (σ.setProp (.id id) (numberToString index) value, .ok value)
      | .infinity => (σ.setProp (.id id) "Infinity" value, .ok value)
      | _ => (σ, .ok value)
    else generic
  | _ => generic

/-- The JavaScript conversion of a value to a boolean, as the operator `!` applies it. -/
def jsTruthy : Value → Bool
  | .null => false
  | .undefined => false
  | .bool b => b
  | .number n => n != 0
  | .string s => s != ""
  | _ => true

/-- Port of `FlexInterpreter.handleError`. -/
def handleError (σ : Interp) (error : Value) : Interp :=
  match error with
  | .returnValue _ => σ
  | _ =>
    let message :=
      match error with
      | .error m => m
      | _ => "undefined"
    { σ with terminal := σ.terminal ++ [.writeLine ("Runtime Error: " ++ message) "error"]
             isRunning := false
             isStopped := true }

/-! ## Interpreter: control flow

A routine of the interpreter is a function from the state to the new state and either a
value or a `Signal`.

Every method declared `async` returns a promise to its caller.  A caller that writes
`await` continues with the settled value; the methods `executeAssignment`,
`evaluateBinaryExpression`, `evaluateLogicalExpression`, `evaluateUnaryExpression`,
`evaluateArrayLiteral`, `evaluateGetExpression`, `evaluateSetExpression`,
`executeVariableDeclaration` and `executeReturnStatement` call the `async` method
`evaluateExpression` without `await` and continue with the promise object itself
(`callAsync`).  `evaluateExpression` suspends only on a call expression; an un-awaited
evaluation of a call expression runs up to that point, leaves the rest of the call to a
later turn of the event loop and hands a pending promise to its caller.  The model runs
this synchronous part, sets `deferred` and does not run the deferred rest. -/

/-- A routine of the interpreter. -/
abbrev Routine (α : Type) := Interp → Interp × Except Signal α

/-- Continue with the value of the first routine. -/
def Routine.bind {α β : Type} (m : Routine α) (f : α → Routine β) : Routine β := fun σ =>
  match m σ with
  | (σ1, .ok a) => f a σ1
  | (σ1, .error e) => (σ1, .error e)

/-- Return a value without touching the state. -/
def Routine.pure {α : Type} (a : α) : Routine α := fun σ => (σ, .ok a)

instance : Monad Routine where
  pure := Routine.pure
  bind := Routine.bind

/-- End with a signal. -/
def Routine.signal {α : Type} (e : Signal) : Routine α := fun σ => (σ, .error e)

/-- The statement `throw new Error(message)`. -/
def throwMessage {α : Type} (message : String) : Routine α :=
  Routine.signal (.throw (.error message))

/-- Run a computation that reads the state only. -/
def Routine.ofExcept {α : Type} (f : Interp → Except Signal α) : Routine α := fun σ => (σ, f σ)

/-- The value a promise settles to when it is resolved with `v`: a promise adopts the
state of the promise it is resolved with. -/
def settle (id : Nat) : Value → Value
  | .promiseFulfilled _ w => .promiseFulfilled id w
  | .promiseRejected _ r => .promiseRejected id r
  | .promisePending _ => .promisePending id
  | v => .promiseFulfilled id v

/-- What the caller of an `async` method that does not write `await` continues with: a
new promise object, fulfilled with the returned value, rejected with the thrown one, or
pending. -/
def callAsync (m : Routine Value) : Routine Value := fun σ =>
  match m σ with
  | (σ1, .ok v) => ({ σ1 with nextId := σ1.nextId + 1 }, .ok (settle σ1.nextId v))
  | (σ1, .error (.throw r)) =>
    ({ σ1 with nextId := σ1.nextId + 1 }, .ok (.promiseRejected σ1.nextId r))
  | (σ1, .error .pending) =>
    ({ σ1 with nextId := σ1.nextId + 1 }, .ok (.promisePending σ1.nextId))
  | (σ1, .error e) => (σ1, .error e)

/-- The JavaScript operator `await` applied to a value. -/
def awaitValue : Value → Except Signal Value
  | .promiseFulfilled _ w => .ok w
  | .promiseRejected _ r => .error (.throw r)
  | .promisePending _ => .error .pending
  | v => .ok v

/-- What the caller of an `async` method that writes `await` continues with. -/
def await (m : Routine Value) : Routine Value := fun σ =>
  match m σ with
  | (σ1, .ok v) => (σ1, awaitValue v)
  | (σ1, .error e) => (σ1, .error e)

/-- A `try { m } catch (error) { handler }` statement: only thrown values are caught. -/
def tryCatch {α : Type} (m : Routine α) (handler : Value → Routine α) : Routine α := fun σ =>
  match m σ with
  | (σ1, .error (.throw r)) => handler r σ1
  | other => other

/-- A `try { m } finally { cleanup }` statement: the cleanup runs when `m` returns or
throws. -/
def tryFinally {α : Type} (m : Routine α) (cleanup : Interp → Interp) : Routine α := fun σ =>
  match m σ with
  | (σ1, .ok a) => (cleanup σ1, .ok a)
  | (σ1, .error (.throw r)) => (cleanup σ1, .error (.throw r))
  | other => other

/-- A call on the terminal collaborator. -/
def terminalCall (c : TerminalCall) : Routine Unit := fun σ =>
  ({ σ with terminal := σ.terminal ++ [c] }, .ok ())

/-- The expression `new Environment(enclosing)`: the position of the new environment. -/
def newEnvironment (enclosing : Option Nat) : Routine Nat := fun σ =>
  ({ σ with envs := σ.envs ++ [Environment.new enclosing] }, .ok σ.envs.length)

/-- Port of `FlexInterpreter.lookupVariable`. -/
def lookupVariable (name : String) (expr : Expr) : Routine Value := fun σ =>
  match σ.locals expr with
  | some distance => (σ, Environment.getAt σ σ.environment distance name)
  | none => (σ, Environment.get σ σ.envs.length σ.globals name)

/-- The branch of `FlexInterpreter.executeAssignment` after the value was obtained. -/
def storeAssignment (node : Expr) (name : String) (value : Value) : Routine Value := fun σ =>
  let stored :=
    match σ.locals node with
    | some distance => Environment.assignAt σ σ.environment distance name value
    | none => Environment.assign σ σ.envs.length σ.globals name value
  match stored with
  | .ok σ1 => (σ1, .ok value)
  | .error e => (σ, .error e)

/-- The parameter loop of `FlexFunction.call`: `environment.define(parameters[i],
args[i])`, where a missing argument reads as `undefined`. -/
def defineParameters (env : Nat) : List String → List Value → Interp → Interp
  | [], _, σ => σ
  | p :: ps, [], σ => defineParameters env ps [] (Environment.define σ env p .undefined)
  | p :: ps, a :: rest, σ => defineParameters env ps rest (Environment.define σ env p a)

/-- The method `arity()` of a callable value (`none`: the value has no such method). -/
def arityOf : Value → Option Int
  | .function _ _ parameters _ _ => some parameters.length
  | .native _ arity => some arity
  | _ => none

/-- The script of the host answers an input request: a line of text (`provideInput`), a
stop command (`stop`, which cancels the request only while a run is in progress), or
nothing yet. -/
def requestInput (prompt : String) : Routine Value := fun σ =>
  let σ1 := { σ with waitingForInput := true
                     terminal := σ.terminal ++ [TerminalCall.requestInput prompt] }
  match σ1.inputs with
  | some line :: rest =>
    ({ σ1 with inputs := rest, waitingForInput := false }, .ok (.string line))
  | none :: rest =>
    if σ1.isRunning then
      ({ σ1 with inputs := rest, waitingForInput := false, isStopped := true }, .ok .null)
    else ({ σ1 with inputs := rest }, .error .pending)
  | [] => (σ1, .error .pending)

/-! ## Interpreter: evaluation and execution

The `call` operations of the native functions are a parameter `callNative` of the
evaluator: `callNative name args` is what `callee.call(this, args)` does for the native
registered under `name`. -/

mutual

/-- Port of `FlexInterpreter.evaluateExpression`: what the body of the method returns or
throws.  `awaited` tells whether the caller writes `await`; it matters for a call
expression only, where an un-awaited evaluation runs the part before the first suspension
(the evaluation of the callee) and leaves the rest pending. -/
def evaluateExpression (callNative : String → List Value → Routine Value) :
    Nat → Bool → Expr → Routine Value
  | 0, _, _ => Routine.signal .outOfFuel
  | fuel + 1, awaited, expr =>
    match expr with
    | .literal value => pure value.toValue
    | .variable name => lookupVariable name expr
    | .assignment name value => executeAssignment callNative fuel expr name value
    | .binary left operator right =>
      evaluateBinaryExpression callNative fuel left operator right
    | .logical left operator right =>
      evaluateLogicalExpression callNative fuel awaited left operator right
    | .unary operator right => evaluateUnaryExpression callNative fuel operator right
    | .call callee _ arguments =>
      if awaited then evaluateCallExpression callNative fuel callee arguments
      else fun σ =>
        match evaluateExpression callNative fuel false callee σ with
        | (σ1, .error .outOfFuel) => (σ1, .error .outOfFuel)
        | (σ1, .error .illFormed) => (σ1, .error .illFormed)
        | (σ1, .error (.notEmbedded operation)) => (σ1, .error (.notEmbedded operation))
        | (σ1, _) => ({ σ1 with deferred := true }, .error .pending)
    | .grouping expression => evaluateExpression callNative fuel awaited expression
    | .arrayLiteral elements => evaluateArrayLiteral callNative fuel elements
    | .get object name => evaluateGetExpression callNative fuel object name
    | .set object name value => evaluateSetExpression callNative fuel object name value
termination_by structural fuel _ _ => fuel

/-- Port of `FlexInterpreter.executeAssignment`; `node` is the AST node, the key of
`this.locals`. -/
def executeAssignment (callNative : String → List Value → Routine Value) :
    Nat → Expr → String → Expr → Routine Value
  | 0, _, _, _ => Routine.signal .outOfFuel
  | fuel + 1, node, name, valueExpr => do
    let value ← callAsync (evaluateExpression callNative fuel false valueExpr)
    storeAssignment node name value
termination_by structural fuel _ _ _ => fuel

/-- Port of `FlexInterpreter.evaluateBinaryExpression`. -/
def evaluateBinaryExpression (callNative : String → List Value → Routine Value) :
    Nat → Expr → Token → Expr → Routine Value
  | 0, _, _, _ => Routine.signal .outOfFuel
  | fuel + 1, leftExpr, operator, rightExpr => do
    let left ← callAsync (evaluateExpression callNative fuel false leftExpr)
    let right ← callAsync (evaluateExpression callNative fuel false rightExpr)
    Routine.ofExcept (fun σ => binaryOperation σ operator.type left right)
termination_by structural fuel _ _ _ => fuel

/-- Port of `FlexInterpreter.evaluateLogicalExpression`. -/
def evaluateLogicalExpression (callNative : String → List Value → Routine Value) :
    Nat → Bool → Expr → Token → Expr → Routine Value
  | 0, _, _, _, _ => Routine.signal .outOfFuel
  | fuel + 1, awaited, leftExpr, operator, rightExpr => fun σ =>
    match callAsync (evaluateExpression callNative fuel false leftExpr) σ with
    | (σ1, .error e) => (σ1, .error e)
    | (σ1, .ok left) =>
      if operator.type == .OR then
        if isTruthy σ1 left then (σ1, .ok left)
        else evaluateExpression callNative fuel awaited rightExpr σ1
      else
        if !isTruthy σ1 left then (σ1, .ok left)
        else evaluateExpression callNative fuel awaited rightExpr σ1
termination_by structural fuel _ _ _ _ => fuel

/-- Port of `FlexInterpreter.evaluateUnaryExpression`. -/
def evaluateUnaryExpression (callNative : String → List Value → Routine Value) :
    Nat → Token → Expr → Routine Value
  | 0, _, _ => Routine.signal .outOfFuel
  | fuel + 1, operator, rightExpr => do
    let right ← callAsync (evaluateExpression callNative fuel false rightExpr)
    Routine.ofExcept (fun σ => unaryOperation σ operator.type right)
termination_by structural fuel _ _ => fuel

/-- The argument loop of `FlexInterpreter.evaluateCallExpression`. -/
def evaluateArguments (callNative : String → List Value → Routine Value) :
    Nat → List Expr → Routine (List Value)
  | 0, _ => Routine.signal .outOfFuel
  | _ + 1, [] => pure []
  | fuel + 1, arg :: rest => do
    let v ← await (evaluateExpression callNative fuel true arg)
    let vs ← evaluateArguments callNative fuel rest
    pure (v :: vs)
termination_by structural fuel _ => fuel

/-- Port of `FlexInterpreter.evaluateCallExpression`. -/
def evaluateCallExpression (callNative : String → List Value → Routine Value) :
    Nat → Expr → List Expr → Routine Value
  | 0, _, _ => Routine.signal .outOfFuel
  | fuel + 1, calleeExpr, arguments => do
    let callee ← await (evaluateExpression callNative fuel true calleeExpr)
    if typeOf callee != "object" then throwMessage "Can only call functions."
    else
      match callee with
      | .null => throwMessage "Cannot read properties of null (reading 'call')"
      | _ => fun σ =>
        if !jsTruthy (getMember σ callee "call") then
          throwMessage "Can only call functions." σ
        else
          match evaluateArguments callNative fuel arguments σ with
          | (σ1, .error e) => (σ1, .error e)
          | (σ1, .ok args) =>
            match arityOf callee with
            | none => throwMessage "callee.arity is not a function" σ1
            | some arity =>
              if (args.length : Int) != arity && arity != -1 then
                throwMessage ("Expected " ++ toString arity ++ " arguments but got " ++
                  toString args.length ++ ".") σ1
              else
                match callee with
                | .function _ _ parameters body closure =>
                  await (flexFunctionCall callNative fuel closure parameters body args) σ1
                | .native name _ => await (callNative name args) σ1
                | _ => throwMessage "callee.call is not a function" σ1
termination_by structural fuel _ _ => fuel

/-- Port of `FlexFunction.call`. -/
def flexFunctionCall (callNative : String → List Value → Routine Value) :
    Nat → Nat → List String → List Stmt → List Value → Routine Value
  | 0, _, _, _, _ => Routine.signal .outOfFuel
  | fuel + 1, closure, parameters, body, args => do
    let environment ← newEnvironment (some closure)
    tryCatch
      (fun σ =>
        match executeBlock callNative fuel body environment
            (defineParameters environment parameters args σ) with
        | (σ1, .ok _) => (σ1, .ok .null)
        | (σ1, .error e) => (σ1, .error e))
      (fun error =>
        match error with
        | .returnValue value => pure value
        | _ => Routine.signal (.throw error))
termination_by structural fuel _ _ _ _ => fuel

/-- Port of `FlexInterpreter.evaluateArrayLiteral`: the loop that collects the elements. -/
def evaluateElements (callNative : String → List Value → Routine Value) :
    Nat → List Expr → Routine (List Value)
  | 0, _ => Routine.signal .outOfFuel
  | _ + 1, [] => pure []
  | fuel + 1, element :: rest => do
    let v ← callAsync (evaluateExpression callNative fuel false element)
    let vs ← evaluateElements callNative fuel rest
    pure (v :: vs)
termination_by structural fuel _ => fuel

/-- Port of `FlexInterpreter.evaluateArrayLiteral`. -/
def evaluateArrayLiteral (callNative : String → List Value → Routine Value) :
    Nat → List Expr → Routine Value
  | 0, _ => Routine.signal .outOfFuel
  | fuel + 1, elements => do
    let vs ← evaluateElements callNative fuel elements
    fun σ =>
      ({ σ with nextId := σ.nextId + 1
                arrays := (σ.nextId, vs.map some) :: σ.arrays }, .ok (.array σ.nextId))
termination_by structural fuel _ => fuel

/-- Port of `FlexInterpreter.evaluateGetExpression`. -/
def evaluateGetExpression (callNative : String → List Value → Routine Value) :
    Nat → Expr → Token → Routine Value
  | 0, _, _ => Routine.signal .outOfFuel
  | fuel + 1, objectExpr, name => do
    let object ← callAsync (evaluateExpression callNative fuel false objectExpr)
    Routine.ofExcept (fun σ => getProperty σ object name)
termination_by structural fuel _ _ => fuel

/-- Port of `FlexInterpreter.evaluateSetExpression`. -/
def evaluateSetExpression (callNative : String → List Value → Routine Value) :
    Nat → Expr → Token → Expr → Routine Value
  | 0, _, _, _ => Routine.signal .outOfFuel
  | fuel + 1, objectExpr, name, valueExpr => do
    let object ← callAsync (evaluateExpression callNative fuel false objectExpr)
    match object with
    | .null => throwMessage "Cannot set property of null."
    | _ =>
      let value ← callAsync (evaluateExpression callNative fuel false valueExpr)
      fun σ => setProperty σ object name value
termination_by structural fuel _ _ _ => fuel

/-- The `for` loop of `FlexInterpreter.executeBlock`. -/
def executeStatements (callNative : String → List Value → Routine Value) :
    Nat → List Stmt → Routine Unit
  | 0, _ => Routine.signal .outOfFuel
  | _ + 1, [] => pure ()
  | fuel + 1, statement :: rest => fun σ =>
    if σ.isStopped then (σ, .ok ())
    else
      match await (executeStatement callNative fuel statement) σ with
      | (σ1, .ok _) => executeStatements callNative fuel rest σ1
      | (σ1, .error e) => (σ1, .error e)
termination_by structural fuel _ => fuel

/-- Port of `FlexInterpreter.executeBlock`. -/
def executeBlock (callNative : String → List Value → Routine Value) :
    Nat → List Stmt → Nat → Routine Unit
  | 0, _, _ => Routine.signal .outOfFuel
  | fuel + 1, statements, environment => fun σ =>
    tryFinally (executeStatements callNative fuel statements)
      (fun s => { s with environment := σ.environment })
      { σ with environment := environment }
termination_by structural fuel _ _ => fuel

/-- Port of `FlexInterpreter.executeStatement`: what the body of the method returns or
throws.  The statement tag `Assignment` returns the promise of `executeAssignment` without
`await`, so only what that method throws before returning is caught here. -/
def executeStatement (callNative : String → List Value → Routine Value) :
    Nat → Stmt → Routine Value
  | 0, _ => Routine.signal .outOfFuel
  | fuel + 1, stmt => fun σ =>
    if σ.isStopped then (σ, .ok .undefined)
    else
      tryCatch
        (match stmt with
         | .expressionStatement expression =>
           await (evaluateExpression callNative fuel true expression)
         | .printStatement expression isLine =>
           executePrintStatement callNative fuel expression isLine
         | .inputStatement _ prompt => executeInputStatement callNative fuel prompt
         | .variableDeclaration name init =>
           executeVariableDeclaration callNative fuel name init
         | .assignment name value =>
           executeAssignment callNative fuel (.assignment name value) name value
         | .block statements => do
           let environment ← newEnvironment (some σ.environment)
           executeBlock callNative fuel statements environment
           pure .undefined
         | .ifStatement condition thenBranch elseBranch =>
           executeIfStatement callNative fuel condition thenBranch elseBranch
         | .whileStatement condition body =>
           executeWhileStatement callNative fuel condition body
         | .functionDeclaration name parameters body => fun σ0 =>
           (Environment.define { σ0 with nextId := σ0.nextId + 1 } σ0.environment name
             (.function σ0.nextId name parameters body σ0.environment), .ok .undefined)
         | .returnStatement _ value => executeReturnStatement callNative fuel value)
        (fun error =>
          match error with
          | .returnValue _ => Routine.signal (.throw error)
          | _ => fun σ1 => (handleError σ1 error, .ok .undefined))
        σ
termination_by structural fuel _ => fuel

/-- Port of `FlexInterpreter.executePrintStatement`. -/
def executePrintStatement (callNative : String → List Value → Routine Value) :
    Nat → Expr → Bool → Routine Value
  | 0, _, _ => Routine.signal .outOfFuel
  | fuel + 1, expression, isLine => do
    let value ← await (evaluateExpression callNative fuel true expression)
    let output ← Routine.ofExcept (fun σ => stringifyValue σ value)
    if isLine then terminalCall (.writeLine output "") else terminalCall (.write output)
    pure .undefined
termination_by structural fuel _ _ => fuel

/-- Port of `FlexInterpreter.executeInputStatement`. -/
def executeInputStatement (callNative : String → List Value → Routine Value) :
    Nat → Option Expr → Routine Value
  | 0, _ => Routine.signal .outOfFuel
  | fuel + 1, prompt => do
    let text ←
      match prompt with
      | some p => do
        let promptValue ← await (evaluateExpression callNative fuel true p)
        Routine.ofExcept (fun σ => stringifyValue σ promptValue)
      | none => (pure "Input: " : Routine String)
    let input ← requestInput text
    match input with
    | .null => throwMessage "Input cancelled"
    | _ => pure input
termination_by structural fuel _ => fuel

/-- Port of `FlexInterpreter.executeVariableDeclaration`. -/
def executeVariableDeclaration (callNative : String → List Value → Routine Value) :
    Nat → String → Option Expr → Routine Value
  | 0, _, _ => Routine.signal .outOfFuel
  | fuel + 1, name, init => do
    let value ←
      match init with
      | some e => callAsync (evaluateExpression callNative fuel false e)
      | none => (pure .null : Routine Value)
    fun σ => (Environment.define σ σ.environment name value, .ok .undefined)
termination_by structural fuel _ _ => fuel

/-- Port of `FlexInterpreter.executeIfStatement`. -/
def executeIfStatement (callNative : String → List Value → Routine Value) :
    Nat → Expr → Stmt → Option Stmt → Routine Value
  | 0, _, _, _ => Routine.signal .outOfFuel
  | fuel + 1, condition, thenBranch, elseBranch => fun σ =>
    match await (evaluateExpression callNative fuel true condition) σ with
    | (σ1, .error e) => (σ1, .error e)
    | (σ1, .ok c) =>
      if isTruthy σ1 c then
        match await (executeStatement callNative fuel thenBranch) σ1 with
        | (σ2, .ok _) => (σ2, .ok .undefined)
        | (σ2, .error e) => (σ2, .error e)
      else
        match elseBranch with
        | some s =>
          match await (executeStatement callNative fuel s) σ1 with
          | (σ2, .ok _) => (σ2, .ok .undefined)
          | (σ2, .error e) => (σ2, .error e)
        | none => (σ1, .ok .undefined)
termination_by structural fuel _ _ _ => fuel

/-- Port of `FlexInterpreter.executeWhileStatement`; the pause `setTimeout(resolve, 0)`
between two rounds gives way to the host and changes nothing. -/
def executeWhileStatement (callNative : String → List Value → Routine Value) :
    Nat → Expr → Stmt → Routine Value
  | 0, _, _ => Routine.signal .outOfFuel
  | fuel + 1, condition, body => fun σ =>
    match await (evaluateExpression callNative fuel true condition) σ with
    | (σ1, .error e) => (σ1, .error e)
    | (σ1, .ok c) =>
      if isTruthy σ1 c && !σ1.isStopped then
        match await (executeStatement callNative fuel body) σ1 with
        | (σ2, .ok _) => executeWhileStatement callNative fuel condition body σ2
        | (σ2, .error e) => (σ2, .error e)
      else (σ1, .ok .undefined)
termination_by structural fuel _ _ => fuel

/-- Port of `FlexInterpreter.executeReturnStatement`. -/
def executeReturnStatement (callNative : String → List Value → Routine Value) :
    Nat → Option Expr → Routine Value
  | 0, _ => Routine.signal .outOfFuel
  | fuel + 1, valueExpr => do
    let value ←
      match valueExpr with
      | some e => callAsync (evaluateExpression callNative fuel false e)
      | none => (pure .null : Routine Value)
    Routine.signal (.throw (.returnValue value))
termination_by structural fuel _ => fuel

end

/-- The `for` loop of `FlexInterpreter.execute`. -/
def executeProgram (callNative : String → List Value → Routine Value) (fuel : Nat) :
    List Stmt → Routine Unit
  | [] => pure ()
  | statement :: rest => fun σ =>
    if σ.isStopped then terminalCall (.writeLine "Execution stopped by user." "warning") σ
    else
      match await (executeStatement callNative fuel statement) σ with
      | (σ1, .ok _) => executeProgram callNative fuel rest σ1
      | (σ1, .error e) => (σ1, .error e)

/-- Port of `FlexInterpreter.execute`.  `parse` always returns a node with a `statements`
array, so the branch `Failed to parse program.` is not entered. -/
def execute (callNative : String → List Value → Routine Value) (fuel : Nat) (code : String) :
    Routine Unit :=
  tryFinally
    (tryCatch
      (do
        (fun σ => ({ σ with isRunning := true, isStopped := false }, .ok ()) : Routine Unit)
        terminalCall (.writeLine "Tokenizing..." "info")
        let tokens := tokenize code
        terminalCall (.writeLine "Parsing..." "info")
        match parse tokens with
        | none => Routine.signal .outOfFuel
        | some statements =>
          terminalCall (.writeLine "Executing..." "info")
          executeProgram callNative fuel statements
          fun σ =>
            if !σ.isStopped then terminalCall .programCompleted σ else (σ, .ok ()))
      (fun error σ => (handleError σ error, .ok ())))
    (fun σ => { σ with isRunning := false })

/-- The constructor of `FlexInterpreter`: a single, global environment into which
`initializeStandardLibrary` has defined the entries of `registry`, in order. -/
def FlexInterpreter.new (registry : List (String × Value)) : Interp :=
  registry.foldl (fun σ entry => Environment.define σ 0 entry.1 entry.2)
    { envs := [Environment.new none]
      arrays := []
      props := []
      nextId := 0
      environment := 0
      globals := 0
      locals := fun _ => none
      terminal := []
      inputs := []
      isRunning := false
      isStopped := false
      waitingForInput := false
      deferred := false }

/-- The entries `registerIO`, `registerMath` and `registerString` define in the global
environment: each native function with the arity it declares (`-1` is the variable-arity
mark), and the constants `PI` and `E`, the doubles `Math.PI` and `Math.E`, which
JavaScript prints as 3.141592653589793 and 2.718281828459045. -/
def standardLibrary : List (String × Value) :=
  [("print", .native "print" 1), ("etb3", .native "etb3" 1),
   ("printLine", .native "printLine" 1), ("input", .native "input" (-1)),
   ("da5l", .native "da5l" (-1)), ("d5l", .native "d5l" (-1)),
   ("scan", .native "scan" (-1)), ("clearScreen", .native "clearScreen" 0),
   ("abs", .native "abs" 1), ("round", .native "round" 1), ("floor", .native "floor" 1),
   ("ceil", .native "ceil" 1), ("pow", .native "pow" 2), ("sqrt", .native "sqrt" 1),
   ("random", .native "random" (-1)), ("sin", .native "sin" 1), ("cos", .native "cos" 1),
   ("tan", .native "tan" 1), ("min", .native "min" (-1)), ("max", .native "max" (-1)),
   ("PI", .number (884279719003555 / 281474976710656)),
   ("E", .number (6121026514868073 / 2251799813685248)),
   ("length", .native "length" 1), ("toUpper", .native "toUpper" 1),
   ("toLower", .native "toLower" 1), ("substring", .native "substring" (-1)),
   ("replace", .native "replace" 3), ("split", .native "split" 2),
   ("trim", .native "trim" 1), ("startsWith", .native "startsWith" 2),
   ("endsWith", .native "endsWith" 2), ("contains", .native "contains" 2),
   ("indexOf", .native "indexOf" 2), ("repeat", .native "repeat" 2),
   ("padLeft", .native "padLeft" (-1)), ("padRight", .native "padRight" (-1))]

/-- The `call` operations of the native functions (`stdlib/io.js`, `stdlib/math.js`,
`stdlib/string.js`) are not part of this embedding: with this parameter, the call of a
native function ends a run of the model with the signal `notEmbedded`. -/
def nativesNotEmbedded : String → List Value → Routine Value :=
  fun name _ => Routine.signal (.notEmbedded ("native function " ++ name))

/-- What `main.js` does for the Run button on a page that loaded the three library
modules: `new FlexInterpreter(terminal)` followed by `execute(code)`. -/
def run (code : String) : Interp × Except Signal Unit :=
  execute nativesNotEmbedded 1000 code (FlexInterpreter.new standardLibrary)

/-- Whether a routine ended by returning, rather than with a signal. -/
def returned {α : Type} (r : Interp × Except Signal α) : Bool :=
  match r.2 with
  | .ok _ => true
  | .error _ => false

/-- The three terminal calls `execute` makes before the first statement runs. -/
def prologue : List TerminalCall :=
  [.writeLine "Tokenizing..." "info", .writeLine "Parsing..." "info",
   .writeLine "Executing..." "info"]

/-- Names of the own properties of each environment of a state, with its parent. -/
def Interp.frames (σ : Interp) : List (Option Nat × List String) :=
  σ.envs.map (fun e => (e.enclosing, e.values.own.map (·.1)))

/-- A `NUMBER` token for the index `i`, as the lexer builds it for the digits of `i`. -/
def indexToken (i : Nat) : Token :=
  { type := .NUMBER, lexeme := toString i, literal := .number i, line := 1 }

/-- A state whose only array, with identity `0`, holds the given elements. -/
def withArray (elements : List (Option Value)) : Interp :=
  { FlexInterpreter.new [] with arrays := [(0, elements)], nextId := 1 }

/-- The call `callee.call(this, args)` at the end of
`FlexInterpreter.evaluateCallExpression`: `FlexFunction.call` for a function declared in
the program, the registered `call` operation for a native function. -/
def invoke (callNative : String → List Value → Routine Value) (fuel : Nat) (callee : Value)
    (args : List Value) : Routine Value :=
  match callee with
  | .function _ _ parameters body closure =>
    flexFunctionCall callNative fuel closure parameters body args
  | .native name _ => callNative name args
  | _ => throwMessage "callee.call is not a function"

/-- The state in which a second run on the same interpreter instance starts: everything
the first run left, with the terminal log started afresh (so that it collects the output
of the second run only) and the host supplying the script `inputs` again. -/
def Interp.nextRun (σ : Interp) (inputs : List (Option String)) : Interp :=
  { σ with terminal := [], inputs := inputs }

/-- Two consecutive runs of `code` on one new interpreter instance, each with the input
script `inputs`: the terminal calls of the first run and those of the second. -/
def runTwice (code : String) (inputs : List (Option String)) :
    List TerminalCall × List TerminalCall :=
  let first :=
    execute nativesNotEmbedded 1000 code
      ((FlexInterpreter.new standardLibrary).nextRun inputs)
  let second := execute nativesNotEmbedded 1000 code (first.1.nextRun inputs)
  (first.1.terminal, second.1.terminal)

/-! ## Native functions (`stdlib/io.js`, `stdlib/math.js`, `stdlib/string.js`) -/

/-- The JavaScript conversion `String(value)`, as `IO.print` and `IO.println` apply it.  An
array is its elements joined by `,`, where `null`, `undefined` and a hole give the empty
string; `fuel` bounds the nesting of arrays. -/
def jsString (σ : Interp) : Nat → Value → String
  | 0, _ => ""
  | fuel + 1, v =>
    match v with
    | .null => "null"
    | .undefined => "undefined"
    | .bool b => if b then "true" else "false"
    | .number n => numberToString n
    | .infinity => "Infinity"
    | .string s => s
    | .array id =>
      ",".intercalate ((σ.arrayElements id).map (fun o =>
        match o with
        | none => ""
        | some .null => ""
        | some .undefined => ""
        | some w => jsString σ fuel w))
    | .function _ name _ _ _ => "<function " ++ name ++ ">"
    | .native name _ => "<native fn: " ++ name ++ ">"
    | .promiseFulfilled _ _ => "[object Promise]"
    | .promiseRejected _ _ => "[object Promise]"
    | .promisePending _ => "[object Promise]"
    | .error m => "Error: " ++ m
    | .returnValue _ => "[object Object]"
    | .hostFunction name => "function " ++ name ++ "() \x7b [native code] \x7d"
    | .hostObject _ => "[object Object]"

/-- Port of `IO.print` (`newline` false) and of `IO.println` (`newline` true):
`const value = args[0] || ''`, then `terminal.write(String(value))` or
`terminal.writeLine(String(value))`, then `return null`. -/
def ioPrint (newline : Bool) (args : List Value) : Routine Value := fun σ =>
  let first := args.getD 0 .undefined
  let value := if jsTruthy first then first else .string ""
  let text := jsString σ (σ.arrays.length + 2) value
  ({ σ with terminal :=
      σ.terminal ++ [if newline then TerminalCall.writeLine text "" else TerminalCall.write text] },
    .ok .null)

/-- The `call` operations that `registerIO` registers for `print`, `etb3`, `printLine` and
`clearScreen`; the other native functions are not embedded. -/
def ioNatives (name : String) (args : List Value) : Routine Value :=
  if name = "print" then ioPrint false args
  else if name = "etb3" ∨ name = "printLine" then ioPrint true args
  else if name = "clearScreen" then
    fun σ => ({ σ with terminal := σ.terminal ++ [TerminalCall.clear] }, .ok .null)
  else nativesNotEmbedded name args

/-- The number `n` of the test `if (args.length !== n) throw new Error(...)` that opens the
body of a function of `MathFunctions` or `StringFunctions`; `none` for a function whose
body has no such test. -/
def demandedCount (name : String) : Option Nat :=
  if name ∈ ["abs", "round", "floor", "ceil", "sqrt", "sin", "cos", "tan", "length", "toUpper",
      "toLower", "trim"] then some 1
  else if name ∈ ["pow", "split", "startsWith", "endsWith", "contains", "indexOf", "repeat"]
    then some 2
  else if name = "replace" then some 3
  else none

/-- The error with which the body of the native function `name` rejects the number of its
arguments, if it does. -/
def countError (name : String) (args : List Value) : Option String :=
  match demandedCount name with
  | some n =>
    if args.length ≠ n then
      some (name ++ "() requires exactly " ++ toString n ++
        (if n = 1 then " argument" else " arguments"))
    else none
  | none => none

/-- Whether an entry of the registry is a native function whose declared arity, when it is
not the variable-arity mark, is the number its body demands. -/
def arityAgrees (entry : String × Value) : Bool :=
  match entry.2 with
  | .native name arity =>
    name == entry.1 &&
      (arity == -1 ||
        match demandedCount name with
        | some n => arity == (n : Int)
        | none => true)
  | _ => true

/-- The native functions the claim about fixed arities lists. -/
def fixedArityNatives : List String :=
  ["abs", "round", "floor", "ceil", "pow", "sqrt", "sin", "cos", "tan", "length", "toUpper",
   "toLower", "replace", "split", "trim", "startsWith", "endsWith", "contains", "indexOf",
   "repeat"]

/-- The arity with which the registry declares the native function `name`. -/
def declaredArity (registry : List (String × Value)) (name : String) : Option Int :=
  match registry.lookup name with
  | some (.native _ arity) => some arity
  | _ => none

/-! ## Debugger (`utils/debugger.js`)

The debugger drives the interpreter one top-level statement at a time.  Its calls on the
terminal go to the terminal of the interpreter (`main.js` hands the same object to both);
its calls on the editor and on the page change nothing the debugger reads back, so they
are not part of the state. -/

/-- Values of `FlexDebugger.stepMode` other than `null`. -/
inductive StepMode where
  | into
  | over
  | out
  deriving DecidableEq, Repr

/-- State of a `FlexDebugger`, with the state of the interpreter it drives.  `breakpoints`
holds the members of the set of that name, `stepMode` is `none` for `null`. -/
structure Debugger where
  interpreter : Interp
  isDebugging : Bool
  isPaused : Bool
  currentLine : Nat
  breakpoints : List Nat
  callStack : List (String × Nat)
  stepMode : Option StepMode
  executionPointer : Nat
  statements : List Stmt

/-- The constructor of `FlexDebugger`. -/
def FlexDebugger.new (interpreter : Interp) : Debugger :=
  { interpreter := interpreter
    isDebugging := false
    isPaused := false
    currentLine := 0
    breakpoints := []
    callStack := []
    stepMode := none
    executionPointer := 0
    statements := [] }

/-- A call `this.terminal.writeLine(text, className)` of the debugger. -/
def Debugger.writeLine (d : Debugger) (text className : String) : Debugger :=
  { d with interpreter :=
      { d.interpreter with
        terminal := d.interpreter.terminal ++ [TerminalCall.writeLine text className] } }

/-- The property read `stmt.line` on a statement node.  None of the object literals with
which the parser builds a statement node has a property `line` (a `ReturnStatement` holds
its keyword token, whose line is a property of the token), so the read yields `undefined`,
here `none`. -/
def Stmt.line (_ : Stmt) : Option Nat := none

/-- The expression `stmt.line ? stmt.line - 1 : 0`. -/
def statementLine (stmt : Stmt) : Nat :=
  match stmt.line with
  | some line => if line = 0 then 0 else line - 1
  | none => 0

/-- Port of `FlexDebugger.toggleBreakpoint`. -/
def toggleBreakpoint (d : Debugger) (line : Nat) : Debugger :=
  if d.breakpoints.contains line then { d with breakpoints := d.breakpoints.erase line }
  else { d with breakpoints := d.breakpoints ++ [line] }

/-- Port of `FlexDebugger.highlightCurrentStatement`: of its effects, the field
`currentLine`. -/
def highlightCurrentStatement (d : Debugger) : Debugger :=
  match d.statements.get? d.executionPointer with
  | none => d
  | some stmt => { d with currentLine := statementLine stmt }

/-- Port of `FlexDebugger.debug`.  `parse` always returns a node with a `statements` array,
so the branch `Failed to parse program for debugging.` is not entered. -/
def debug (code : String) (d : Debugger) : Debugger × Except Signal Unit :=
  let d1 := { d with isDebugging := true, isPaused := false, currentLine := 0, callStack := []
                     stepMode := none, executionPointer := 0 }
  let d2 := d1.writeLine "Preparing for debug..." "info"
  match parse (tokenize code) with
  | none => (d2, .error .outOfFuel)
  | some statements =>
    let d3 := { d2 with statements := statements }
    let d4 := (d3.writeLine "Starting debug session..." "info").writeLine
      "Use the debug controls to step through execution." "info"
    ({ highlightCurrentStatement d4 with isPaused := true }, .ok ())

/-- Port of `FlexDebugger.shouldPauseBasedOnStepMode`. -/
def shouldPauseBasedOnStepMode (d : Debugger) : Bool :=
  match d.stepMode with
  | none => false
  | some .into => true
  | some _ => true

/-- Port of `FlexDebugger.executeNextStatement`, with `continueExecution` unfolded at its
only call.  `rounds` bounds the number of statements one command executes; every round
moves `executionPointer` forward, so the number of statements is enough. -/
def executeNextStatement (callNative : String → List Value → Routine Value) (fuel : Nat) :
    Nat → Debugger → Debugger × Except Signal Unit
  | 0, d => (d, .error .outOfFuel)
  | rounds + 1, d =>
    if !d.isDebugging then (d, .ok ())
    else
      match d.statements.get? d.executionPointer with
      | none => (d, .ok ())
      | some stmt =>
        match await (executeStatement callNative fuel stmt) d.interpreter with
        | (σ1, .ok _) =>
          let d1 := { d with interpreter := σ1, executionPointer := d.executionPointer + 1 }
          if d1.executionPointer ≥ d1.statements.length then
            ({ d1.writeLine "Debug session completed." "success" with isDebugging := false },
              .ok ())
          else
            let d2 := highlightCurrentStatement d1
            let nextLine :=
              match d2.statements.get? d2.executionPointer with
              | some nextStmt => statementLine nextStmt
              | none => 0
            if d2.breakpoints.contains nextLine || shouldPauseBasedOnStepMode d2 then
              ({ d2 with isPaused := true }.writeLine
                ("Paused at line " ++ toString (nextLine + 1)) "info", .ok ())
            else if !d2.isDebugging || d2.isPaused then (d2, .ok ())
            else executeNextStatement callNative fuel rounds d2
        | (σ1, .error (.throw error)) =>
          let message :=
            match error with
            | .error m => m
            | _ => "undefined"
          ({ { d with interpreter := σ1 }.writeLine
              ("Debug execution error: " ++ message) "error" with isDebugging := false },
            .ok ())
        | (σ1, .error e) => ({ d with interpreter := σ1 }, .error e)

/-- The common body of `stepInto`, `stepOver`, `stepOut` and `continue`. -/
def stepWith (callNative : String → List Value → Routine Value) (fuel : Nat)
    (mode : Option StepMode) (d : Debugger) : Debugger × Except Signal Unit :=
  if !d.isDebugging || !d.isPaused then (d, .ok ())
  else
    executeNextStatement callNative fuel (d.statements.length + 1)
      { d with stepMode := mode, isPaused := false }

/-- Port of `FlexDebugger.stepInto`. -/
def stepInto (callNative : String → List Value → Routine Value) (fuel : Nat) (d : Debugger) :
    Debugger × Except Signal Unit :=
  stepWith callNative fuel (some .into) d

/-- Port of `FlexDebugger.stepOver`. -/
def stepOver (callNative : String → List Value → Routine Value) (fuel : Nat) (d : Debugger) :
    Debugger × Except Signal Unit :=
  stepWith callNative fuel (some .over) d

/-- Port of `FlexDebugger.stepOut`. -/
def stepOut (callNative : String → List Value → Routine Value) (fuel : Nat) (d : Debugger) :
    Debugger × Except Signal Unit :=
  stepWith callNative fuel (some .out) d

/-- Port of `FlexDebugger.continue` (the word `continue` is reserved in Lean). -/
def continueDebugging (callNative : String → List Value → Routine Value) (fuel : Nat)
    (d : Debugger) : Debugger × Except Signal Unit :=
  stepWith callNative fuel none d

/-- Port of `FlexDebugger.stopDebugging`. -/
def stopDebugging (d : Debugger) : Debugger :=
  if !d.isDebugging then d
  else { d with isDebugging := false, isPaused := false }.writeLine
    "Debug session stopped." "info"

/-- A debug session on a new interpreter with the standard library: the state `debug(code)`
leaves, with the breakpoints `breakpoints` toggled on and the input script `inputs`. -/
def debugSession (code : String) (breakpoints : List Nat) (inputs : List (Option String)) :
    Debugger :=
  (debug code
    (breakpoints.foldl toggleBreakpoint
      (FlexDebugger.new ((FlexInterpreter.new standardLibrary).nextRun inputs)))).1

/-- Whether a command ended suspended: the promise it returned is not settled. -/
def suspended {α β : Type} (r : α × Except Signal β) : Bool :=
  match r.2 with
  | .error .pending => true
  | _ => false

/-- What an observer reads off a debugger: `isDebugging`, `isPaused`, `executionPointer`
and the number of statements. -/
def Debugger.status (d : Debugger) : Bool × Bool × Nat × Nat :=
  (d.isDebugging, d.isPaused, d.executionPointer, d.statements.length)

/-- Whether a command of the debugger ended by returning: the promise it returned is
fulfilled. -/
def settled {α β : Type} (r : α × Except Signal β) : Bool :=
  match r.2 with
  | .ok _ => true
  | .error _ => false

/-- The three terminal calls `debug` makes. -/
def debugPrologue : List TerminalCall :=
  [.writeLine "Preparing for debug..." "info", .writeLine "Starting debug session..." "info",
   .writeLine "Use the debug controls to step through execution." "info"]

/-- Following the wording of the specification: the tokens lie in the source in order.
The source is a gap, then the lexeme of the first token, then a rest in which the other
tokens lie in order; no lexeme is empty, so the positions increase strictly and the
lexemes do not overlap. -/
def InSourceOrder : List Char → List Token → Prop
  | _, [] => True
  | source, t :: ts =>
    ∃ gap rest, source = gap ++ t.lexeme.data ++ rest ∧ t.lexeme.data ≠ [] ∧
      InSourceOrder rest ts

/-- What one call of `scanToken` does to the source: it consumes a non-empty prefix, and a
token it adds has that prefix as its lexeme and a kind other than `EOF` and `SLASH`. -/
def Scanned (c : Char) (rest : List Char) (r : Option Token × List Char × Nat) : Prop :=
  ∃ consumed, c :: rest = consumed ++ r.2.1 ∧ consumed ≠ [] ∧
    ∀ t, r.1 = some t → t.lexeme.data = consumed ∧ t.type ≠ .EOF ∧ t.type ≠ .SLASH

/-- The token `createToken(IDENTIFIER, name, null)` of an identifier on line `line`. -/
def word (name : String) (line : Nat) : Token :=
  { type := .IDENTIFIER, lexeme := name, literal := .null, line := line }

/-- The token `createToken(type, lexeme, null)` of an operator, a delimiter or a keyword. -/
def sym (type : TokenType) (lexeme : String) (line : Nat) : Token :=
  { type := type, lexeme := lexeme, literal := .null, line := line }

/-! ## Preservation of the current environment -/

/-- Whether a routine returned or threw, so that its caller goes on. -/
def ended {α : Type} : Except Signal α → Bool
  | .ok _ => true
  | .error (.throw _) => true
  | .error _ => false

/-- Whether a routine returned, threw or was left pending. -/
def endedOrPending {α : Type} : Except Signal α → Bool
  | .ok _ => true
  | .error (.throw _) => true
  | .error .pending => true
  | .error _ => false

/-- The routine `m` leaves `this.environment` as it found it whenever it returns or
throws. -/
def Keeps {α : Type} (m : Routine α) : Prop :=
  ∀ σ, ended (m σ).2 = true → (m σ).1.environment = σ.environment

/-- The routine `m` leaves `this.environment` as it found it whenever it returns, throws or
is left pending. -/
def KeepsAll {α : Type} (m : Routine α) : Prop :=
  ∀ σ, endedOrPending (m σ).2 = true → (m σ).1.environment = σ.environment

/-- Every routine of the evaluator, run with the recursion budget `fuel`, leaves
`this.environment` as it found it when it returns or throws; the routines that run under
an un-awaited call also when they are left pending. -/
structure AllKeep (callNative : String → List Value → Routine Value) (fuel : Nat) : Prop where
  expression : ∀ awaited e, Keeps (evaluateExpression callNative fuel awaited e)
  unawaited : ∀ e, KeepsAll (evaluateExpression callNative fuel false e)
  assignment : ∀ node name v, KeepsAll (executeAssignment callNative fuel node name v)
  binary : ∀ l op r, KeepsAll (evaluateBinaryExpression callNative fuel l op r)
  logical : ∀ awaited l op r, Keeps (evaluateLogicalExpression callNative fuel awaited l op r)
  logicalUnawaited : ∀ l op r,
    KeepsAll (evaluateLogicalExpression callNative fuel false l op r)
  unary : ∀ op r, KeepsAll (evaluateUnaryExpression callNative fuel op r)
  arguments : ∀ args, Keeps (evaluateArguments callNative fuel args)
  call : ∀ c args, Keeps (evaluateCallExpression callNative fuel c args)
  function : ∀ closure ps body args,
    Keeps (flexFunctionCall callNative fuel closure ps body args)
  elements : ∀ es, KeepsAll (evaluateElements callNative fuel es)
  arrayLiteral : ∀ es, KeepsAll (evaluateArrayLiteral callNative fuel es)
  get : ∀ o n, KeepsAll (evaluateGetExpression callNative fuel o n)
  set : ∀ o n v, KeepsAll (evaluateSetExpression callNative fuel o n v)
  statements : ∀ ss, Keeps (executeStatements callNative fuel ss)
  block : ∀ ss env, Keeps (executeBlock callNative fuel ss env)
  statement : ∀ s, Keeps (executeStatement callNative fuel s)
  print : ∀ e b, Keeps (executePrintStatement callNative fuel e b)
  input : ∀ p, Keeps (executeInputStatement callNative fuel p)
  declaration : ∀ n i, Keeps (executeVariableDeclaration callNative fuel n i)
  ifStatement : ∀ c t e, Keeps (executeIfStatement callNative fuel c t e)
  whileStatement : ∀ c b, Keeps (executeWhileStatement callNative fuel c b)
  returnStatement : ∀ v, Keeps (executeReturnStatement callNative fuel v)

/-! ## Operator tiers of the parser -/

/-- Tier of a binary operator kind, from the loosest (0) to the tightest (5): the kinds
that `logicalOr`, `logicalAnd`, `equality`, `comparison`, `term` and `factor` match. -/
def operatorTier : TokenType → Option Nat
  | .OR => some 0
  | .AND => some 1
  | .BANG_EQUAL => some 2
  | .EQUAL_EQUAL => some 2
  | .GREATER => some 3
  | .GREATER_EQUAL => some 3
  | .LESS => some 3
  | .LESS_EQUAL => some 3
  | .MINUS => some 4
  | .PLUS => some 4
  | .SLASH => some 5
  | .STAR => some 5
  | _ => none

/-- Kinds that the routine of a tier passes to `match`. -/
def tierOperators : Nat → List TokenType
  | 0 => [.OR]
  | 1 => [.AND]
  | 2 => [.BANG_EQUAL, .EQUAL_EQUAL]
  | 3 => [.GREATER, .GREATER_EQUAL, .LESS, .LESS_EQUAL]
  | 4 => [.MINUS, .PLUS]
  | 5 => [.SLASH, .STAR]
  | _ => []

/-- Node that the routine of a tier builds: `Logical` in `logicalOr` and `logicalAnd`,
`Binary` in the other four. -/
def tierNode (tier : Nat) : Expr → Token → Expr → Expr :=
  if tier < 2 then Expr.logical else Expr.binary

/-- Routine of a tier; past the six binary tiers comes `unary`, which parses their
operands. -/
def tierRoutine (tokens : List Token) : Nat → Nat → Nat → Except ParseError (Expr × Nat)
  | 0 => logicalOr tokens
  | 1 => logicalAnd tokens
  | 2 => equality tokens
  | 3 => comparison tokens
  | 4 => term tokens
  | 5 => factor tokens
  | _ => unary tokens

/-- Whether the token at `c` is no operator of tier `k` or of a tighter tier. -/
def Looser (tokens : List Token) (c k : Nat) : Prop :=
  ∀ t, operatorTier (peek tokens c).type = some t → t < k

/-! ## Progress of the parser -/

/-- What a parsing routine entered at position `c` with recursion budget `f` ends with, on
a token list whose end is at `E`: a node and a position at least `g` further on and not
past `E`; or a `SyntaxError` thrown at a position from `c` to `E`; or an exhausted budget,
which needs `f + 16 * c < 16 * E + k`. -/
def Advances {α : Type} (E g k f c : Nat) : Except ParseError (α × Nat) → Prop
  | .ok (_, c1) => c + g ≤ c1 ∧ c1 ≤ E
  | .error (.syntaxError _ pos) => c ≤ pos ∧ pos ≤ E
  | .error .outOfFuel => f + 16 * c < 16 * E + k

/-- Every parsing routine run with budget `f` advances, each with its own margin `k`:
a routine that calls another at the same position has the larger margin. -/
structure ParserAdvances (tokens : List Token) (f : Nat) : Prop where
  declaration : ∀ c, c ≤ tokens.length → isAtEnd tokens c = false →
    Advances tokens.length 1 14 f c (declaration tokens f c)
  functionDeclaration : ∀ c, c ≤ tokens.length →
    Advances tokens.length 1 1 f c (functionDeclaration tokens f c)
  statement : ∀ c, c ≤ tokens.length → Advances tokens.length 1 13 f c (statement tokens f c)
  ifStatement : ∀ c, c ≤ tokens.length → Advances tokens.length 1 1 f c (ifStatement tokens f c)
  whileStatement : ∀ c, c ≤ tokens.length →
    Advances tokens.length 1 1 f c (whileStatement tokens f c)
  forStatement : ∀ c, c ≤ tokens.length → Advances tokens.length 1 1 f c (forStatement tokens f c)
  returnStatement : ∀ c, c ≤ tokens.length →
    Advances tokens.length 1 12 f c (returnStatement tokens f c)
  printStatement : ∀ c, c ≤ tokens.length →
    Advances tokens.length 1 1 f c (printStatement tokens f c)
  inputStatement : ∀ c, c ≤ tokens.length →
    Advances tokens.length 1 1 f c (inputStatement tokens f c)
  blockLoop : ∀ ss c, c ≤ tokens.length → Advances tokens.length 0 15 f c (blockLoop tokens f ss c)
  block : ∀ c, c ≤ tokens.length → Advances tokens.length 1 16 f c (block tokens f c)
  expressionStatement : ∀ c, c ≤ tokens.length →
    Advances tokens.length 1 12 f c (expressionStatement tokens f c)
  expression : ∀ c, c ≤ tokens.length → Advances tokens.length 1 11 f c (expression tokens f c)
  assignment : ∀ c, c ≤ tokens.length → Advances tokens.length 1 10 f c (assignment tokens f c)
  logicalOr : ∀ c, c ≤ tokens.length → Advances tokens.length 1 9 f c (logicalOr tokens f c)
  logicalAnd : ∀ c, c ≤ tokens.length → Advances tokens.length 1 8 f c (logicalAnd tokens f c)
  equality : ∀ c, c ≤ tokens.length → Advances tokens.length 1 7 f c (equality tokens f c)
  comparison : ∀ c, c ≤ tokens.length → Advances tokens.length 1 6 f c (comparison tokens f c)
  term : ∀ c, c ≤ tokens.length → Advances tokens.length 1 5 f c (term tokens f c)
  factor : ∀ c, c ≤ tokens.length → Advances tokens.length 1 4 f c (factor tokens f c)
  unary : ∀ c, c ≤ tokens.length → Advances tokens.length 1 3 f c (unary tokens f c)
  callLoop : ∀ e c, c ≤ tokens.length → Advances tokens.length 0 1 f c (callLoop tokens f e c)
  call : ∀ c, c ≤ tokens.length → Advances tokens.length 1 2 f c (call tokens f c)
  argumentsLoop : ∀ es c, c ≤ tokens.length →
    Advances tokens.length 1 12 f c (argumentsLoop tokens f es c)
  finishCall : ∀ e c, c ≤ tokens.length → Advances tokens.length 1 13 f c (finishCall tokens f e c)
  elementsLoop : ∀ es c, c ≤ tokens.length →
    Advances tokens.length 1 12 f c (elementsLoop tokens f es c)
  primary : ∀ c, c ≤ tokens.length → Advances tokens.length 1 1 f c (primary tokens f c)

/-! ## Compiler (`flex-compiler.js`) -/

set_option maxRecDepth 100000

/-! ### Consequences of the un-awaited calls and of the lookup in the global environment -/

/-- What the caller of an un-awaited `async` method continues with is a promise. -/
theorem callAsync_isPromise (m : Routine Value) (σ σ1 : Interp) (v : Value)
    (h : callAsync m σ = (σ1, .ok v)) : v.isPromise = true := by
  unfold callAsync at h
  split at h
  · rename_i σ2 w _
    simp only [Prod.mk.injEq, Except.ok.injEq] at h
    rw [← h.2]
    cases w <;> rfl
  · simp only [Prod.mk.injEq, Except.ok.injEq] at h
    rw [← h.2]; rfl
  · simp only [Prod.mk.injEq, Except.ok.injEq] at h
    rw [← h.2]; rfl
  · simp at h

/-- A promise is an object and is truthy. -/
theorem promise_typeOf_isTruthy (σ : Interp) (v : Value) (h : v.isPromise = true) :
    typeOf v = "object" ∧ isTruthy σ v = true := by
  cases v <;> simp [Value.isPromise] at h <;> exact ⟨rfl, rfl⟩

/-- On promise operands the arithmetic and comparison cases of the `switch` throw. -/
theorem binaryOperation_promise (σ : Interp) (op : TokenType) (l r : Value)
    (hl : l.isPromise = true)
    (hop : op = .MINUS ∨ op = .STAR ∨ op = .SLASH ∨ op = .LESS ∨ op = .LESS_EQUAL ∨
      op = .GREATER ∨ op = .GREATER_EQUAL) :
    binaryOperation σ op l r = .error (.throw (.error "Operands must be numbers.")) := by
  have ht := (promise_typeOf_isTruthy σ l hl).1
  have hc : checkNumberOperands l r = .error (.throw (.error "Operands must be numbers.")) := by
    simp [checkNumberOperands, ht]
  rcases hop with h | h | h | h | h | h | h <;> subst h <;>
    simp [binaryOperation, hc, bind, Except.bind]

/-- On promise operands the `+` case of the `switch` throws. -/
theorem binaryOperation_plus_promise (σ : Interp) (l r : Value)
    (hl : l.isPromise = true) (hr : r.isPromise = true) :
    binaryOperation σ .PLUS l r =
      .error (.throw (.error "Operands must be numbers or strings.")) := by
  have h1 := (promise_typeOf_isTruthy σ l hl).1
  have h2 := (promise_typeOf_isTruthy σ r hr).1
  simp [binaryOperation, h1, h2]

/-- Whatever the operand expressions, a binary expression with an arithmetic or
comparison operator never yields a value. -/
theorem evaluateBinaryExpression_numeric_never_value
    (callNative : String → List Value → Routine Value) (fuel : Nat) (l r : Expr)
    (operator : Token) (σ σ1 : Interp) (v : Value)
    (hop : operator.type = .MINUS ∨ operator.type = .STAR ∨ operator.type = .SLASH ∨
      operator.type = .LESS ∨ operator.type = .LESS_EQUAL ∨ operator.type = .GREATER ∨
      operator.type = .GREATER_EQUAL) :
    evaluateBinaryExpression callNative fuel l operator r σ ≠ (σ1, .ok v) := by
  cases fuel with
  | zero => simp [evaluateBinaryExpression, Routine.signal]
  | succ n =>
    intro h
    simp only [evaluateBinaryExpression, bind, Routine.bind] at h
    split at h
    · rename_i σ2 left hleft
      split at h
      · rename_i σ3 right hright
        have hp := callAsync_isPromise _ _ _ _ hleft
        simp [Routine.ofExcept, binaryOperation_promise σ3 operator.type left right hp hop] at h
      · simp at h
    · simp at h

/-- `a or b` never evaluates `b`: it is the un-awaited evaluation of `a`. -/
theorem evaluateLogicalExpression_or
    (callNative : String → List Value → Routine Value) (fuel : Nat) (awaited : Bool)
    (l r : Expr) (operator : Token) (σ : Interp) (hop : operator.type = .OR) :
    evaluateLogicalExpression callNative (fuel + 1) awaited l operator r σ =
      callAsync (evaluateExpression callNative fuel false l) σ := by
  simp only [evaluateLogicalExpression, hop]
  split
  · rename_i σ1 e heq
    rw [heq]
  · rename_i σ1 left heq
    have hp := callAsync_isPromise _ _ _ _ heq
    simp [(promise_typeOf_isTruthy σ1 left hp).2, heq]

/-- `a and b` always goes on to evaluate `b` once `a` was evaluated. -/
theorem evaluateLogicalExpression_and
    (callNative : String → List Value → Routine Value) (fuel : Nat) (awaited : Bool)
    (l r : Expr) (operator : Token) (σ σ1 : Interp) (left : Value)
    (hop : operator.type ≠ .OR)
    (hl : callAsync (evaluateExpression callNative fuel false l) σ = (σ1, .ok left)) :
    evaluateLogicalExpression callNative (fuel + 1) awaited l operator r σ =
      evaluateExpression callNative fuel awaited r σ1 := by
  have hp := callAsync_isPromise _ _ _ _ hl
  simp [evaluateLogicalExpression, hl, hop, (promise_typeOf_isTruthy σ1 left hp).2]

theorem evaluateBinaryExpression_plus_never_value
    (callNative : String → List Value → Routine Value) (fuel : Nat) (l r : Expr)
    (operator : Token) (σ σ1 : Interp) (v : Value) (hop : operator.type = .PLUS) :
    evaluateBinaryExpression callNative fuel l operator r σ ≠ (σ1, .ok v) := by
  cases fuel with
  | zero => simp [evaluateBinaryExpression, Routine.signal]
  | succ n =>
    intro h
    simp only [evaluateBinaryExpression, bind, Routine.bind] at h
    split at h
    · rename_i σ2 left hleft
      split at h
      · rename_i σ3 right hright
        have hp := callAsync_isPromise _ _ _ _ hleft
        have hq := callAsync_isPromise _ _ _ _ hright
        simp [Routine.ofExcept, hop, binaryOperation_plus_promise σ3 left right hp hq] at h
      · simp at h
    · simp at h

theorem assign_unbound_throws (σ : Interp) (fuel id : Nat) (name : String) (value : Value)
    (e : Environment) (he : σ.envs.get? id = some e) (hn : e.values.has σ name = false)
    (hp : e.enclosing = none) :
    Environment.assign σ (fuel + 1) id name value =
      .error (.throw (.error ("Undefined variable '" ++ name ++ "'."))) := by
  rw [Environment.assign, he]
  simp [hn, hp]

theorem lookupVariable_reads_globals (name : String) (expr : Expr) (σ : Interp)
    (h : σ.locals expr = none) :
    lookupVariable name expr σ = (σ, Environment.get σ σ.envs.length σ.globals name) := by
  simp [lookupVariable, h]

/-! ### Array writes and truthiness -/

/-- Reading back the elements just stored for an array. -/
theorem arrayElements_setArray (σ : Interp) (id : Nat) (xs : List (Option Value)) :
    (σ.setArray id xs).arrayElements id = xs := by
  simp [Interp.setArray, Interp.arrayElements, List.lookup]

/-- A write at or past the end leaves an array of length `i + 1`. -/
theorem writeIndex_length (xs : List (Option Value)) (i : Nat) (v : Value)
    (h : xs.length ≤ i) : (writeIndex xs i v).length = i + 1 := by
  simp [writeIndex, Nat.not_lt.mpr h]; omega

/-- A write at or past the end stores the value at the written index. -/
theorem writeIndex_at (xs : List (Option Value)) (i : Nat) (v : Value)
    (h : xs.length ≤ i) : (writeIndex xs i v).getD i none = some v := by
  have hlen : (xs ++ List.replicate (i - xs.length) none).length = i := by simp; omega
  simp only [writeIndex, Nat.not_lt.mpr h, if_false, List.getD_eq_getElem?_getD]
  rw [List.getElem?_append_right (by omega)]
  simp [hlen]

/-- A write at or past the end keeps the old elements. -/
theorem writeIndex_below (xs : List (Option Value)) (i j : Nat) (v : Value)
    (h : xs.length ≤ i) (hj : j < xs.length) :
    (writeIndex xs i v).getD j none = xs.getD j none := by
  simp only [writeIndex, Nat.not_lt.mpr h, if_false, List.getD_eq_getElem?_getD]
  rw [List.append_assoc, List.getElem?_append_left hj]

/-- A write past the end leaves holes between the old end and the written index. -/
theorem writeIndex_gap (xs : List (Option Value)) (i j : Nat) (v : Value)
    (hn : xs.length ≤ j) (hj : j < i) :
    (writeIndex xs i v).getD j none = none := by
  have h : xs.length ≤ i := by omega
  simp only [writeIndex, Nat.not_lt.mpr h, if_false, List.getD_eq_getElem?_getD]
  rw [List.append_assoc, List.getElem?_append_right hn,
    List.getElem?_append_left (by simp; omega)]
  simp only [List.getElem?_replicate]
  split <;> rfl

/-- The array branch of `setProperty` for a `NUMBER` token whose literal is `i`. -/
theorem setProperty_index (σ : Interp) (id i : Nat) (name : Token) (v : Value)
    (htype : name.type = .NUMBER) (hlit : name.literal = .number i)
    (hmax : i < 4294967295) :
    setProperty σ (.array id) name v =
      (σ.setArray id (writeIndex (σ.arrayElements id) i v), .ok v) := by
  simp [setProperty, htype, hlit, hmax]

/-- The array branch of `getProperty` for an index inside the array. -/
theorem getProperty_index (σ : Interp) (id j : Nat) (h : j < (σ.arrayElements id).length) :
    getProperty σ (.array id) (indexToken j) =
      .ok (((σ.arrayElements id).getD j none).getD .undefined) := by
  have h1 : ¬ ((j : Rat) < 0) := not_lt.mpr (Nat.cast_nonneg j)
  have h2 : ¬ ((j : Rat) ≥ ((σ.arrayElements id).length : Rat)) := by
    simpa using h
  simp [getProperty, indexToken, h1, h2]

/-- A string has length zero exactly when it is the empty string. -/
theorem string_length_eq_zero (s : String) : s.length = 0 ↔ s = "" := by
  constructor
  · intro h
    cases s with
    | mk data =>
      simp only [String.length, List.length_eq_zero] at h
      subst h
      rfl
  · rintro rfl
    rfl

/-! ### The claims -/

/-- C1, code defect.  Running `x = 3; y = 4; etb3(x + y);` on a new interpreter: the first
assignment throws `Undefined variable 'x'.` out of `Environment.assign`, the run is
stopped, the output 7 is never written and `x` is bound nowhere. -/
theorem assignment_unbound_name_run :
    returned (run "x = 3; y = 4; etb3(x + y);") = true ∧
    (run "x = 3; y = 4; etb3(x + y);").1.terminal =
      prologue ++ [.writeLine "Runtime Error: Undefined variable 'x'." "error",
                   .writeLine "Execution stopped by user." "warning"] ∧
    (run "x = 3; y = 4; etb3(x + y);").1.deferred = false ∧
    Environment.exists (run "x = 3; y = 4; etb3(x + y);").1 1 0 "x" = false := by
  decide!

/-- C2, code defect.  Running `function f(a){ etb3(a); } f(1);`: the call creates a new
environment whose parent is the global one and binds `a` to 1 in it (a read that starts
at that environment finds 1), yet reading `a` in the body throws `Undefined variable 'a'.`,
because `lookupVariable` asks the global environment only. -/
theorem parameter_read_run :
    returned (run "function f(a)\x7b etb3(a); \x7d f(1);") = true ∧
    (run "function f(a)\x7b etb3(a); \x7d f(1);").1.terminal =
      prologue ++ [.writeLine "Runtime Error: Undefined variable 'a'." "error"] ∧
    (run "function f(a)\x7b etb3(a); \x7d f(1);").1.deferred = false ∧
    (run "function f(a)\x7b etb3(a); \x7d f(1);").1.frames.get? 1 = some (some 0, ["a"]) ∧
    (Environment.get (run "function f(a)\x7b etb3(a); \x7d f(1);").1 2 1 "a").toOption.map
      (strictEquals (.number 1)) = some true := by
  decide!

/-- C3, code defect.  Running the Fibonacci program of the specification: the condition
`n <= 1` of the first call throws `Operands must be numbers.`, the error is reported, the
call yields `null` and the print statement writes `null`; 8 is never written. -/
theorem fibonacci_run :
    returned (run
      "function f(n)\x7b if (n <= 1) \x7b return n; \x7d return f(n-1)+f(n-2); \x7d etb3(f(6));") =
      true ∧
    (run
      "function f(n)\x7b if (n <= 1) \x7b return n; \x7d return f(n-1)+f(n-2); \x7d etb3(f(6));").1.terminal =
      prologue ++ [.writeLine "Runtime Error: Operands must be numbers." "error",
                   .writeLine "null" ""] ∧
    (run
      "function f(n)\x7b if (n <= 1) \x7b return n; \x7d return f(n-1)+f(n-2); \x7d etb3(f(6));").1.deferred =
      false := by
  decide!

/-- C4, code defect.  Running
`function outer(a){ function inner(){ return a; } return inner; } etb3(outer(1)());`:
`inner` is defined in the environment of the call (next to `a`), and `return inner;`
already fails with `Undefined variable 'inner'.`; the returned function is never obtained,
let alone called with access to `a`. -/
theorem closure_run :
    returned (run
      "function outer(a)\x7b function inner()\x7b return a; \x7d return inner; \x7d etb3(outer(1)());") =
      true ∧
    (run
      "function outer(a)\x7b function inner()\x7b return a; \x7d return inner; \x7d etb3(outer(1)());").1.terminal =
      prologue ++ [.writeLine "Runtime Error: Undefined variable 'inner'." "error"] ∧
    (run
      "function outer(a)\x7b function inner()\x7b return a; \x7d return inner; \x7d etb3(outer(1)());").1.deferred =
      false ∧
    (run
      "function outer(a)\x7b function inner()\x7b return a; \x7d return inner; \x7d etb3(outer(1)());").1.frames.get?
      1 = some (some 0, ["a", "inner"]) := by
  decide!

/-- C5, code defect.  Running `etb3("a" + 1);`: both operands reach the `+` case as
promise objects, so the run reports `Operands must be numbers or strings.` and `a1` is
never written. -/
theorem plus_run :
    returned (run "etb3(\"a\" + 1);") = true ∧
    (run "etb3(\"a\" + 1);").1.terminal =
      prologue ++ [.writeLine "Runtime Error: Operands must be numbers or strings." "error"] ∧
    (run "etb3(\"a\" + 1);").1.deferred = false := by
  decide!

/-- C6, code defect.  Running `etb3(5/0);`: the lexer has no case for `/` and produces no
token for it, the statement is a syntax error that `declaration` swallows, the program has
no statement, and the run completes without reporting any runtime error. -/
theorem division_by_zero_run :
    (tokenize "etb3(5/0);").map (·.type) =
      [.PRINT_LINE, .LEFT_PAREN, .NUMBER, .NUMBER, .RIGHT_PAREN, .SEMICOLON, .EOF] ∧
    (parse (tokenize "etb3(5/0);")).map List.length = some 0 ∧
    returned (run "etb3(5/0);") = true ∧
    (run "etb3(5/0);").1.terminal = prologue ++ [.programCompleted] := by
  decide!

/-- A write on a promise object leaves every array as it is and returns the value. -/
theorem setProperty_promise (σ : Interp) (object : Value) (name : Token) (value : Value)
    (h : object.isPromise = true) :
    (setProperty σ object name value).1.arrays = σ.arrays ∧
    (setProperty σ object name value).2 = .ok value := by
  cases object <;> simp [Value.isPromise] at h <;>
    simp only [setProperty, typeOf, Value.key] <;> split <;> try split
  all_goals first | exact ⟨rfl, rfl⟩ | simp_all

/-- The object on which `evaluateSetExpression` writes is the promise of the un-awaited
evaluation of its operand, never an array: whatever the operands are, the write happens on
that promise and leaves every array as it is. -/
theorem evaluateSetExpression_object (callNative : String → List Value → Routine Value)
    (fuel : Nat) (objectExpr : Expr) (name : Token) (valueExpr : Expr) (σ σ1 σ2 : Interp)
    (object value : Value)
    (ho : callAsync (evaluateExpression callNative fuel false objectExpr) σ = (σ1, .ok object))
    (hv : callAsync (evaluateExpression callNative fuel false valueExpr) σ1 = (σ2, .ok value)) :
    object.isPromise = true ∧
    evaluateSetExpression callNative (fuel + 1) objectExpr name valueExpr σ =
      (setProperty σ2 object name value) ∧
    (evaluateSetExpression callNative (fuel + 1) objectExpr name valueExpr σ).1.arrays =
      σ2.arrays ∧
    (evaluateSetExpression callNative (fuel + 1) objectExpr name valueExpr σ).2 = .ok value := by
  have hp := callAsync_isPromise _ σ σ1 object ho
  have heq : evaluateSetExpression callNative (fuel + 1) objectExpr name valueExpr σ =
      (setProperty σ2 object name value) := by
    simp only [evaluateSetExpression, bind, Routine.bind, ho]
    cases object <;> simp [Value.isPromise] at hp <;> simp [hv, bind, Routine.bind]
  refine ⟨hp, heq, ?_, ?_⟩
  · rw [heq]; exact (setProperty_promise σ2 object name value hp).1
  · rw [heq]; exact (setProperty_promise σ2 object name value hp).2

/-- C7, code defect.  The program `arr = [1,2,3]; arr[5] = 9; etb3(arr.length);` never
writes 6: the parser drops `arr[5] = 9;` (two statements are left, and `arr[5] = 9;` alone
leaves none), and the first statement throws `Undefined variable 'arr'.`.  With a name
that is bound, `PI = [1, 2, 3]; PI[5] = 9; etb3(PI.length);` reports
`Undefined property: length`, because the name holds a promise.  And when the node
Set(a, 5, 9) is evaluated in a state whose global `a` is an array of three elements, the
array keeps its length 3: the write lands on the promise object of the operand, as the
property `5`. -/
theorem indexed_write_run :
    (parse (tokenize "arr = [1,2,3]; arr[5] = 9; etb3(arr.length);")).map List.length =
      some 2 ∧
    (run "arr = [1,2,3]; arr[5] = 9; etb3(arr.length);").1.terminal =
      prologue ++ [.writeLine "Runtime Error: Undefined variable 'arr'." "error",
                   .writeLine "Execution stopped by user." "warning"] ∧
    (parse (tokenize "arr[5] = 9;")).map List.length = some 0 ∧
    (run "PI = [1, 2, 3]; PI[5] = 9; etb3(PI.length);").1.terminal =
      prologue ++ [.writeLine "Runtime Error: Undefined property: length" "error"] ∧
    (run "PI = [1, 2, 3]; PI[5] = 9; etb3(PI.length);").1.deferred = false ∧
    ((evaluateExpression nativesNotEmbedded 20 true
        (.set (.variable "a") (indexToken 5) (.literal (.number 9)))
        (Environment.define
          (withArray [some (.number 1), some (.number 2), some (.number 3)]) 0 "a"
          (.array 0))).1.arrays.map (fun p => (p.1, p.2.length)) = [(0, 3)]) ∧
    ((evaluateExpression nativesNotEmbedded 20 true
        (.set (.variable "a") (indexToken 5) (.literal (.number 9)))
        (Environment.define
          (withArray [some (.number 1), some (.number 2), some (.number 3)]) 0 "a"
          (.array 0))).1.props.map (fun p => (p.1, p.2.1)) = [(.id 1, "5")]) := by
  decide!

/-- The array branch of `evaluateSetExpression`, which no evaluation reaches (see
`evaluateSetExpression_object`), would do what C7 says but for the gaps.  For every array
of length `n`, every array index `i ≥ n` (an index is below `2^32 - 1`) and every value
`v`, the indexed write of that branch succeeds with value `v`;
afterwards the array has length `i + 1`, holds `v` at `i`, keeps its elements at
`0..n-1`, and every position `n..i-1` is a hole that an indexed read returns as
`undefined`. -/
theorem indexed_write_extends (σ : Interp) (id i : Nat) (name : Token) (v : Value)
    (htype : name.type = .NUMBER) (hlit : name.literal = .number i)
    (hlen : (σ.arrayElements id).length ≤ i) (hmax : i < 4294967295) :
    (setProperty σ (.array id) name v).2 = .ok v ∧
    ((setProperty σ (.array id) name v).1.arrayElements id).length = i + 1 ∧
    ((setProperty σ (.array id) name v).1.arrayElements id).getD i none = some v ∧
    (∀ j, j < (σ.arrayElements id).length →
      ((setProperty σ (.array id) name v).1.arrayElements id).getD j none =
        (σ.arrayElements id).getD j none) ∧
    (∀ j, (σ.arrayElements id).length ≤ j → j < i →
      ((setProperty σ (.array id) name v).1.arrayElements id).getD j none = none ∧
      getProperty (setProperty σ (.array id) name v).1 (.array id) (indexToken j) =
        .ok .undefined) := by
  rw [setProperty_index σ id i name v htype hlit hmax]
  refine ⟨rfl, ?_, ?_, ?_, ?_⟩
  · rw [arrayElements_setArray]; exact writeIndex_length _ i v hlen
  · rw [arrayElements_setArray]; exact writeIndex_at _ i v hlen
  · intro j hj
    rw [arrayElements_setArray]; exact writeIndex_below _ i j v hlen hj
  · intro j hn hj
    have hgap := writeIndex_gap (σ.arrayElements id) i j v hn hj
    refine ⟨by rw [arrayElements_setArray]; exact hgap, ?_⟩
    rw [getProperty_index _ id j (by
      rw [arrayElements_setArray, writeIndex_length _ i v hlen]; omega)]
    rw [arrayElements_setArray, hgap]
    rfl

/-- The array branch at the array `[1, 2, 3]`, index 5 and value 9. -/
theorem indexed_write_extends_witness :
    (indexToken 5).type = .NUMBER ∧ (indexToken 5).literal = .number (5 : Nat) ∧
    ((withArray [some (.number 1), some (.number 2), some (.number 3)]).arrayElements 0).length
      ≤ 5 ∧
    5 < 4294967295 ∧
    ((setProperty (withArray [some (.number 1), some (.number 2), some (.number 3)])
        (.array 0) (indexToken 5) (.number 9)).2 = .ok (.number 9) ∧
     ((setProperty (withArray [some (.number 1), some (.number 2), some (.number 3)])
        (.array 0) (indexToken 5) (.number 9)).1.arrayElements 0).length = 5 + 1 ∧
     ((setProperty (withArray [some (.number 1), some (.number 2), some (.number 3)])
        (.array 0) (indexToken 5) (.number 9)).1.arrayElements 0).getD 5 none =
        some (.number 9) ∧
     (∀ j, j < ((withArray [some (.number 1), some (.number 2),
          some (.number 3)]).arrayElements 0).length →
       ((setProperty (withArray [some (.number 1), some (.number 2), some (.number 3)])
          (.array 0) (indexToken 5) (.number 9)).1.arrayElements 0).getD j none =
         ((withArray [some (.number 1), some (.number 2),
          some (.number 3)]).arrayElements 0).getD j none) ∧
     (∀ j, ((withArray [some (.number 1), some (.number 2),
          some (.number 3)]).arrayElements 0).length ≤ j → j < 5 →
       ((setProperty (withArray [some (.number 1), some (.number 2), some (.number 3)])
          (.array 0) (indexToken 5) (.number 9)).1.arrayElements 0).getD j none = none ∧
       getProperty (setProperty (withArray [some (.number 1), some (.number 2),
          some (.number 3)]) (.array 0) (indexToken 5) (.number 9)).1 (.array 0)
          (indexToken j) = .ok .undefined)) :=
  ⟨rfl, rfl, by decide, by decide,
    indexed_write_extends (withArray [some (.number 1), some (.number 2), some (.number 3)])
      0 5 (indexToken 5) (.number 9) rfl rfl (by decide) (by decide)⟩

/-- C8, code defect.  Running `etb3(5 - 2);` and the same statement with `*`, `<`, `<=`,
`>` and `>=`: both operands are numbers, yet each run reports `Operands must be numbers.`
and writes no result, because the operands reach `checkNumberOperands` as promise
objects. -/
theorem numeric_operators_run :
    (run "etb3(5 - 2);").1.terminal =
      prologue ++ [.writeLine "Runtime Error: Operands must be numbers." "error"] ∧
    (run "etb3(5 * 2);").1.terminal =
      prologue ++ [.writeLine "Runtime Error: Operands must be numbers." "error"] ∧
    (run "etb3(5 < 2);").1.terminal =
      prologue ++ [.writeLine "Runtime Error: Operands must be numbers." "error"] ∧
    (run "etb3(5 <= 2);").1.terminal =
      prologue ++ [.writeLine "Runtime Error: Operands must be numbers." "error"] ∧
    (run "etb3(5 > 2);").1.terminal =
      prologue ++ [.writeLine "Runtime Error: Operands must be numbers." "error"] ∧
    (run "etb3(5 >= 2);").1.terminal =
      prologue ++ [.writeLine "Runtime Error: Operands must be numbers." "error"] ∧
    returned (run "etb3(5 - 2);") = true ∧ (run "etb3(5 - 2);").1.deferred = false := by
  decide!

/-- C9.  `isTruthy` is false exactly on `null`, the boolean `false`, the number zero, the
empty string and an empty array, and true on every other value: among them negative
numbers, the string `"0"`, non-empty arrays, function values and native functions. -/
theorem isTruthy_false_iff (σ : Interp) (v : Value) :
    (isTruthy σ v = false ↔
      v = .null ∨ v = .bool false ∨ v = .number 0 ∨ v = .string "" ∨
        ∃ id, v = .array id ∧ σ.arrayElements id = []) ∧
    isTruthy σ (.number (-1)) = true ∧ isTruthy σ (.string "0") = true ∧
    (∀ id, isTruthy σ (.array id) = !(σ.arrayElements id).isEmpty) ∧
    (∀ id name parameters body closure,
      isTruthy σ (.function id name parameters body closure) = true) ∧
    (∀ name arity, isTruthy σ (.native name arity) = true) := by
  refine ⟨?_, by simp [isTruthy], by simp [isTruthy]; decide, ?_,
    fun _ _ _ _ _ => rfl, fun _ _ => rfl⟩
  · cases v <;> simp [isTruthy, string_length_eq_zero]
  · intro id
    cases h : σ.arrayElements id <;> simp [isTruthy, h]

/-- C10, code defect.  Running `etb3(0 or 3); etb3(false and 3);` writes 0 and 3: the left
operand reaches `isTruthy` as a promise object, which is truthy, so `or` always yields its
left operand and `and` always evaluates and yields its right operand.  In
`etb3(false and x);` the right operand is evaluated although the left one is false: its
error `Undefined variable 'x'.` is reported. -/
theorem logical_operators_run :
    returned (run "etb3(0 or 3); etb3(false and 3);") = true ∧
    (run "etb3(0 or 3); etb3(false and 3);").1.terminal =
      prologue ++ [.writeLine "0" "", .writeLine "3" "", .programCompleted] ∧
    (run "etb3(0 or 3); etb3(false and 3);").1.deferred = false ∧
    (run "etb3(false and x);").1.terminal =
      prologue ++ [.writeLine "Runtime Error: Undefined variable 'x'." "error"] := by
  decide!

/-- C11, code defect.  Running `etb3(1 == 1); etb3(1 != 1); etb3(null == null);` writes
`false`, `true`, `false`: both operands reach `isEqual` as two distinct promise objects,
so `==` yields false and `!=` yields true whatever the operands are. -/
theorem equality_operators_run :
    returned (run "etb3(1 == 1); etb3(1 != 1); etb3(null == null);") = true ∧
    (run "etb3(1 == 1); etb3(1 != 1); etb3(null == null);").1.terminal =
      prologue ++ [.writeLine "false" "", .writeLine "true" "", .writeLine "false" "",
                   .programCompleted] ∧
    (run "etb3(1 == 1); etb3(1 != 1); etb3(null == null);").1.deferred = false := by
  decide!

/-- Once the callee of a call expression has evaluated to an object with a `call` member and
an `arity` method, and the arguments have evaluated, `evaluateCallExpression` is the
arity test followed by `callee.call(this, args)`. -/
theorem evaluateCallExpression_checked (callNative : String → List Value → Routine Value)
    (fuel : Nat) (calleeExpr : Expr) (arguments : List Expr) (σ σ1 σ2 : Interp)
    (callee : Value) (args : List Value) (k : Int)
    (hcallee : await (evaluateExpression callNative fuel true calleeExpr) σ = (σ1, .ok callee))
    (hcall : jsTruthy (getMember σ1 callee "call") = true)
    (harity : arityOf callee = some k)
    (hargs : evaluateArguments callNative fuel arguments σ1 = (σ2, .ok args)) :
    evaluateCallExpression callNative (fuel + 1) calleeExpr arguments σ =
      (if (args.length : Int) != k && k != -1 then
        throwMessage ("Expected " ++ toString k ++ " arguments but got " ++
          toString args.length ++ ".") σ2
       else await (invoke callNative fuel callee args) σ2) := by
  simp only [evaluateCallExpression, bind, Routine.bind, hcallee]
  cases callee <;> simp only [arityOf, Option.some.injEq, reduceCtorEq] at harity <;>
    subst harity <;> simp [typeOf, hcall, hargs, arityOf, invoke]

/-- C12.  For every call expression whose callee evaluates to a callable `callee` of
declared arity `k` and whose arguments evaluate to the `m` values `args`: if `k` is `-1`
or `m = k`, the call expression is the awaited call `callee.call(this, args)`; if `k` is
not `-1` and `m ≠ k`, it throws the error `Expected k arguments but got m.` in the state
the evaluation of the arguments left, without calling the callee. -/
theorem call_arity_check (callNative : String → List Value → Routine Value) (fuel : Nat)
    (calleeExpr : Expr) (arguments : List Expr) (σ σ1 σ2 : Interp) (callee : Value)
    (args : List Value) (k : Int)
    (hcallee : await (evaluateExpression callNative fuel true calleeExpr) σ = (σ1, .ok callee))
    (hcall : jsTruthy (getMember σ1 callee "call") = true)
    (harity : arityOf callee = some k)
    (hargs : evaluateArguments callNative fuel arguments σ1 = (σ2, .ok args)) :
    (k = -1 ∨ (args.length : Int) = k →
      evaluateCallExpression callNative (fuel + 1) calleeExpr arguments σ =
        await (invoke callNative fuel callee args) σ2) ∧
    (k ≠ -1 ∧ (args.length : Int) ≠ k →
      evaluateCallExpression callNative (fuel + 1) calleeExpr arguments σ =
        (σ2, .error (.throw (.error ("Expected " ++ toString k ++ " arguments but got " ++
          toString args.length ++ "."))))) := by
  rw [evaluateCallExpression_checked callNative fuel calleeExpr arguments σ σ1 σ2 callee args k
    hcallee hcall harity hargs]
  constructor
  · rintro (h | h) <;> simp [h]
  · rintro ⟨h1, h2⟩
    simp [h1, h2, throwMessage, Routine.signal]

/-- C12 at the call `abs(1, 2)` in a new interpreter: `abs` declares one parameter, two
arguments are supplied, and the call throws `Expected 1 arguments but got 2.`. -/
theorem call_arity_check_witness :
    await (evaluateExpression nativesNotEmbedded 5 true (.variable "abs"))
        (FlexInterpreter.new standardLibrary) =
      (FlexInterpreter.new standardLibrary, .ok (.native "abs" 1)) ∧
    jsTruthy (getMember (FlexInterpreter.new standardLibrary) (.native "abs" 1) "call") = true ∧
    arityOf (.native "abs" 1) = some 1 ∧
    evaluateArguments nativesNotEmbedded 5 [.literal (.number 1), .literal (.number 2)]
        (FlexInterpreter.new standardLibrary) =
      (FlexInterpreter.new standardLibrary, .ok [.number 1, .number 2]) ∧
    ((1 = -1 ∨ (([Value.number 1, Value.number 2].length : Nat) : Int) = 1 →
      evaluateCallExpression nativesNotEmbedded (5 + 1) (.variable "abs")
          [.literal (.number 1), .literal (.number 2)] (FlexInterpreter.new standardLibrary) =
        await (invoke nativesNotEmbedded 5 (.native "abs" 1) [.number 1, .number 2])
          (FlexInterpreter.new standardLibrary)) ∧
     ((1 : Int) ≠ -1 ∧ (([Value.number 1, Value.number 2].length : Nat) : Int) ≠ 1 →
      evaluateCallExpression nativesNotEmbedded (5 + 1) (.variable "abs")
          [.literal (.number 1), .literal (.number 2)] (FlexInterpreter.new standardLibrary) =
        (FlexInterpreter.new standardLibrary,
          .error (.throw (.error ("Expected " ++ toString (1 : Int) ++ " arguments but got " ++
            toString [Value.number 1, Value.number 2].length ++ ".")))))) :=
  ⟨rfl, by decide, rfl, rfl,
    call_arity_check nativesNotEmbedded 5 (.variable "abs")
      [.literal (.number 1), .literal (.number 2)] (FlexInterpreter.new standardLibrary)
      (FlexInterpreter.new standardLibrary) (FlexInterpreter.new standardLibrary) (.native "abs" 1)
      [.number 1, .number 2] 1 rfl (by decide) rfl rfl⟩

/-- C13, code defect.  Running `function f(a){ a = 2; } f(1);`: the assignment in the body
throws `Undefined variable 'a'.`, because `executeAssignment` assigns in the global
environment only, and the binding of `a` in the environment of the call keeps the value 1.
Running `function f(PI){ PI = 2; } f(1); etb3(PI);`: the assignment changes the global
`PI`, which the last statement prints as 2, and the parameter `PI` keeps the value 1. -/
theorem parameter_assignment_run :
    returned (run "function f(a)\x7b a = 2; \x7d f(1);") = true ∧
    (run "function f(a)\x7b a = 2; \x7d f(1);").1.terminal =
      prologue ++ [.writeLine "Runtime Error: Undefined variable 'a'." "error"] ∧
    (run "function f(a)\x7b a = 2; \x7d f(1);").1.deferred = false ∧
    (run "function f(a)\x7b a = 2; \x7d f(1);").1.frames.get? 1 = some (some 0, ["a"]) ∧
    (Environment.get (run "function f(a)\x7b a = 2; \x7d f(1);").1 2 1 "a").toOption.map
      (strictEquals (.number 1)) = some true ∧
    (run "function f(PI)\x7b PI = 2; \x7d f(1); etb3(PI);").1.terminal =
      prologue ++ [.writeLine "2" "", .programCompleted] ∧
    (run "function f(PI)\x7b PI = 2; \x7d f(1); etb3(PI);").1.frames.get? 1 =
      some (some 0, ["PI"]) ∧
    (Environment.get (run "function f(PI)\x7b PI = 2; \x7d f(1); etb3(PI);").1 2 1
      "PI").toOption.map (strictEquals (.number 1)) = some true := by
  decide!

/-- C14, code defect.  In a new interpreter no environment binds `toString` or
`constructor` (the global environment has its 36 library entries only), yet
`Environment.get` returns a value for both instead of raising `Undefined variable`: the
test `name in this.values` also finds what the object `values` inherits.  For the unbound
name `x` the error is raised. -/
theorem get_inherited_name :
    ((FlexInterpreter.new standardLibrary).frames.map
      (fun frame => (frame.1, frame.2.length, frame.2.contains "toString",
        frame.2.contains "constructor"))) = [(none, 36, false, false)] ∧
    (Environment.get (FlexInterpreter.new standardLibrary) 1 0 "toString").toOption.map
      (strictEquals (.hostFunction "toString")) = some true ∧
    (Environment.get (FlexInterpreter.new standardLibrary) 1 0 "constructor").toOption.map
      typeOf = some "function" ∧
    (Environment.get (FlexInterpreter.new standardLibrary) 1 0 "x").toOption.isNone = true := by
  decide!

/-- C15, code defect.  In an interpreter whose only environment binds nothing,
`Environment.assign` of the name `toString` raises no error and creates the binding
`toString` in that environment, because `name in this.values` finds the inherited method;
the same call for the name `x` raises the error and changes nothing. -/
theorem assign_inherited_name :
    (FlexInterpreter.new []).frames = [(none, [])] ∧
    (Environment.assign (FlexInterpreter.new []) 1 0 "toString" (.number 1)).toOption.map
      Interp.frames = some [(none, ["toString"])] ∧
    ((Environment.assign (FlexInterpreter.new []) 1 0 "toString" (.number 1)).toOption.bind
      (fun σ => (Environment.get σ 1 0 "toString").toOption)).map
      (strictEquals (.number 1)) = some true ∧
    (Environment.assign (FlexInterpreter.new []) 1 0 "x" (.number 1)).toOption.isNone = true := by
  decide!

/-- C16, code defect.  `Environment.define` of the name `__proto__` with the value 5 writes
no binding (the frame still has no own name) and a following `get` returns the prototype
object of `values`, not 5; with the value `null` it removes the prototype of `values`, and
a following `get` of `__proto__` raises `Undefined variable`. -/
theorem define_proto_name :
    (Environment.define (FlexInterpreter.new []) 0 "__proto__" (.number 5)).frames =
      [(none, [])] ∧
    (Environment.get (Environment.define (FlexInterpreter.new []) 0 "__proto__" (.number 5))
      1 0 "__proto__").toOption.map
      (fun r => (strictEquals r (.number 5), strictEquals r (.hostObject "Object.prototype"))) =
      some (false, true) ∧
    (Environment.define (FlexInterpreter.new []) 0 "__proto__" .null).frames = [(none, [])] ∧
    (Environment.get (Environment.define (FlexInterpreter.new []) 0 "__proto__" .null)
      1 0 "__proto__").toOption.isNone = true := by
  decide!

/-- C17, code defect.  Running `function f(a){ { a = 2; } } f(1);`: the environment of the
call binds `a` before the nested block runs, yet the assignment inside the block throws
`Undefined variable 'a'.` and that binding keeps the value 1.  The same happens for a
function `g` declared in an enclosing block.  Only a name the global environment binds is
updated: `{ PI = 5; } etb3(PI);` writes 5. -/
theorem nested_block_assignment_run :
    returned (run "function f(a)\x7b \x7b a = 2; \x7d \x7d f(1);") = true ∧
    (run "function f(a)\x7b \x7b a = 2; \x7d \x7d f(1);").1.terminal =
      prologue ++ [.writeLine "Runtime Error: Undefined variable 'a'." "error"] ∧
    (run "function f(a)\x7b \x7b a = 2; \x7d \x7d f(1);").1.deferred = false ∧
    (run "function f(a)\x7b \x7b a = 2; \x7d \x7d f(1);").1.frames.drop 1 =
      [(some 0, ["a"]), (some 1, [])] ∧
    (Environment.get (run "function f(a)\x7b \x7b a = 2; \x7d \x7d f(1);").1 3 2
      "a").toOption.map (strictEquals (.number 1)) = some true ∧
    (run "\x7b function g()\x7b\x7d \x7b g = 1; \x7d \x7d").1.terminal =
      prologue ++ [.writeLine "Runtime Error: Undefined variable 'g'." "error"] ∧
    (run "\x7b function g()\x7b\x7d \x7b g = 1; \x7d \x7d").1.frames.drop 1 =
      [(some 0, ["g"]), (some 1, [])] ∧
    (run "\x7b PI = 5; \x7d etb3(PI);").1.terminal =
      prologue ++ [.writeLine "5" "", .programCompleted] := by
  decide!

/-- C18, code defect.  Running `function f(){ etb3(x); } etb3(f()); etb3(2);`: the error
`Undefined variable 'x'.` raised in the body of `f` is reported there, the call returns
`null` to the enclosing print statement, which then writes `null`; only the next
statement is skipped. -/
theorem error_in_call_run :
    returned (run "function f()\x7b etb3(x); \x7d etb3(f()); etb3(2);") = true ∧
    (run "function f()\x7b etb3(x); \x7d etb3(f()); etb3(2);").1.terminal =
      prologue ++ [.writeLine "Runtime Error: Undefined variable 'x'." "error",
                   .writeLine "null" "",
                   .writeLine "Execution stopped by user." "warning"] ∧
    (run "function f()\x7b etb3(x); \x7d etb3(f()); etb3(2);").1.deferred = false := by
  decide!

/-- C19, code defect.  Each of the sources `etb3(1); etb3(;` (a syntax error), `etb3(1); @`
(an unexpected character), `etb3(1); "abc` (an unterminated string) and `etb3(; etb3(1);`
(a syntax error before the statement) is parsed to the single statement `etb3(1);`, and
the run writes 1 and completes. -/
theorem syntax_error_run :
    (parse (tokenize "etb3(1); etb3(;")).map List.length = some 1 ∧
    (run "etb3(1); etb3(;").1.terminal = prologue ++ [.writeLine "1" "", .programCompleted] ∧
    (tokenize "etb3(1); @").map (·.type) =
      [.PRINT_LINE, .LEFT_PAREN, .NUMBER, .RIGHT_PAREN, .SEMICOLON, .EOF] ∧
    (run "etb3(1); @").1.terminal = prologue ++ [.writeLine "1" "", .programCompleted] ∧
    (tokenize "etb3(1); \"abc").map (·.type) =
      [.PRINT_LINE, .LEFT_PAREN, .NUMBER, .RIGHT_PAREN, .SEMICOLON, .EOF] ∧
    (run "etb3(1); \"abc").1.terminal = prologue ++ [.writeLine "1" "", .programCompleted] ∧
    (parse (tokenize "etb3(; etb3(1);")).map List.length = some 1 ∧
    (run "etb3(; etb3(1);").1.terminal = prologue ++ [.writeLine "1" "", .programCompleted] ∧
    returned (run "etb3(1); etb3(;") = true := by
  decide!

/-- C20, the claim as stated fails.  Two consecutive runs of `etb3(PI); PI = 5;` on one
interpreter, without input: the first run writes 3.141592653589793 and the second
writes 5. -/
theorem rerun_counterexample :
    runTwice "etb3(PI); PI = 5;" [] =
      (prologue ++ [.writeLine "3.141592653589793" "", .programCompleted],
       prologue ++ [.writeLine "5" "", .programCompleted]) := by
  decide!

/-! ### The debugger -/

/-- Every statement node has the line `0` for the debugger. -/
theorem statementLine_eq_zero (stmt : Stmt) : statementLine stmt = 0 := rfl

/-- A step command on a session that is debugging and paused is `executeNextStatement` on the session with the
mode recorded and the pause flag cleared. -/
theorem stepWith_paused (callNative : String → List Value → Routine Value) (fuel : Nat)
    (mode : Option StepMode) (d : Debugger) (hdebugging : d.isDebugging = true)
    (hpaused : d.isPaused = true) :
    stepWith callNative fuel mode d =
      executeNextStatement callNative fuel (d.statements.length + 1)
        { d with stepMode := mode, isPaused := false } := by
  simp [stepWith, hdebugging, hpaused]

/-- In a session paused at statement `i` with a statement after it, `stepInto` runs
`executeStatement` on statement `i` once; when that call returns, the session is paused
at `i + 1`. -/
theorem stepInto_of_returns (callNative : String → List Value → Routine Value) (fuel : Nat)
    (d : Debugger) (stmt : Stmt) (σ1 : Interp) (v : Value)
    (hdebugging : d.isDebugging = true) (hpaused : d.isPaused = true)
    (hstmt : d.statements.get? d.executionPointer = some stmt)
    (hnext : d.executionPointer + 1 < d.statements.length)
    (hrun : await (executeStatement callNative fuel stmt) d.interpreter = (σ1, .ok v)) :
    stepInto callNative fuel d =
      (({ d with interpreter := σ1, executionPointer := d.executionPointer + 1
                 stepMode := some .into, isPaused := true, currentLine := 0 } : Debugger).writeLine
        "Paused at line 1" "info", .ok ()) := by
  rw [stepInto, stepWith_paused callNative fuel _ d hdebugging hpaused]
  obtain ⟨stmt2, hstmt2⟩ : ∃ s, d.statements.get? (d.executionPointer + 1) = some s := by
    have h := List.get?_eq_get hnext
    exact ⟨_, h⟩
  simp only [List.get?_eq_getElem?] at hstmt hstmt2
  simp [executeNextStatement, hdebugging, hstmt, hrun, Nat.not_le.mpr hnext,
    highlightCurrentStatement, hstmt2, shouldPauseBasedOnStepMode, statementLine, Stmt.line,
    Debugger.writeLine]
  rfl

/-- C21, code defect.  In a session on `return; etb3(1);` paused at statement 0 of 2,
`stepInto` does not leave the session paused at statement 1: the return signal that
`executeStatement` rethrows is caught as an error, `Debug execution error: undefined` is
written and the session ends with the cursor at 0.  In a session started on an interpreter
whose last run ended with an error, `stepInto` moves the cursor from 0 to 1 without
executing statement 0: `debug` does not clear the flag `isStopped`, so `etb3(1);` writes
nothing (on a new interpreter the same step writes 1). -/
theorem step_into_run :
    (debugSession "return; etb3(1);" [] []).status = (true, true, 0, 2) ∧
    settled (stepInto nativesNotEmbedded 1000 (debugSession "return; etb3(1);" [] [])) = true ∧
    (stepInto nativesNotEmbedded 1000 (debugSession "return; etb3(1);" [] [])).1.status =
      (false, false, 0, 2) ∧
    (stepInto nativesNotEmbedded 1000
      (debugSession "return; etb3(1);" [] [])).1.interpreter.terminal =
      debugPrologue ++ [.writeLine "Debug execution error: undefined" "error"] ∧
    (run "etb3(x);").1.isStopped = true ∧
    (debug "etb3(1); etb3(2);" (FlexDebugger.new ((run "etb3(x);").1.nextRun []))).1.status =
      (true, true, 0, 2) ∧
    (stepInto nativesNotEmbedded 1000
      (debug "etb3(1); etb3(2);"
        (FlexDebugger.new ((run "etb3(x);").1.nextRun []))).1).1.status = (true, true, 1, 2) ∧
    (stepInto nativesNotEmbedded 1000
      (debug "etb3(1); etb3(2);"
        (FlexDebugger.new ((run "etb3(x);").1.nextRun []))).1).1.interpreter.terminal =
      debugPrologue ++ [.writeLine "Paused at line 1" "info"] ∧
    (stepInto nativesNotEmbedded 1000 (debugSession "etb3(1); etb3(2);" [] [])).1.interpreter.terminal =
      debugPrologue ++ [.writeLine "1" "", .writeLine "Paused at line 1" "info"] := by
  decide!

/-- C22, code defect.  The three statements of `etb3(1);` / `etb3(2);` / `etb3(3);` are on
the lines 1, 2 and 3.  With a breakpoint on the second line (editor line 1), `continue`
from the first statement never pauses and runs the session to its end; with a breakpoint
on the first line (editor line 0), it pauses before the second statement, whose line
carries no breakpoint.  Statement nodes have no property `line`, so every statement is
compared as line 0. -/
theorem continue_breakpoint_run :
    (debugSession "etb3(1);\netb3(2);\netb3(3);" [1] []).breakpoints = [1] ∧
    ((tokenize "etb3(1);\netb3(2);\netb3(3);").filter (fun t => t.type == .PRINT_LINE)).map
      (·.line) = [1, 2, 3] ∧
    (continueDebugging nativesNotEmbedded 1000
      (debugSession "etb3(1);\netb3(2);\netb3(3);" [1] [])).1.status = (false, false, 3, 3) ∧
    (continueDebugging nativesNotEmbedded 1000
      (debugSession "etb3(1);\netb3(2);\netb3(3);" [1] [])).1.interpreter.terminal =
      debugPrologue ++ [.writeLine "1" "", .writeLine "2" "", .writeLine "3" "",
        .writeLine "Debug session completed." "success"] ∧
    (continueDebugging nativesNotEmbedded 1000
      (debugSession "etb3(1);\netb3(2);\netb3(3);" [0] [])).1.status = (true, true, 1, 3) ∧
    (continueDebugging nativesNotEmbedded 1000
      (debugSession "etb3(1);\netb3(2);\netb3(3);" [0] [])).1.interpreter.terminal =
      debugPrologue ++ [.writeLine "1" "", .writeLine "Paused at line 1" "info"] := by
  decide!

/-- C23, code defect.  For the source `# nothing`, which has no statement, the first
`stepInto` (or `stepOver`, `stepOut`, `continue`) clears the pause flag and returns:
the session stays debugging and not paused, `Debug session completed.` is never written,
and a further command changes nothing. -/
theorem empty_program_step_run :
    (parse (tokenize "# nothing")).map List.length = some 0 ∧
    (debugSession "# nothing" [] []).status = (true, true, 0, 0) ∧
    settled (stepInto nativesNotEmbedded 1000 (debugSession "# nothing" [] [])) = true ∧
    (stepInto nativesNotEmbedded 1000 (debugSession "# nothing" [] [])).1.status =
      (true, false, 0, 0) ∧
    (stepInto nativesNotEmbedded 1000 (debugSession "# nothing" [] [])).1.interpreter.terminal =
      debugPrologue ∧
    (continueDebugging nativesNotEmbedded 1000
      (stepInto nativesNotEmbedded 1000 (debugSession "# nothing" [] [])).1).1.status =
      (true, false, 0, 0) ∧
    (stepOver nativesNotEmbedded 1000 (debugSession "# nothing" [] [])).1.status =
      (true, false, 0, 0) ∧
    (stepOut nativesNotEmbedded 1000 (debugSession "# nothing" [] [])).1.status =
      (true, false, 0, 0) ∧
    (continueDebugging nativesNotEmbedded 1000 (debugSession "# nothing" [] [])).1.status =
      (true, false, 0, 0) := by
  decide!

/-- C24, code defect.  In a debug session on `scan(); etb3(1);`, `stepInto` leaves the
input statement waiting; `stopDebugging` then ends the session and leaves the wait
unresolved: `waitingForInput` stays true, `isStopped` stays false and no `Input cancelled`
error is raised.  The stop command of the interpreter does nothing either during a debug
step, where `isRunning` is false.  During a run it behaves as claimed: the wait is
resolved, `Input cancelled` is reported and the run stops. -/
theorem stop_during_input_run :
    suspended (stepInto nativesNotEmbedded 1000 (debugSession "scan(); etb3(1);" [] [])) = true ∧
    (stepInto nativesNotEmbedded 1000
      (debugSession "scan(); etb3(1);" [] [])).1.interpreter.waitingForInput = true ∧
    (stopDebugging (stepInto nativesNotEmbedded 1000
      (debugSession "scan(); etb3(1);" [] [])).1).status = (false, false, 0, 2) ∧
    (stopDebugging (stepInto nativesNotEmbedded 1000
      (debugSession "scan(); etb3(1);" [] [])).1).interpreter.waitingForInput = true ∧
    (stopDebugging (stepInto nativesNotEmbedded 1000
      (debugSession "scan(); etb3(1);" [] [])).1).interpreter.isStopped = false ∧
    (stopDebugging (stepInto nativesNotEmbedded 1000
      (debugSession "scan(); etb3(1);" [] [])).1).interpreter.terminal =
      debugPrologue ++ [TerminalCall.requestInput "Input: ",
        .writeLine "Debug session stopped." "info"] ∧
    suspended (stepInto nativesNotEmbedded 1000
      (debugSession "scan(); etb3(1);" [] [none])) = true ∧
    (stepInto nativesNotEmbedded 1000
      (debugSession "scan(); etb3(1);" [] [none])).1.interpreter.isStopped = false ∧
    (execute nativesNotEmbedded 1000 "scan(); etb3(1);"
      ((FlexInterpreter.new standardLibrary).nextRun [none])).1.terminal =
      prologue ++ [TerminalCall.requestInput "Input: ",
        .writeLine "Runtime Error: Input cancelled" "error",
        .writeLine "Execution stopped by user." "warning"] ∧
    (execute nativesNotEmbedded 1000 "scan(); etb3(1);"
      ((FlexInterpreter.new standardLibrary).nextRun [none])).1.isStopped = true ∧
    (execute nativesNotEmbedded 1000 "scan(); etb3(1);"
      ((FlexInterpreter.new standardLibrary).nextRun [none])).1.waitingForInput = false := by
  decide!

/-! ### The lexer -/

/-- The two parts of `span` make up the list, the first part satisfies the test and the
second part does not start with an element that satisfies it. -/
theorem span_spec {α : Type} (p : α → Bool) (l : List α) :
    l = (l.span p).1 ++ (l.span p).2 ∧ (∀ x ∈ (l.span p).1, p x = true) ∧
      (∀ x rest, (l.span p).2 = x :: rest → p x = false) := by
  rw [List.span_eq_take_drop]
  refine ⟨(List.takeWhile_append_dropWhile p l).symm, fun x hx => List.mem_takeWhile_imp hx, ?_⟩
  intro x rest h
  induction l with
  | nil => simp at h
  | cons a l ih =>
    by_cases ha : p a = true
    · simp only [List.dropWhile_cons, ha, if_true] at h
      exact ih h
    · simp only [List.dropWhile_cons, ha] at h
      simp at h
      rw [← h.1]
      simpa using ha

/-- No entry of the keyword table and no inherited member is the kind `EOF` or `SLASH`. -/
theorem keywordType_ne (text : String) : keywordType text ≠ .EOF ∧ keywordType text ≠ .SLASH := by
  unfold keywordType
  split
  · rename_i t h
    simp only [keywords, List.lookup] at h
    repeat' split at h
    all_goals first
      | (cases h; exact ⟨by decide, by decide⟩)
      | simp at h
  · split <;> simp

/-- A call of `string` consumes the opening quote and what follows up to the closing quote or the end. -/
theorem scanned_lexString (q : Char) (rest : List Char) (line : Nat) :
    Scanned q rest (lexString q rest line) := by
  have h := span_spec (fun c => c != q) rest
  unfold lexString
  split
  · rename_i body hb
    rw [hb] at h
    refine ⟨q :: rest, by simp, by simp, ?_⟩
    intro t ht; simp at ht
  · rename_i body x after hb
    rw [hb] at h
    have hx : x = q := by simpa using h.2.2 x after rfl
    subst hx
    refine ⟨x :: body ++ [x], ?_, by simp, ?_⟩
    · simp [h.1]
    · intro t ht
      simp at ht
      subst ht
      simp

/-- A call of `number` consumes the digits it makes the lexeme of. -/
theorem scanned_lexNumber (c : Char) (rest : List Char) (line : Nat) :
    Scanned c rest (lexNumber c rest line) := by
  have h := (span_spec isDigit rest).1
  unfold lexNumber
  generalize rest.span isDigit = r at h
  obtain ⟨ds, after⟩ := r
  simp only at h ⊢
  split
  · rename_i d after2
    split
    · have h2 := (span_spec isDigit (d :: after2)).1
      generalize (d :: after2).span isDigit = r2 at h2
      obtain ⟨fs, after3⟩ := r2
      simp only at h2 ⊢
      refine ⟨c :: ds ++ '.' :: fs, ?_, by simp, ?_⟩
      · simp [h, h2]
      · intro t ht; simp at ht; subst ht; simp
    · refine ⟨c :: ds, by simp [h], by simp, ?_⟩
      intro t ht; simp at ht; subst ht; simp
  · refine ⟨c :: ds, by simp [h], by simp, ?_⟩
    intro t ht; simp at ht; subst ht; simp

/-- A call of `identifier` consumes the word it makes the lexeme of. -/
theorem scanned_lexIdentifier (c : Char) (rest : List Char) (line : Nat) :
    Scanned c rest (lexIdentifier c rest line) := by
  have h := (span_spec isAlphaNumeric rest).1
  unfold lexIdentifier
  generalize rest.span isAlphaNumeric = r at h
  obtain ⟨cs, after⟩ := r
  simp only at h ⊢
  refine ⟨c :: cs, by simp [h], by simp, ?_⟩
  intro t ht; simp at ht; subst ht
  exact ⟨rfl, keywordType_ne _⟩

/-- A single-character token consumes that character. -/
theorem scanned_one (c : Char) (rest : List Char) (line : Nat) (t : TokenType)
    (h1 : t ≠ .EOF) (h2 : t ≠ .SLASH) :
    Scanned c rest (some (simpleToken t [c] line), rest, line) :=
  ⟨[c], rfl, by simp, fun _ ht => by cases ht; exact ⟨rfl, h1, h2⟩⟩

/-- A two-character operator consumes both characters. -/
theorem scanned_two (c : Char) (rest : List Char) (line : Nat) (t : TokenType)
    (h1 : t ≠ .EOF) (h2 : t ≠ .SLASH) :
    Scanned c ('=' :: rest) (some (simpleToken t [c, '='] line), rest, line) :=
  ⟨[c, '='], rfl, by simp, fun _ ht => by cases ht; exact ⟨rfl, h1, h2⟩⟩

/-- A skipped character is consumed without a token. -/
theorem scanned_skip (c : Char) (rest : List Char) (line : Nat) :
    Scanned c rest (none, rest, line) :=
  ⟨[c], rfl, by simp, fun _ ht => by simp at ht⟩

/-- A comment is consumed up to the end of its line without a token. -/
theorem scanned_comment (c : Char) (rest : List Char) (line : Nat) :
    Scanned c rest (none, (rest.span (fun d => d != '\n')).2, line) := by
  have h := (span_spec (fun d => d != '\n') rest).1
  refine ⟨c :: (rest.span (fun d => d != '\n')).1, ?_, by simp, fun _ ht => by simp at ht⟩
  simp [← h]

/-- Every call of `scanToken` consumes a non-empty prefix of the source, which is the lexeme of the token it adds, if any. -/
theorem scanned_scanToken (c : Char) (rest : List Char) (line : Nat) :
    Scanned c rest (scanToken c rest line) := by
  unfold scanToken
  lift_lets
  intro one oneOrTwo
  have htwo : ∀ two single : TokenType, two ≠ .EOF → two ≠ .SLASH → single ≠ .EOF →
      single ≠ .SLASH → Scanned c rest (oneOrTwo two single) := by
    intro two single h1 h2 h3 h4
    unfold oneOrTwo
    split
    · exact scanned_two c _ line two h1 h2
    · exact scanned_one c rest line single h3 h4
  have hone : ∀ t : TokenType, t ≠ .EOF → t ≠ .SLASH → Scanned c rest (one t) :=
    fun t h1 h2 => scanned_one c rest line t h1 h2
  clear_value one oneOrTwo
  by_cases h : c = '('
  · rw [if_pos h]; exact hone _ (by decide) (by decide)
  rw [if_neg h]; clear h
  by_cases h : c = ')'
  · rw [if_pos h]; exact hone _ (by decide) (by decide)
  rw [if_neg h]; clear h
  by_cases h : c = '{'
  · rw [if_pos h]; exact hone _ (by decide) (by decide)
  rw [if_neg h]; clear h
  by_cases h : c = '}'
  · rw [if_pos h]; exact hone _ (by decide) (by decide)
  rw [if_neg h]; clear h
  by_cases h : c = '['
  · rw [if_pos h]; exact hone _ (by decide) (by decide)
  rw [if_neg h]; clear h
  by_cases h : c = ']'
  · rw [if_pos h]; exact hone _ (by decide) (by decide)
  rw [if_neg h]; clear h
  by_cases h : c = ','
  · rw [if_pos h]; exact hone _ (by decide) (by decide)
  rw [if_neg h]; clear h
  by_cases h : c = '.'
  · rw [if_pos h]; exact hone _ (by decide) (by decide)
  rw [if_neg h]; clear h
  by_cases h : c = '-'
  · rw [if_pos h]; exact hone _ (by decide) (by decide)
  rw [if_neg h]; clear h
  by_cases h : c = '+'
  · rw [if_pos h]; exact hone _ (by decide) (by decide)
  rw [if_neg h]; clear h
  by_cases h : c = ';'
  · rw [if_pos h]; exact hone _ (by decide) (by decide)
  rw [if_neg h]; clear h
  by_cases h : c = '*'
  · rw [if_pos h]; exact hone _ (by decide) (by decide)
  rw [if_neg h]; clear h
  by_cases h : c = '!'
  · rw [if_pos h]; exact htwo _ _ (by decide) (by decide) (by decide) (by decide)
  rw [if_neg h]; clear h
  by_cases h : c = '='
  · rw [if_pos h]; exact htwo _ _ (by decide) (by decide) (by decide) (by decide)
  rw [if_neg h]; clear h
  by_cases h : c = '<'
  · rw [if_pos h]; exact htwo _ _ (by decide) (by decide) (by decide) (by decide)
  rw [if_neg h]; clear h
  by_cases h : c = '>'
  · rw [if_pos h]; exact htwo _ _ (by decide) (by decide) (by decide) (by decide)
  rw [if_neg h]; clear h
  by_cases h : c = '#'
  · rw [if_pos h]; exact scanned_comment c rest line
  rw [if_neg h]; clear h
  by_cases h : c = ' ' ∨ c = '\r' ∨ c = '\t'
  · rw [if_pos h]; exact scanned_skip c rest line
  rw [if_neg h]; clear h
  by_cases h : c = '\n'
  · rw [if_pos h]; exact scanned_skip c rest line
  rw [if_neg h]; clear h
  by_cases h : c = '"'
  · rw [if_pos h]; subst h; exact scanned_lexString _ rest line
  rw [if_neg h]; clear h
  by_cases h : c = '\''
  · rw [if_pos h]; subst h; exact scanned_lexString _ rest line
  rw [if_neg h]; clear h
  by_cases h : isDigit c = true
  · rw [if_pos h]; exact scanned_lexNumber c rest line
  rw [if_neg h]; clear h
  by_cases h : isAlpha c = true
  · rw [if_pos h]; exact scanned_lexIdentifier c rest line
  rw [if_neg h]; clear h
  exact scanned_skip c rest line

/-- The loop of `tokenize` appends tokens that lie in the source in order; none has the kind `EOF` or `SLASH`. -/
theorem tokenizeLoop_spec (fuel : Nat) (source : List Char) (line : Nat) (acc : List Token) :
    ∃ added, (tokenizeLoop fuel source line acc).1 = acc ++ added ∧
      InSourceOrder source added ∧ ∀ t ∈ added, t.type ≠ .EOF ∧ t.type ≠ .SLASH := by
  induction fuel generalizing source line acc with
  | zero => exact ⟨[], by simp [tokenizeLoop], trivial, by simp⟩
  | succ fuel ih =>
    cases source with
    | nil => exact ⟨[], by simp [tokenizeLoop], trivial, by simp⟩
    | cons c rest =>
      obtain ⟨consumed, hsrc, hne, htok⟩ := scanned_scanToken c rest line
      rw [tokenizeLoop]
      generalize scanToken c rest line = r at hsrc htok
      obtain ⟨ot, rest1, line1⟩ := r
      cases ot with
      | none =>
        obtain ⟨added, h1, h2, h3⟩ := ih rest1 line1 acc
        refine ⟨added, h1, ?_, h3⟩
        cases added with
        | nil => trivial
        | cons t ts =>
          obtain ⟨gap, rest2, hg, hl, hr⟩ := h2
          refine ⟨consumed ++ gap, rest2, ?_, hl, hr⟩
          simp only at hsrc
          rw [hsrc, hg]; simp
      | some t =>
        obtain ⟨added, h1, h2, h3⟩ := ih rest1 line1 (acc ++ [t])
        obtain ⟨hlex, hty⟩ := htok t rfl
        refine ⟨t :: added, by simpa using h1, ⟨[], rest1, ?_, by rw [hlex]; exact hne, h2⟩, ?_⟩
        · simp only at hsrc
          rw [hsrc, hlex]; simp
        · intro u hu
          rcases List.mem_cons.mp hu with rfl | hu
          · exact hty
          · exact h3 u hu

/-- No token of any source has the kind SLASH. -/
theorem tokenize_no_slash (source : String) : ∀ t ∈ tokenize source, t.type ≠ .SLASH := by
  obtain ⟨added, h1, _, h3⟩ := tokenizeLoop_spec source.data.length source.data 1 []
  unfold tokenize
  generalize tokenizeLoop source.data.length source.data 1 [] = r at h1
  obtain ⟨toks, line⟩ := r
  simp only at h1 ⊢
  intro t ht
  rw [h1] at ht
  simp at ht
  rcases ht with ht | rfl
  · exact (h3 t ht).2
  · simp

/-- On a list whose elements all pass the test, `span` keeps everything. -/
theorem span_all {α : Type} (p : α → Bool) (l : List α) (h : ∀ x ∈ l, p x = true) :
    l.span p = (l, []) := by
  rw [List.span_eq_take_drop]
  induction l with
  | nil => rfl
  | cons a l ih =>
    have ha : p a = true := h a (List.mem_cons_self a l)
    have := ih (fun x hx => h x (List.mem_cons_of_mem a hx))
    simp only [Prod.mk.injEq] at this
    simp [List.takeWhile_cons, List.dropWhile_cons, ha, this.1, this.2]

/-- The function `span` stops at the first element that fails the test. -/
theorem span_append {α : Type} (p : α → Bool) (l : List α) (y : α) (r : List α)
    (h : ∀ x ∈ l, p x = true) (hy : p y = false) : (l ++ y :: r).span p = (l, y :: r) := by
  rw [List.span_eq_take_drop]
  induction l with
  | nil => simp [List.takeWhile_cons, List.dropWhile_cons, hy]
  | cons a l ih =>
    have ha : p a = true := h a (List.mem_cons_self a l)
    have := ih (fun x hx => h x (List.mem_cons_of_mem a hx))
    simp only [Prod.mk.injEq] at this
    simp [List.takeWhile_cons, List.dropWhile_cons, ha, this.1, this.2]

/-- The loop of `tokenize` on an exhausted source. -/
theorem tokenizeLoop_nil (fuel line : Nat) (acc : List Token) :
    tokenizeLoop fuel [] line acc = (acc, line) := by
  cases fuel <;> rfl

/-- A digit leads `scanToken` to `number`. -/
theorem scanToken_digit (c : Char) (rest : List Char) (line : Nat) (h : isDigit c = true) :
    scanToken c rest line = lexNumber c rest line := by
  unfold scanToken
  lift_lets
  intro one oneOrTwo
  clear_value one oneOrTwo
  rw [if_neg (show ¬ c = '(' from by rintro rfl; exact absurd h (by decide))]
  rw [if_neg (show ¬ c = ')' from by rintro rfl; exact absurd h (by decide))]
  rw [if_neg (show ¬ c = '{' from by rintro rfl; exact absurd h (by decide))]
  rw [if_neg (show ¬ c = '}' from by rintro rfl; exact absurd h (by decide))]
  rw [if_neg (show ¬ c = '[' from by rintro rfl; exact absurd h (by decide))]
  rw [if_neg (show ¬ c = ']' from by rintro rfl; exact absurd h (by decide))]
  rw [if_neg (show ¬ c = ',' from by rintro rfl; exact absurd h (by decide))]
  rw [if_neg (show ¬ c = '.' from by rintro rfl; exact absurd h (by decide))]
  rw [if_neg (show ¬ c = '-' from by rintro rfl; exact absurd h (by decide))]
  rw [if_neg (show ¬ c = '+' from by rintro rfl; exact absurd h (by decide))]
  rw [if_neg (show ¬ c = ';' from by rintro rfl; exact absurd h (by decide))]
  rw [if_neg (show ¬ c = '*' from by rintro rfl; exact absurd h (by decide))]
  rw [if_neg (show ¬ c = '!' from by rintro rfl; exact absurd h (by decide))]
  rw [if_neg (show ¬ c = '=' from by rintro rfl; exact absurd h (by decide))]
  rw [if_neg (show ¬ c = '<' from by rintro rfl; exact absurd h (by decide))]
  rw [if_neg (show ¬ c = '>' from by rintro rfl; exact absurd h (by decide))]
  rw [if_neg (show ¬ c = '#' from by rintro rfl; exact absurd h (by decide))]
  rw [if_neg (show ¬ (c = ' ' ∨ c = '\r' ∨ c = '\t') from by
    rintro (rfl | rfl | rfl) <;> exact absurd h (by decide))]
  rw [if_neg (show ¬ c = '\n' from by rintro rfl; exact absurd h (by decide))]
  rw [if_neg (show ¬ c = '"' from by rintro rfl; exact absurd h (by decide))]
  rw [if_neg (show ¬ c = '\'' from by rintro rfl; exact absurd h (by decide))]
  rw [if_pos h]

/-- A letter or underscore is no digit. -/
theorem isDigit_of_isAlpha (c : Char) (h : isAlpha c = true) : isDigit c = false := by
  unfold isAlpha at h
  unfold isDigit
  simp only [Bool.or_eq_true, Bool.and_eq_true, decide_eq_true_eq, beq_iff_eq] at h
  rw [Bool.and_eq_false_iff]
  simp only [decide_eq_false_iff_not]
  simp only [Char.le_def] at h ⊢
  rcases h with (h | h) | h
  · right
    intro h2
    have := Nat.le_trans h.1 h2
    revert this; decide
  · right
    intro h2
    have := Nat.le_trans h.1 h2
    revert this; decide
  · subst h; right; decide

/-- A letter or underscore leads `scanToken` to `identifier`. -/
theorem scanToken_alpha (c : Char) (rest : List Char) (line : Nat) (h : isAlpha c = true) :
    scanToken c rest line = lexIdentifier c rest line := by
  unfold scanToken
  lift_lets
  intro one oneOrTwo
  clear_value one oneOrTwo
  rw [if_neg (show ¬ c = '(' from by rintro rfl; exact absurd h (by decide))]
  rw [if_neg (show ¬ c = ')' from by rintro rfl; exact absurd h (by decide))]
  rw [if_neg (show ¬ c = '{' from by rintro rfl; exact absurd h (by decide))]
  rw [if_neg (show ¬ c = '}' from by rintro rfl; exact absurd h (by decide))]
  rw [if_neg (show ¬ c = '[' from by rintro rfl; exact absurd h (by decide))]
  rw [if_neg (show ¬ c = ']' from by rintro rfl; exact absurd h (by decide))]
  rw [if_neg (show ¬ c = ',' from by rintro rfl; exact absurd h (by decide))]
  rw [if_neg (show ¬ c = '.' from by rintro rfl; exact absurd h (by decide))]
  rw [if_neg (show ¬ c = '-' from by rintro rfl; exact absurd h (by decide))]
  rw [if_neg (show ¬ c = '+' from by rintro rfl; exact absurd h (by decide))]
  rw [if_neg (show ¬ c = ';' from by rintro rfl; exact absurd h (by decide))]
  rw [if_neg (show ¬ c = '*' from by rintro rfl; exact absurd h (by decide))]
  rw [if_neg (show ¬ c = '!' from by rintro rfl; exact absurd h (by decide))]
  rw [if_neg (show ¬ c = '=' from by rintro rfl; exact absurd h (by decide))]
  rw [if_neg (show ¬ c = '<' from by rintro rfl; exact absurd h (by decide))]
  rw [if_neg (show ¬ c = '>' from by rintro rfl; exact absurd h (by decide))]
  rw [if_neg (show ¬ c = '#' from by rintro rfl; exact absurd h (by decide))]
  rw [if_neg (show ¬ (c = ' ' ∨ c = '\r' ∨ c = '\t') from by
    rintro (rfl | rfl | rfl) <;> exact absurd h (by decide))]
  rw [if_neg (show ¬ c = '\n' from by rintro rfl; exact absurd h (by decide))]
  rw [if_neg (show ¬ c = '"' from by rintro rfl; exact absurd h (by decide))]
  rw [if_neg (show ¬ c = '\'' from by rintro rfl; exact absurd h (by decide))]
  rw [if_neg (by rw [isDigit_of_isAlpha c h]; simp), if_pos h]

/-- A quote character leads `scanToken` to `string`. -/
theorem scanToken_quote (q : Char) (rest : List Char) (line : Nat)
    (hq : q = '"' ∨ q = '\'') : scanToken q rest line = lexString q rest line := by
  rcases hq with rfl | rfl <;> rfl

/-- A word alone in the source is one token, of the kind `keywordType` gives. -/
theorem tokenize_word (c : Char) (cs : List Char) (hc : isAlpha c = true)
    (hcs : ∀ x ∈ cs, isAlphaNumeric x = true) :
    tokenize (String.mk (c :: cs)) =
      [{ type := keywordType (String.mk (c :: cs)), lexeme := String.mk (c :: cs)
         literal := .null, line := 1 },
       { type := .EOF, lexeme := "", literal := .null, line := 1 }] := by
  simp only [tokenize, List.length_cons, tokenizeLoop, scanToken_alpha c cs 1 hc, lexIdentifier,
    span_all isAlphaNumeric cs hcs, tokenizeLoop_nil, List.nil_append, List.singleton_append]

/-- C25.  For every source, `tokenize` returns tokens followed by one last token; the last
token has the kind `EOF` and the empty lexeme, no earlier token has the kind `EOF`, and
the earlier tokens lie in the source in order: each lexeme is a non-empty piece of the
source that starts after the end of the lexeme before it. -/
theorem tokenize_in_source_order (source : String) :
    ∃ tokens last, tokenize source = tokens ++ [last] ∧
      last.type = .EOF ∧ last.lexeme = "" ∧
      tokens.all (fun t => t.type != .EOF) = true ∧ InSourceOrder source.data tokens := by
  obtain ⟨added, h1, h2, h3⟩ := tokenizeLoop_spec source.data.length source.data 1 []
  refine ⟨added, ⟨.EOF, "", .null, (tokenizeLoop source.data.length source.data 1 []).2⟩,
    ?_, rfl, rfl, List.all_eq_true.mpr (fun t ht => by simpa using (h3 t ht).1), h2⟩
  unfold tokenize
  generalize tokenizeLoop source.data.length source.data 1 [] = r at h1
  obtain ⟨toks, line⟩ := r
  simp only at h1 ⊢
  rw [h1]; simp

/-- C26, code defect.  The words `constructor` and `toString` alone are not lexed as
identifiers: `this.keywords[text]` finds the member of that name that the table inherits
and the token gets that member as its kind, so the statement `constructor;` is a syntax
error.  The sixteen reserved spellings get their keyword kinds and `iffy` is an
identifier. -/
theorem word_token_run :
    (tokenize "constructor").map (fun t => (t.type, t.lexeme)) =
      [(.inherited "constructor", "constructor"), (.EOF, "")] ∧
    (tokenize "toString").map (fun t => (t.type, t.lexeme)) =
      [(.inherited "toString", "toString"), (.EOF, "")] ∧
    (parse (tokenize "constructor;")).map List.length = some 0 ∧
    (parse (tokenize "iffy;")).map List.length = some 1 ∧
    (tokenize "iffy").map (fun t => (t.type, t.lexeme)) = [(.IDENTIFIER, "iffy"), (.EOF, "")] ∧
    ["and", "or", "if", "else", "true", "false", "for", "while", "function", "return", "null",
      "print", "etb3", "da5l", "d5l", "scan"].map (fun w => (tokenize w).map (·.type)) =
      [[.AND, .EOF], [.OR, .EOF], [.IF, .EOF], [.ELSE, .EOF], [.TRUE, .EOF], [.FALSE, .EOF],
       [.FOR, .EOF], [.WHILE, .EOF], [.FUNCTION, .EOF], [.RETURN, .EOF], [.NULL, .EOF],
       [.PRINT, .EOF], [.PRINT_LINE, .EOF], [.INPUT, .EOF], [.INPUT, .EOF], [.INPUT, .EOF]] := by
  decide!

/-- C27, the claim as stated fails.  The source `x = "abc` has a string that is never
closed, and `tokenize` returns a token sequence for it: the tokens of `x =` and the
end-of-input token. -/
theorem unterminated_string_counterexample :
    (tokenize "x = \"abc").map (fun t => (t.type, t.lexeme)) =
      [(.IDENTIFIER, "x"), (.EQUAL, "="), (.EOF, "")] := by
  decide!

/-- C27, amended.  When the scan reaches a quote character `q` and no `q` follows in the
rest `body` of the source, the loop of `tokenize` ends there without adding a token,
whatever it collected before, and counts the lines of `body`; a source that starts with
such a quote yields the end-of-input token alone.  No error is raised. -/
theorem unterminated_string_no_token (q : Char) (body : List Char)
    (hq : q = '"' ∨ q = '\'') (hbody : ∀ x ∈ body, (x != q) = true) :
    (∀ (fuel line : Nat) (acc : List Token),
      tokenizeLoop (fuel + 1) (q :: body) line acc = (acc, line + countNewlines body)) ∧
    tokenize (String.mk (q :: body)) =
      [{ type := .EOF, lexeme := "", literal := .null, line := 1 + countNewlines body }] := by
  have hloop : ∀ (fuel line : Nat) (acc : List Token),
      tokenizeLoop (fuel + 1) (q :: body) line acc = (acc, line + countNewlines body) := by
    intro fuel line acc
    simp only [tokenizeLoop, scanToken_quote q body line hq, lexString,
      span_all (fun c => c != q) body hbody, tokenizeLoop_nil]
  refine ⟨hloop, ?_⟩
  simp only [tokenize, List.length_cons, hloop, List.nil_append]

/-- C27, the amended claim at the source `"abc`. -/
theorem unterminated_string_no_token_witness :
    ('"' = '"' ∨ '"' = '\'') ∧ (∀ x ∈ ['a', 'b', 'c'], (x != '"') = true) ∧
    ((∀ (fuel line : Nat) (acc : List Token),
      tokenizeLoop (fuel + 1) ('"' :: ['a', 'b', 'c']) line acc =
        (acc, line + countNewlines ['a', 'b', 'c'])) ∧
     tokenize (String.mk ('"' :: ['a', 'b', 'c'])) =
      [{ type := .EOF, lexeme := "", literal := .null
         line := 1 + countNewlines ['a', 'b', 'c'] }]) :=
  ⟨Or.inl rfl, by decide,
    unterminated_string_no_token '"' ['a', 'b', 'c'] (Or.inl rfl) (by decide)⟩

/-- The number of binary digits: `2 ^ (k - 1) ≤ n < 2 ^ k` for `k = bitLength fuel n`, when
`n` is positive and the fuel is at least `n`. -/
theorem bitLength_spec : ∀ fuel n, n ≤ fuel → 0 < n →
    2 ^ (bitLength fuel n - 1) ≤ n ∧ n < 2 ^ bitLength fuel n ∧ 0 < bitLength fuel n := by
  intro fuel
  induction fuel with
  | zero => intro n h1 h2; omega
  | succ fuel ih =>
    intro n hle hpos
    have hn : n ≠ 0 := by omega
    simp only [bitLength, hn, if_false]
    by_cases hz : n / 2 = 0
    · have h1 : n = 1 := by omega
      subst h1
      cases fuel <;> simp [bitLength]
    · obtain ⟨h1, h2, h3⟩ := ih (n / 2) (by omega) (by omega)
      refine ⟨?_, ?_, by omega⟩
      · simp only [Nat.add_sub_cancel]
        obtain ⟨b, hb⟩ : ∃ b, bitLength fuel (n / 2) = b + 1 :=
          ⟨_, (Nat.succ_pred_eq_of_pos h3).symm⟩
        rw [hb] at h1 ⊢
        simp only [Nat.add_sub_cancel] at h1
        rw [pow_succ]
        omega
      · rw [pow_succ]
        omega

/-- The power `pow2` at a natural exponent. -/
theorem pow2_natCast (k : Nat) : pow2 (k : Int) = (2 : Rat) ^ k := by
  simp [pow2]

/-- The power `pow2` at a negative exponent. -/
theorem pow2_neg (k : Nat) (hk : 0 < k) : pow2 (-(k : Int)) = 1 / (2 : Rat) ^ k := by
  have : ¬ (0 : Int) ≤ -(k : Int) := by omega
  simp [pow2, this]

/-- A natural number below `2 ^ 53` is a double: `nearestDouble` returns it. -/
theorem nearestDouble_natCast (n : Nat) (h : n < 2 ^ 53) :
    nearestDouble (n : Rat) = some (n : Rat) := by
  rcases Nat.eq_zero_or_pos n with rfl | hpos
  · simp [nearestDouble]
  have hq : (n : Rat) ≠ 0 := by exact_mod_cast (Nat.pos_iff_ne_zero.mp hpos)
  obtain ⟨h1, h2, h3⟩ := bitLength_spec n n (Nat.le_refl _) hpos
  obtain ⟨b, hb⟩ : ∃ b, bitLength n n = b + 1 := ⟨_, (Nat.succ_pred_eq_of_pos h3).symm⟩
  rw [hb] at h1 h2
  simp only [Nat.add_sub_cancel] at h1
  have hb52 : b ≤ 52 := by
    by_contra hcon
    have : 2 ^ 53 ≤ 2 ^ b := Nat.pow_le_pow_right (by decide) (by omega)
    omega
  have hlog : floorLog2 n 1 = (b : Int) := by
    have h11 : bitLength 1 1 = 1 := by decide
    simp only [floorLog2, hb, h11]
    have : ((b + 1 : Nat) : Int) - ((1 : Nat) : Int) = (b : Int) := by omega
    rw [this, pow2_natCast]
    have : (2 : Rat) ^ b * ((1 : Nat) : Rat) ≤ (n : Rat) := by
      have : ((2 ^ b : Nat) : Rat) ≤ (n : Rat) := by exact_mod_cast h1
      simpa using this
    rw [if_pos this]
  have hnum : (n : Rat).num.natAbs = n := by simp
  have hden : (n : Rat).den = 1 := by simp
  unfold nearestDouble
  rw [if_neg hq]
  simp only [hnum, hden, hlog]
  have hmax : max (b : Int) (-1022) - 52 = (b : Int) - 52 := by omega
  rw [hmax]
  have hnn : ¬ ((n : Rat) < 0) := by
    have : (0 : Rat) ≤ (n : Rat) := by exact_mod_cast Nat.zero_le n
    exact not_lt.mpr this
  have hsmall : ¬ ((2 : Rat) ^ 1024 ≤ (n : Rat)) := by
    have h53 : (n : Rat) < (2 : Rat) ^ 53 := by exact_mod_cast h
    have : (2 : Rat) ^ 53 ≤ (2 : Rat) ^ 1024 := by norm_num
    intro hcon
    exact absurd (lt_of_le_of_lt (le_trans this hcon) h53) (lt_irrefl _)
  rcases Nat.lt_or_ge b 52 with hlt | hge
  · have hshift : (b : Int) - 52 < 0 := by omega
    have htn : (-((b : Int) - 52)).toNat = 52 - b := by omega
    have hshift2 : (b : Int) - 52 = -((52 - b : Nat) : Int) := by omega
    simp only [hshift, if_true, htn, Nat.mod_one, Nat.mul_zero, Nat.zero_lt_one, Nat.div_one]
    rw [hshift2, pow2_neg _ (by omega)]
    have hval : ((n * 2 ^ (52 - b) : Nat) : Rat) * (1 / (2 : Rat) ^ (52 - b)) = (n : Rat) := by
      push_cast
      field_simp
    rw [hval, if_neg hsmall, if_neg hnn]
  · have hb' : b = 52 := by omega
    subst hb'
    have hval : (n : Rat) * pow2 0 = (n : Rat) := by simp [pow2]
    have h52 : ((52 : Nat) : Int) - 52 = 0 := by omega
    simp only [h52, lt_self_iff_false, if_false, Int.toNat_zero, pow_zero, Nat.mul_one,
      Nat.mod_one, Nat.mul_zero, Nat.zero_lt_one, if_true, Nat.div_one, hval, hsmall, hnn]

/-- The decimal value of a text without a fraction is the value of its digits. -/
theorem decimalValue_nil (intPart : List Char) :
    decimalValue intPart [] = (digitsValue intPart : Rat) := by
  simp [decimalValue, digitsValue]

/-- C28, the claim as stated fails.  The text `9007199254740993` is lexed as one NUMBER
token whose literal is 9007199254740992: its decimal value 9007199254740993 is `2 ^ 53 + 1`,
which is no double, and `parseFloat` gives the nearest one; the statement
`etb3(9007199254740993);` writes 9007199254740992.  In the same way the literal of `0.1` is
the double `3602879701896397 / 2 ^ 55` and not one tenth, and the literal of the text `1`
followed by 309 zeros is `Infinity`. -/
theorem number_literal_counterexample :
    (tokenize "9007199254740993").map (fun t => (t.type, t.lexeme, t.literal)) =
      [(.NUMBER, "9007199254740993", .number 9007199254740992), (.EOF, "", .null)] ∧
    decimalValue "9007199254740993".data [] = 9007199254740993 ∧
    (run "etb3(9007199254740993);").1.terminal =
      prologue ++ [.writeLine "9007199254740992" "", .programCompleted] ∧
    (tokenize "0.1").map (fun t => (t.type, t.lexeme, t.literal)) =
      [(.NUMBER, "0.1", .number (3602879701896397 / 36028797018963968)), (.EOF, "", .null)] ∧
    decimalValue ['0'] ['1'] = 1 / 10 ∧
    (tokenize (String.mk ('1' :: List.replicate 309 '0'))).map (fun t => (t.type, t.literal)) =
      [(.NUMBER, .infinity), (.EOF, .null)] := by
  refine ⟨by decide!, by decide!, by decide!, by decide!, by decide!, by decide!⟩

/-- C28, amended.  A text `d+` is lexed as one NUMBER token whose lexeme is the text and
whose literal is what `parseFloat` gives for the text, the double nearest to its decimal
value, and so is a text `d+.d+`; the literal of a text `d+` is its decimal value itself
when that is below `2 ^ 53`.  `1.` is NUMBER then DOT, `1e5` is the NUMBER 1 then the
IDENTIFIER `e5`, and a `-` is always a MINUS token of its own, whatever follows. -/
theorem number_literals (c : Char) (ds : List Char) (f : Char) (fs : List Char)
    (hc : isDigit c = true) (hds : ∀ d ∈ ds, isDigit d = true)
    (hf : isDigit f = true) (hfs : ∀ d ∈ fs, isDigit d = true) :
    tokenize (String.mk (c :: ds)) =
      [{ type := .NUMBER, lexeme := String.mk (c :: ds)
         literal := parseFloat (c :: ds) [], line := 1 },
       { type := .EOF, lexeme := "", literal := .null, line := 1 }] ∧
    tokenize (String.mk (c :: ds ++ '.' :: f :: fs)) =
      [{ type := .NUMBER, lexeme := String.mk (c :: ds ++ '.' :: f :: fs)
         literal := parseFloat (c :: ds) (f :: fs), line := 1 },
       { type := .EOF, lexeme := "", literal := .null, line := 1 }] ∧
    (digitsValue (c :: ds) < 2 ^ 53 →
      parseFloat (c :: ds) [] = .number (decimalValue (c :: ds) [])) ∧
    (tokenize "1.").map (fun t => (t.type, t.lexeme)) =
      [(.NUMBER, "1"), (.DOT, "."), (.EOF, "")] ∧
    (tokenize "1e5").map (fun t => (t.type, t.lexeme, t.literal)) =
      [(.NUMBER, "1", .number 1), (.IDENTIFIER, "e5", .null), (.EOF, "", .null)] ∧
    (tokenize "-1").map (fun t => (t.type, t.lexeme)) =
      [(.MINUS, "-"), (.NUMBER, "1"), (.EOF, "")] ∧
    (tokenize "12.5").map (fun t => (t.type, t.lexeme, t.literal)) =
      [(.NUMBER, "12.5", .number (25 / 2)), (.EOF, "", .null)] ∧
    ∀ (rest : List Char) (line : Nat),
      scanToken '-' rest line = (some (simpleToken .MINUS ['-'] line), rest, line) := by
  refine ⟨?_, ?_, ?_, by decide!, by decide!, by decide!, by decide!, fun _ _ => rfl⟩
  · simp only [tokenize, List.length_cons, tokenizeLoop, scanToken_digit c ds 1 hc, lexNumber,
      span_all isDigit ds hds, tokenizeLoop_nil, List.nil_append, List.singleton_append]
  · have hdot : isDigit '.' = false := by decide
    have hfs2 : ∀ d ∈ f :: fs, isDigit d = true := by
      intro d hd
      rcases List.mem_cons.mp hd with rfl | hd
      · exact hf
      · exact hfs d hd
    simp only [tokenize, List.length_cons, tokenizeLoop, List.append_eq,
      scanToken_digit c (ds ++ '.' :: f :: fs) 1 hc, lexNumber,
      span_append isDigit ds '.' (f :: fs) hds hdot, hf, if_true,
      span_all isDigit (f :: fs) hfs2, tokenizeLoop_nil, List.nil_append,
      List.singleton_append]
  · intro hsmall
    simp only [parseFloat, decimalValue_nil, nearestDouble_natCast _ hsmall]

/-- C28, amended, at the texts `12` and `12.5`. -/
theorem number_literals_witness :
    isDigit '1' = true ∧ (∀ d ∈ ['2'], isDigit d = true) ∧ isDigit '5' = true ∧
    (∀ d ∈ ([] : List Char), isDigit d = true) ∧
    tokenize (String.mk ('1' :: ['2'])) =
      [{ type := .NUMBER, lexeme := String.mk ('1' :: ['2'])
         literal := parseFloat ('1' :: ['2']) [], line := 1 },
       { type := .EOF, lexeme := "", literal := .null, line := 1 }] ∧
    tokenize (String.mk ('1' :: ['2'] ++ '.' :: '5' :: [])) =
      [{ type := .NUMBER, lexeme := String.mk ('1' :: ['2'] ++ '.' :: '5' :: [])
         literal := parseFloat ('1' :: ['2']) ('5' :: []), line := 1 },
       { type := .EOF, lexeme := "", literal := .null, line := 1 }] ∧
    digitsValue ('1' :: ['2']) < 2 ^ 53 ∧
    parseFloat ('1' :: ['2']) [] = .number (decimalValue ('1' :: ['2']) []) :=
  ⟨by decide, by decide, by decide, by decide,
    (number_literals '1' ['2'] '5' [] (by decide) (by decide) (by decide) (by decide)).1,
    (number_literals '1' ['2'] '5' [] (by decide) (by decide) (by decide) (by decide)).2.1,
    by decide,
    (number_literals '1' ['2'] '5' [] (by decide) (by decide) (by decide)
      (by decide)).2.2.1 (by decide)⟩

/-- C29, code defect.  No source yields a token of the kind `SLASH`, the kind the factor
tier of the parser matches; the characters `/`, `%`, `&` and `|` are unexpected characters
for the lexer and produce no token: `6 / 2` is lexed as two numbers, `a && b` as two
identifiers. -/
theorem operator_tokens (source : String) :
    (tokenize source).all (fun t => t.type != .SLASH) = true ∧
    (tokenize "6 / 2").map (·.type) = [.NUMBER, .NUMBER, .EOF] ∧
    (tokenize "7 % 2").map (·.type) = [.NUMBER, .NUMBER, .EOF] ∧
    (tokenize "a && b").map (·.type) = [.IDENTIFIER, .IDENTIFIER, .EOF] ∧
    (tokenize "a || b").map (·.type) = [.IDENTIFIER, .IDENTIFIER, .EOF] ∧
    (tokenize "+ - * == != > < >= <= !").map (·.type) =
      [.PLUS, .MINUS, .STAR, .EQUAL_EQUAL, .BANG_EQUAL, .GREATER, .LESS, .GREATER_EQUAL,
       .LESS_EQUAL, .BANG, .EOF] ∧
    (parse (tokenize "etb3(6 / 2);")).map List.length = some 0 := by
  refine ⟨List.all_eq_true.mpr (fun t ht => by simpa using tokenize_no_slash source t ht),
    by decide!, by decide!, by decide!, by decide!, by decide!, by decide!⟩

/-- The four expressions of C30.  Whatever the names `a`, `b`, `c`, `d` are, the tokens of
`a + b * c;` parse as
Binary(+, a, Binary(*, b, c)), those of `a < b == c < d;` as
Binary(==, Binary(<, a, b), Binary(<, c, d)), those of `a or b and c;` as
Logical(or, a, Logical(and, b, c)) and those of `-a * b;` as Binary(*, Unary(-, a), b). -/
theorem precedence_examples (a b c d : String) (l : Nat) :
    parse [word a l, sym .PLUS "+" l, word b l, sym .STAR "*" l, word c l,
      sym .SEMICOLON ";" l, sym .EOF "" l] =
      some [.expressionStatement (.binary (.variable a) (sym .PLUS "+" l)
        (.binary (.variable b) (sym .STAR "*" l) (.variable c)))] ∧
    parse [word a l, sym .LESS "<" l, word b l, sym .EQUAL_EQUAL "==" l, word c l,
      sym .LESS "<" l, word d l, sym .SEMICOLON ";" l, sym .EOF "" l] =
      some [.expressionStatement (.binary
        (.binary (.variable a) (sym .LESS "<" l) (.variable b)) (sym .EQUAL_EQUAL "==" l)
        (.binary (.variable c) (sym .LESS "<" l) (.variable d)))] ∧
    parse [word a l, sym .OR "or" l, word b l, sym .AND "and" l, word c l,
      sym .SEMICOLON ";" l, sym .EOF "" l] =
      some [.expressionStatement (.logical (.variable a) (sym .OR "or" l)
        (.logical (.variable b) (sym .AND "and" l) (.variable c)))] ∧
    parse [sym .MINUS "-" l, word a l, sym .STAR "*" l, word b l, sym .SEMICOLON ";" l,
      sym .EOF "" l] =
      some [.expressionStatement (.binary (.unary (sym .MINUS "-" l) (.variable a))
        (sym .STAR "*" l) (.variable b))] ∧
    tokenize "a + b * c;" = [word "a" 1, sym .PLUS "+" 1, word "b" 1, sym .STAR "*" 1,
      word "c" 1, sym .SEMICOLON ";" 1, sym .EOF "" 1] :=
  ⟨rfl, rfl, rfl, rfl, by decide!⟩

/-! ### The parser -/

/-- The three expressions of C31.  Whatever the names `a`, `b`, `c` are, the tokens of
`a - b - c;` parse as
Binary(-, Binary(-, a, b), c), those of `a == b != c;` as Binary(!=, Binary(==, a, b), c),
and those of `a = b = c;` as Assignment(a, Assignment(b, c)). -/
theorem associativity_examples (a b c : String) (l : Nat) :
    parse [word a l, sym .MINUS "-" l, word b l, sym .MINUS "-" l, word c l,
      sym .SEMICOLON ";" l, sym .EOF "" l] =
      some [.expressionStatement (.binary
        (.binary (.variable a) (sym .MINUS "-" l) (.variable b)) (sym .MINUS "-" l)
        (.variable c))] ∧
    parse [word a l, sym .EQUAL_EQUAL "==" l, word b l, sym .BANG_EQUAL "!=" l, word c l,
      sym .SEMICOLON ";" l, sym .EOF "" l] =
      some [.expressionStatement (.binary
        (.binary (.variable a) (sym .EQUAL_EQUAL "==" l) (.variable b))
        (sym .BANG_EQUAL "!=" l) (.variable c))] ∧
    parse [word a l, sym .EQUAL "=" l, word b l, sym .EQUAL "=" l, word c l,
      sym .SEMICOLON ";" l, sym .EOF "" l] =
      some [.expressionStatement (.assignment a (.assignment b (.variable c)))] ∧
    tokenize "a - b - c;" = [word "a" 1, sym .MINUS "-" 1, word "b" 1, sym .MINUS "-" 1,
      word "c" 1, sym .SEMICOLON ";" 1, sym .EOF "" 1] ∧
    tokenize "a = b = c;" = [word "a" 1, sym .EQUAL "=" 1, word "b" 1, sym .EQUAL "=" 1,
      word "c" 1, sym .SEMICOLON ";" 1, sym .EOF "" 1] :=
  ⟨rfl, rfl, rfl, by decide!, by decide!⟩

/-- C33, code defect.  The statements `a[i];`, `f(x)[0].length;` and `a[i] = v;` do not
parse: the loop of `call` has a case for `(` and for `.` and none for `[`, so the bracket
is a syntax error and `declaration` drops the statement, while `f(x).length;` parses.  A
run of `etb3(1); a[0]; etb3(2);` writes 1 and 2 and never evaluates the index access. -/
theorem index_access_run :
    (tokenize "a[i];").map (·.type) =
      [.IDENTIFIER, .LEFT_BRACKET, .IDENTIFIER, .RIGHT_BRACKET, .SEMICOLON, .EOF] ∧
    (parse (tokenize "a[i];")).map List.length = some 0 ∧
    (parse (tokenize "f(x)[0].length;")).map List.length = some 0 ∧
    (parse (tokenize "a[i] = v;")).map List.length = some 0 ∧
    (parse (tokenize "f(x).length;")).map List.length = some 1 ∧
    (run "etb3(1); a[0]; etb3(2);").1.terminal =
      prologue ++ [.writeLine "1" "", .writeLine "2" "", .programCompleted] := by
  decide!

/-- C34, code defect.  The statements `name = scan();`, `name = da5l();` and
`name = d5l();` do not parse: the word is lexed as the keyword kind INPUT, for which
`primary` has no case, so the statement is a syntax error that `declaration` drops; only
the statement form `scan();` parses.  A run of `name = scan(); etb3(1);` requests no
input. -/
theorem input_expression_run :
    (tokenize "name = scan();").map (·.type) =
      [.IDENTIFIER, .EQUAL, .INPUT, .LEFT_PAREN, .RIGHT_PAREN, .SEMICOLON, .EOF] ∧
    (parse (tokenize "name = scan();")).map List.length = some 0 ∧
    (parse (tokenize "name = da5l();")).map List.length = some 0 ∧
    (parse (tokenize "name = d5l();")).map List.length = some 0 ∧
    (parse (tokenize "scan();")).map List.length = some 1 ∧
    (execute nativesNotEmbedded 1000 "name = scan(); etb3(1);"
      ((FlexInterpreter.new standardLibrary).nextRun [some "x"])).1.terminal =
      prologue ++ [.writeLine "1" "", .programCompleted] := by
  decide!

/-- A `while` loop runs its body as long as its condition is truthy and the run is not
stopped: when the condition is truthy `k` times and then not, the loop runs the body `k`
times, in turn with the condition, and ends in the state that the last evaluation of the
condition left. -/
theorem while_rounds (callNative : String → List Value → Routine Value) (fuel : Nat)
    (cond : Expr) (body : Stmt) :
    ∀ (k : Nat) (before after : Nat → Interp) (value : Nat → Value),
      (∀ i, i ≤ k → await (evaluateExpression callNative (fuel + (k - i)) true cond) (before i) =
        (after i, .ok (value i))) →
      (∀ i, i < k → (isTruthy (after i) (value i) && !(after i).isStopped) = true) →
      (∀ i, i < k → ∃ r, await (executeStatement callNative (fuel + (k - i)) body) (after i) =
        (before (i + 1), .ok r)) →
      (isTruthy (after k) (value k) && !(after k).isStopped) = false →
      executeWhileStatement callNative (fuel + k + 1) cond body (before 0) =
        (after k, .ok .undefined) := by
  intro k
  induction k with
  | zero =>
    intro before after value hcond _ _ hfalse
    have h0 := hcond 0 (Nat.le_refl _)
    simp only [Nat.sub_self, Nat.add_zero] at h0
    simp only [executeWhileStatement, Nat.add_zero, h0, hfalse]
    rfl
  | succ k ih =>
    intro before after value hcond htrue hbody hfalse
    have h0 := hcond 0 (Nat.zero_le _)
    obtain ⟨r, hb⟩ := hbody 0 (Nat.succ_pos _)
    simp only [Nat.sub_zero] at h0 hb
    have hrec := ih (fun i => before (i + 1)) (fun i => after (i + 1)) (fun i => value (i + 1))
      (fun i hi => by
        have := hcond (i + 1) (Nat.succ_le_succ hi)
        rwa [Nat.succ_sub_succ] at this)
      (fun i hi => htrue (i + 1) (Nat.succ_lt_succ hi))
      (fun i hi => by
        obtain ⟨r, hr⟩ := hbody (i + 1) (Nat.succ_lt_succ hi)
        rw [Nat.succ_sub_succ] at hr
        exact ⟨r, hr⟩)
      hfalse
    have ht := htrue 0 (Nat.succ_pos _)
    have hfuel : fuel + (k + 1) + 1 = (fuel + (k + 1)) + 1 := rfl
    rw [hfuel]
    simp only [executeWhileStatement, h0, ht, hb, if_true]
    exact hrec

/-- A block of two statements runs the first and then the second. -/
theorem block_two (callNative : String → List Value → Routine Value) (fuel : Nat)
    (first second : Stmt) (σ σ1 σ2 : Interp) (r1 r2 : Value)
    (hrun : σ.isStopped = false)
    (h1 : await (executeStatement callNative (fuel + 2) first)
      { σ with envs := σ.envs ++ [Environment.new (some σ.environment)],
               environment := σ.envs.length } = (σ1, .ok r1))
    (hs1 : σ1.isStopped = false)
    (h2 : await (executeStatement callNative (fuel + 1) second) σ1 = (σ2, .ok r2)) :
    executeStatement callNative (fuel + 5) (.block [first, second]) σ =
      ({ σ2 with environment := σ.environment }, .ok .undefined) := by
  unfold executeStatement
  simp only [hrun, Bool.false_eq_true, if_false, tryCatch, bind, Routine.bind, newEnvironment]
  unfold executeBlock
  simp only [tryFinally]
  unfold executeStatements
  simp only [hrun] at h1
  simp only [Bool.false_eq_true, if_false, h1]
  unfold executeStatements
  simp only [hs1, Bool.false_eq_true, if_false, h2]
  unfold executeStatements
  rfl

/-- C32.  When, after `for`, the parser reads `(`, an initializer statement `init`, a
condition `cond` or nothing, `;`, a step expression `step`, `)` and a body `body`,
`forStatement` returns Block[init, While(c, Block[body, ExpressionStatement(step)])], where
`c` is `cond`, or the literal `true` when the condition is omitted; the syntax has no node
for a `for` loop.  Executing that result: a block of two statements runs the first and
then the second, in a new environment (so `init` runs once, before the loop, and in each
round `body` runs and then `step`); and the loop runs its body as long as the condition is
truthy (and the run is not stopped): when the condition is truthy `k` times and then not,
the body has run `k` times, in turn with the condition.  Both hold for every statement,
condition and state of a run that leaves no call un-awaited.  A run of
`for (E = true; E; E = false) { etb3(E); etb3(7); } etb3(9);` executes the initializer
once, then the body and the step once; with the initializer `E = false` the body never
runs; and `for (E = true; E; E = PI) { etb3(1); PI = sqrt; sqrt = false; } etb3(9);`
runs the body twice. -/
theorem for_statement_desugars (tokens : List Token) (fuel current c2 c3 c5 c7 : Nat)
    (init body : Stmt) (cond : Option Expr) (step : Expr)
    (hparen : check tokens current .LEFT_PAREN = true)
    (hnoinit : check tokens (current + 1) .SEMICOLON = false)
    (hinit : expressionStatement tokens fuel (current + 1) = .ok (init, c2))
    (hcond : match cond with
      | some c => check tokens c2 .SEMICOLON = false ∧ expression tokens fuel c2 = .ok (c, c3)
      | none => check tokens c2 .SEMICOLON = true ∧ c3 = c2)
    (hsemi : check tokens c3 .SEMICOLON = true)
    (hnostep : check tokens (c3 + 1) .RIGHT_PAREN = false)
    (hstep : expression tokens fuel (c3 + 1) = .ok (step, c5))
    (hclose : check tokens c5 .RIGHT_PAREN = true)
    (hbody : statement tokens fuel (c5 + 1) = .ok (body, c7)) :
    forStatement tokens (fuel + 1) current =
      .ok (.block [init, .whileStatement (cond.getD (.literal (.bool true)))
        (.block [body, .expressionStatement step])], c7) ∧
    parse (tokenize "for (E = true; E; E = false) etb3(E);") =
      some [.block [.expressionStatement (.assignment "E" (.literal (.bool true))),
        .whileStatement (.variable "E")
          (.block [.printStatement (.variable "E") true,
            .expressionStatement (.assignment "E" (.literal (.bool false)))])]] ∧
    (run "for (E = true; E; E = false) \x7b etb3(E); etb3(7); \x7d etb3(9);").1.terminal =
      prologue ++ [.writeLine "true" "", .writeLine "7" "", .writeLine "9" "",
        .programCompleted] ∧
    (run "for (E = false; E; E = false) etb3(E); etb3(9);").1.terminal =
      prologue ++ [.writeLine "9" "", .programCompleted] ∧
    (run "for (E = true; E; E = PI) \x7b etb3(1); PI = sqrt; sqrt = false; \x7d etb3(9);").1.terminal =
      prologue ++ [.writeLine "1" "", .writeLine "1" "", .writeLine "9" "",
        .programCompleted] ∧
    (∀ (callNative : String → List Value → Routine Value) (budget k : Nat) (c : Expr)
        (loopBody : Stmt) (before after : Nat → Interp) (value : Nat → Value),
      (∀ i, i ≤ k →
        await (evaluateExpression callNative (budget + (k - i)) true c) (before i) =
          (after i, .ok (value i))) →
      (∀ i, i < k → (isTruthy (after i) (value i) && !(after i).isStopped) = true) →
      (∀ i, i < k →
        ∃ r, await (executeStatement callNative (budget + (k - i)) loopBody) (after i) =
          (before (i + 1), .ok r)) →
      (isTruthy (after k) (value k) && !(after k).isStopped) = false →
      (after k).deferred = false →
      executeWhileStatement callNative (budget + k + 1) c loopBody (before 0) =
        (after k, .ok .undefined)) ∧
    (∀ (callNative : String → List Value → Routine Value) (budget : Nat)
        (first second : Stmt) (σ σ1 σ2 : Interp) (r1 r2 : Value),
      σ.isStopped = false →
      await (executeStatement callNative (budget + 2) first)
        { σ with envs := σ.envs ++ [Environment.new (some σ.environment)],
                 environment := σ.envs.length } = (σ1, .ok r1) →
      σ1.isStopped = false →
      await (executeStatement callNative (budget + 1) second) σ1 = (σ2, .ok r2) →
      σ2.deferred = false →
      executeStatement callNative (budget + 5) (.block [first, second]) σ =
        ({ σ2 with environment := σ.environment }, .ok .undefined)) := by
  refine ⟨?_, rfl, by decide!, by decide!, by decide!,
    fun callNative budget k c loopBody before after value hcond htrue hbody hfalse _ =>
      while_rounds callNative budget c loopBody k before after value hcond htrue hbody hfalse,
    fun callNative budget first second σ σ1 σ2 r1 r2 hrun h1 hs1 h2 _ =>
      block_two callNative budget first second σ σ1 σ2 r1 r2 hrun h1 hs1 h2⟩
  have hadv : ∀ c t, check tokens c t = true → advance tokens c = c + 1 := by
    intro c t h
    unfold check at h
    unfold advance
    split at h
    · simp at h
    · rename_i hend; simp [hend]
  cases cond with
  | some c =>
    obtain ⟨hc1, hc2⟩ := hcond
    simp [forStatement, consume, hparen, hadv _ _ hparen, hnoinit, hinit, hc1, hc2, hsemi,
      hadv _ _ hsemi, hnostep, hstep, hclose, hadv _ _ hclose, hbody, bind, Except.bind]
  | none =>
    obtain ⟨hc1, rfl⟩ := hcond
    simp [forStatement, consume, hparen, hadv _ _ hparen, hnoinit, hinit, hc1, hsemi,
      hadv _ _ hsemi, hnostep, hstep, hclose, hadv _ _ hclose, hbody, bind, Except.bind]

/-- C32 at the tokens of `for (E = true; E; E = false) etb3(E);`. -/
theorem for_statement_desugars_witness :
    check (tokenize "for (E = true; E; E = false) etb3(E);") 1 .LEFT_PAREN = true ∧
    check (tokenize "for (E = true; E; E = false) etb3(E);") (1 + 1) .SEMICOLON = false ∧
    expressionStatement (tokenize "for (E = true; E; E = false) etb3(E);") 20 (1 + 1) =
      .ok (.expressionStatement (.assignment "E" (.literal (.bool true))), 6) ∧
    (check (tokenize "for (E = true; E; E = false) etb3(E);") 6 .SEMICOLON = false ∧
      expression (tokenize "for (E = true; E; E = false) etb3(E);") 20 6 = .ok (.variable "E", 7)) ∧
    check (tokenize "for (E = true; E; E = false) etb3(E);") 7 .SEMICOLON = true ∧
    check (tokenize "for (E = true; E; E = false) etb3(E);") (7 + 1) .RIGHT_PAREN = false ∧
    expression (tokenize "for (E = true; E; E = false) etb3(E);") 20 (7 + 1) =
      .ok (.assignment "E" (.literal (.bool false)), 11) ∧
    check (tokenize "for (E = true; E; E = false) etb3(E);") 11 .RIGHT_PAREN = true ∧
    statement (tokenize "for (E = true; E; E = false) etb3(E);") 20 (11 + 1) =
      .ok (.printStatement (.variable "E") true, 17) ∧
    forStatement (tokenize "for (E = true; E; E = false) etb3(E);") (20 + 1) 1 =
      .ok (.block [.expressionStatement (.assignment "E" (.literal (.bool true))),
        .whileStatement ((some (Expr.variable "E")).getD (.literal (.bool true)))
          (.block [.printStatement (.variable "E") true,
            .expressionStatement (.assignment "E" (.literal (.bool false)))])], 17) :=
  ⟨by decide, by decide, rfl, ⟨by decide, rfl⟩, by decide, by decide, rfl, by decide, rfl,
    (for_statement_desugars (tokenize "for (E = true; E; E = false) etb3(E);") 20 1 6 7 11 17
      (.expressionStatement (.assignment "E" (.literal (.bool true))))
      (.printStatement (.variable "E") true) (some (.variable "E"))
      (.assignment "E" (.literal (.bool false)))
      (by decide) (by decide) rfl ⟨by decide, rfl⟩ (by decide) (by decide) rfl (by decide)
      rfl).1⟩

/-! ### Step modes -/

/-- With a step mode recorded, one round of `executeNextStatement` does not depend on which
mode it is: the mode is only copied into the result. -/
theorem executeNextStatement_some (callNative : String → List Value → Routine Value)
    (fuel rounds : Nat) (x y : StepMode) (d : Debugger) :
    executeNextStatement callNative fuel (rounds + 1) { d with stepMode := some x } =
      ({ (executeNextStatement callNative fuel (rounds + 1)
            { d with stepMode := some y }).1 with stepMode := some x },
        (executeNextStatement callNative fuel (rounds + 1) { d with stepMode := some y }).2) := by
  obtain ⟨interp, dbg, paused, line, bps, stack, mode, ptr, stmts⟩ := d
  simp only [executeNextStatement]
  cases dbg
  · simp
  · simp only [Bool.not_true, Bool.false_eq_true, if_false]
    cases hs : stmts.get? ptr with
    | none => simp
    | some stmt =>
      simp only []
      rcases hr : await (executeStatement callNative fuel stmt) interp with ⟨σ1, r⟩
      cases r with
      | ok v =>
        simp only [highlightCurrentStatement, shouldPauseBasedOnStepMode, Bool.or_true,
          if_true]
        by_cases hp : ptr + 1 ≥ stmts.length
        · simp [hp, Debugger.writeLine]
        · simp only [hp, if_false]
          cases stmts.get? (ptr + 1) <;> cases x <;> cases y <;> simp [Debugger.writeLine]
      | error e =>
        cases e <;> simp [Debugger.writeLine]

/-- Two step commands that record a step mode do the same, up to the mode they record. -/
theorem stepWith_some (callNative : String → List Value → Routine Value) (fuel : Nat)
    (x y : StepMode) (d : Debugger) :
    stepWith callNative fuel (some x) d =
      ({ (stepWith callNative fuel (some y) d).1 with
          stepMode := if d.isDebugging && d.isPaused then some x else d.stepMode },
        (stepWith callNative fuel (some y) d).2) := by
  obtain ⟨interp, dbg, paused, line, bps, stack, mode, ptr, stmts⟩ := d
  unfold stepWith
  cases dbg <;> cases paused <;>
    simp only [Bool.not_true, Bool.not_false, Bool.or_true, Bool.true_or, Bool.or_false,
      Bool.and_true, Bool.and_false, Bool.false_eq_true, Bool.or_self, Bool.and_self, if_true,
      if_false]
  exact executeNextStatement_some callNative fuel stmts.length x y
    ⟨interp, true, false, line, bps, stack, mode, ptr, stmts⟩

/-- C40.  In every state of the debugger, `stepOver` and `stepOut` return what `stepInto`
returns: the same settled or pending outcome, and the same debugger and interpreter
state, except for the field `stepMode`, which holds the mode of the command when the
session was paused and is unchanged otherwise.  The field `callStack` is read nowhere. -/
theorem step_over_out_as_into (callNative : String → List Value → Routine Value) (fuel : Nat)
    (d : Debugger) :
    stepOver callNative fuel d =
      ({ (stepInto callNative fuel d).1 with
          stepMode := if d.isDebugging && d.isPaused then some .over else d.stepMode },
        (stepInto callNative fuel d).2) ∧
    stepOut callNative fuel d =
      ({ (stepInto callNative fuel d).1 with
          stepMode := if d.isDebugging && d.isPaused then some .out else d.stepMode },
        (stepInto callNative fuel d).2) ∧
    (stepInto callNative fuel d).1.stepMode =
      (if d.isDebugging && d.isPaused then some .into else d.stepMode) :=
  ⟨stepWith_some callNative fuel .over .into d, stepWith_some callNative fuel .out .into d, by
    have h := stepWith_some callNative fuel .into .into d
    unfold stepInto
    rw [h]⟩

/-! ### Native functions -/

/-- C35, code defect.  A run of
`printLine(0); printLine(false); printLine(null); printLine(7); printLine(true);` writes
three empty lines, then `7` and `true`: `IO.println` and `IO.print` replace a falsy
argument by the empty string (`args[0] || ''`) before they convert it, so `0`, `false` and
`null` are written as nothing.  The print statement `etb3(0);`, which goes through
`stringify`, writes `0`. -/
theorem print_natives_run :
    (execute ioNatives 1000
      "printLine(0); printLine(false); printLine(null); printLine(7); printLine(true);"
      (FlexInterpreter.new standardLibrary)).1.terminal =
      prologue ++ [.writeLine "" "", .writeLine "" "", .writeLine "" "", .writeLine "7" "",
        .writeLine "true" "", .programCompleted] ∧
    (ioPrint true [.number 0] (FlexInterpreter.new standardLibrary)).1.terminal =
      [.writeLine "" ""] ∧
    (ioPrint false [.number 0] (FlexInterpreter.new standardLibrary)).1.terminal =
      [.write ""] ∧
    (ioPrint true [.bool false] (FlexInterpreter.new standardLibrary)).1.terminal =
      [.writeLine "" ""] ∧
    (ioNatives "etb3" [.number 0] (FlexInterpreter.new standardLibrary)).1.terminal =
      [.writeLine "" ""] ∧
    (ioNatives "print" [.bool false] (FlexInterpreter.new standardLibrary)).1.terminal =
      [.write ""] ∧
    (stringifyValue (FlexInterpreter.new standardLibrary) (.number 0)).toOption = some "0" ∧
    (execute ioNatives 1000 "etb3(0); etb3(false);"
      (FlexInterpreter.new standardLibrary)).1.terminal =
      prologue ++ [.writeLine "0" "", .writeLine "false" "", .programCompleted] := by
  decide!

/-- Every native function of the claim is registered with the number of arguments its body
demands. -/
theorem fixedArityNatives_agree :
    fixedArityNatives.all (fun name =>
      match declaredArity standardLibrary name, demandedCount name with
      | some k, some n => k == (n : Int)
      | _, _ => false) = true := by
  decide!

/-- C39.  For every native function `name` of the list (registered with a fixed arity
`k`): the number of arguments its body demands is `k`; and a call expression whose callee
evaluates to that function either supplies `k` arguments, in which case the function is
called and the test on the number of arguments at the head of its body does not fire, or
supplies another number, in which case `Expected k arguments but got m.` is thrown and the
function is not called. -/
theorem fixed_arity_natives (callNative : String → List Value → Routine Value) (fuel : Nat)
    (calleeExpr : Expr) (arguments : List Expr) (σ σ1 σ2 : Interp) (name : String) (k : Int)
    (args : List Value)
    (hname : name ∈ fixedArityNatives)
    (hdecl : declaredArity standardLibrary name = some k)
    (hcallee : await (evaluateExpression callNative fuel true calleeExpr) σ =
      (σ1, .ok (.native name k)))
    (hcall : jsTruthy (getMember σ1 (.native name k) "call") = true)
    (hargs : evaluateArguments callNative fuel arguments σ1 = (σ2, .ok args)) :
    (∃ n : Nat, demandedCount name = some n ∧ k = (n : Int)) ∧
    (((args.length : Int) = k ∧ countError name args = none ∧
        evaluateCallExpression callNative (fuel + 1) calleeExpr arguments σ =
          await (callNative name args) σ2) ∨
     ((args.length : Int) ≠ k ∧
        evaluateCallExpression callNative (fuel + 1) calleeExpr arguments σ =
          (σ2, .error (.throw (.error ("Expected " ++ toString k ++ " arguments but got " ++
            toString args.length ++ ".")))))) := by
  have hall := List.all_eq_true.mp fixedArityNatives_agree name hname
  rw [hdecl] at hall
  cases hd : demandedCount name with
  | none => rw [hd] at hall; simp at hall
  | some n =>
    rw [hd] at hall
    have hk : k = (n : Int) := by simpa using hall
    refine ⟨⟨n, rfl, hk⟩, ?_⟩
    have hchecked := evaluateCallExpression_checked callNative fuel calleeExpr arguments σ σ1
      σ2 (.native name k) args k hcallee hcall rfl hargs
    by_cases hlen : (args.length : Int) = k
    · left
      refine ⟨hlen, ?_, ?_⟩
      · have : args.length = n := by omega
        simp [countError, hd, this]
      · rw [hchecked]; simp [hlen, invoke]
    · right
      refine ⟨hlen, ?_⟩
      have hne : k ≠ -1 := by omega
      rw [hchecked]; simp [hlen, hne, throwMessage, Routine.signal]

/-- C39 at the call `abs(1)` in a new interpreter. -/
theorem fixed_arity_natives_witness :
    "abs" ∈ fixedArityNatives ∧ declaredArity standardLibrary "abs" = some 1 ∧
    await (evaluateExpression nativesNotEmbedded 5 true (.variable "abs")) (FlexInterpreter.new standardLibrary) =
      ((FlexInterpreter.new standardLibrary), .ok (.native "abs" 1)) ∧
    jsTruthy (getMember (FlexInterpreter.new standardLibrary) (.native "abs" 1) "call") = true ∧
    evaluateArguments nativesNotEmbedded 5 [.literal (.number 1)] (FlexInterpreter.new standardLibrary) =
      ((FlexInterpreter.new standardLibrary), .ok [.number 1]) ∧
    ((∃ n : Nat, demandedCount "abs" = some n ∧ (1 : Int) = (n : Int)) ∧
     (((([Value.number 1].length : Nat) : Int) = 1 ∧ countError "abs" [.number 1] = none ∧
        evaluateCallExpression nativesNotEmbedded (5 + 1) (.variable "abs")
            [.literal (.number 1)] (FlexInterpreter.new standardLibrary) =
          await (nativesNotEmbedded "abs" [.number 1]) (FlexInterpreter.new standardLibrary)) ∨
      ((([Value.number 1].length : Nat) : Int) ≠ 1 ∧
        evaluateCallExpression nativesNotEmbedded (5 + 1) (.variable "abs")
            [.literal (.number 1)] (FlexInterpreter.new standardLibrary) =
          ((FlexInterpreter.new standardLibrary), .error (.throw (.error ("Expected " ++ toString (1 : Int) ++
            " arguments but got " ++ toString [Value.number 1].length ++ "."))))))) :=
  ⟨by decide, rfl, rfl, by decide, rfl,
    fixed_arity_natives nativesNotEmbedded 5 (.variable "abs") [.literal (.number 1)] (FlexInterpreter.new standardLibrary) (FlexInterpreter.new standardLibrary)
      (FlexInterpreter.new standardLibrary) "abs" 1 [.number 1] (by decide) rfl rfl (by decide) rfl⟩

/-! ### The current environment is restored -/

/-- A routine that keeps the environment also when pending keeps it when it returns or throws. -/
theorem KeepsAll.keeps {α : Type} {m : Routine α} (h : KeepsAll m) : Keeps m := by
  intro σ he
  apply h σ
  rcases hr : (m σ).2 with _ | _ <;> rw [hr] at he
  · rename_i e; cases e <;> simp [ended] at he; rfl
  · rfl

/-- Sequencing keeps the environment. -/
theorem keeps_bind {α β : Type} {m : Routine α} {f : α → Routine β} (hm : Keeps m)
    (hf : ∀ a, Keeps (f a)) : Keeps (m >>= f) := by
  intro σ he
  have h1 := hm σ
  simp only [bind, Routine.bind] at he ⊢
  rcases hr : m σ with ⟨σ1, r⟩
  rw [hr] at he h1
  cases r with
  | ok a =>
    simp only at he ⊢
    rw [hf a σ1 he]
    exact h1 rfl
  | error e => cases e <;> simp_all [ended]

/-- Sequencing keeps the environment, pending outcomes included. -/
theorem keepsAll_bind {α β : Type} {m : Routine α} {f : α → Routine β} (hm : KeepsAll m)
    (hf : ∀ a, KeepsAll (f a)) : KeepsAll (m >>= f) := by
  intro σ he
  have h1 := hm σ
  simp only [bind, Routine.bind] at he ⊢
  rcases hr : m σ with ⟨σ1, r⟩
  rw [hr] at he h1
  cases r with
  | ok a =>
    simp only at he ⊢
    rw [hf a σ1 he]
    exact h1 rfl
  | error e => cases e <;> simp_all [endedOrPending]

/-- Returning a value keeps the environment. -/
theorem keepsAll_pure {α : Type} (a : α) : KeepsAll (pure a : Routine α) := fun _ _ => rfl

/-- Ending with a signal keeps the environment. -/
theorem keepsAll_signal {α : Type} (e : Signal) : KeepsAll (Routine.signal e : Routine α) :=
  fun _ _ => rfl

/-- Throwing an error keeps the environment. -/
theorem keepsAll_throwMessage {α : Type} (s : String) : KeepsAll (throwMessage s : Routine α) :=
  fun _ _ => rfl

/-- A routine that only reads the state keeps the environment. -/
theorem keepsAll_ofExcept {α : Type} (f : Interp → Except Signal α) :
    KeepsAll (Routine.ofExcept f) := fun _ _ => rfl

/-- An un-awaited call keeps the environment when the called routine does, pending outcomes included. -/
theorem keepsAll_callAsync {m : Routine Value} (hm : KeepsAll m) : KeepsAll (callAsync m) := by
  intro σ he
  have h1 := hm σ
  simp only [callAsync] at he ⊢
  rcases hr : m σ with ⟨σ1, r⟩
  rw [hr] at he h1
  cases r with
  | ok a => exact h1 rfl
  | error e => cases e <;> simp [endedOrPending] at he h1 ⊢ <;> exact h1

/-- Awaiting keeps the environment when the awaited routine does. -/
theorem keeps_await {m : Routine Value} (hm : Keeps m) : Keeps (await m) := by
  intro σ he
  have h1 := hm σ
  simp only [await] at he ⊢
  rcases hr : m σ with ⟨σ1, r⟩
  rw [hr] at he h1
  cases r with
  | ok a => exact h1 rfl
  | error e => exact h1 he

/-- A `try` with a `catch` keeps the environment when its body and its handler do. -/
theorem keeps_tryCatch {α : Type} {m : Routine α} {h : Value → Routine α} (hm : Keeps m)
    (hh : ∀ r, Keeps (h r)) : Keeps (tryCatch m h) := by
  intro σ he
  have h1 := hm σ
  simp only [tryCatch] at he ⊢
  rcases hr : m σ with ⟨σ1, r⟩
  rw [hr] at he h1
  cases r with
  | ok a => exact h1 rfl
  | error e =>
    cases e with
    | throw r =>
      simp only at he ⊢
      rw [hh r σ1 he]
      exact h1 rfl
    | _ => simp [ended] at he

/-- Replacing an environment object does not move `this.environment`. -/
theorem setEnv_environment (σ : Interp) (id : Nat) (e : Environment) :
    (σ.setEnv id e).environment = σ.environment := rfl

/-- `Environment.define` does not move `this.environment`. -/
theorem define_environment (σ : Interp) (id : Nat) (name : String) (v : Value) :
    (Environment.define σ id name v).environment = σ.environment := by
  unfold Environment.define
  split <;> rfl

/-- `Environment.assign` does not move `this.environment`. -/
theorem assign_environment (σ σ1 : Interp) (fuel id : Nat) (name : String) (v : Value)
    (h : Environment.assign σ fuel id name v = .ok σ1) : σ1.environment = σ.environment := by
  induction fuel generalizing id with
  | zero => simp [Environment.assign] at h
  | succ fuel ih =>
    rw [Environment.assign] at h
    split at h
    · simp at h
    · split at h
      · cases h; rfl
      · split at h
        · exact ih _ h
        · simp at h

/-- `Environment.assignAt` does not move `this.environment`. -/
theorem assignAt_environment (σ σ1 : Interp) (id distance : Nat) (name : String) (v : Value)
    (h : Environment.assignAt σ id distance name v = .ok σ1) :
    σ1.environment = σ.environment := by
  unfold Environment.assignAt at h
  split at h
  · simp at h
  · split at h
    · simp at h
    · cases h; rfl

/-- Binding the parameters of a call does not move `this.environment`. -/
theorem defineParameters_environment (env : Nat) (ps : List String) (args : List Value)
    (σ : Interp) : (defineParameters env ps args σ).environment = σ.environment := by
  induction ps generalizing args σ with
  | nil => rfl
  | cons p ps ih =>
    cases args with
    | nil => rw [defineParameters, ih, define_environment]
    | cons a rest => rw [defineParameters, ih, define_environment]

/-- A property write does not move `this.environment`. -/
theorem setProperty_environment (σ : Interp) (object : Value) (name : Token) (value : Value) :
    (setProperty σ object name value).1.environment = σ.environment := by
  unfold setProperty
  simp only []
  repeat' split
  all_goals rfl

/-- `handleError` does not move `this.environment`. -/
theorem handleError_environment (σ : Interp) (error : Value) :
    (handleError σ error).environment = σ.environment := by
  unfold handleError
  split <;> rfl

/-- `lookupVariable` keeps the environment. -/
theorem keepsAll_lookupVariable (name : String) (expr : Expr) :
    KeepsAll (lookupVariable name expr) := by
  intro σ _
  unfold lookupVariable
  split <;> rfl

/-- The store of an assignment keeps the environment. -/
theorem keepsAll_storeAssignment (node : Expr) (name : String) (value : Value) :
    KeepsAll (storeAssignment node name value) := by
  intro σ _
  unfold storeAssignment
  simp only []
  split
  · rename_i σ1 h
    split at h
    · exact assignAt_environment _ _ _ _ _ _ h
    · exact assign_environment _ _ _ _ _ _ h
  · rfl

/-- A call on the terminal keeps the environment. -/
theorem keepsAll_terminalCall (c : TerminalCall) : KeepsAll (terminalCall c) := fun _ _ => rfl

/-- Creating an environment object keeps `this.environment`. -/
theorem keepsAll_newEnvironment (enclosing : Option Nat) :
    KeepsAll (newEnvironment enclosing) := fun _ _ => rfl

/-- An input request keeps the environment. -/
theorem keepsAll_requestInput (prompt : String) : KeepsAll (requestInput prompt) := by
  intro σ _
  unfold requestInput
  simp only []
  repeat' split
  all_goals rfl

/-- A routine whose new state has the old `environment` keeps the environment. -/
theorem keepsAll_of_state {α : Type} (m : Routine α)
    (h : ∀ σ, (m σ).1.environment = σ.environment) : KeepsAll m := fun σ _ => h σ

/-- Without recursion budget every routine ends with a signal. -/
theorem allKeep_zero (callNative : String → List Value → Routine Value) :
    AllKeep callNative 0 := by
  constructor <;> intros <;> exact fun _ _ => rfl

/-- `executeBlock` restores `this.environment` when its body returns or throws, whatever
the body does. -/
theorem keeps_executeBlock (callNative : String → List Value → Routine Value) (fuel : Nat)
    (ss : List Stmt) (env : Nat) : Keeps (executeBlock callNative fuel ss env) := by
  intro σ he
  cases fuel with
  | zero => rfl
  | succ fuel =>
    rw [executeBlock] at he ⊢
    simp only [tryFinally] at he ⊢
    generalize executeStatements callNative fuel ss { σ with environment := env } = res at he ⊢
    obtain ⟨σ1, r⟩ := res
    cases r with
    | ok a => rfl
    | error e => cases e <;> simp [ended] at he ⊢

/-- If every routine keeps the environment with the budget `fuel`, so does every routine with the budget `fuel + 1`, provided the native functions keep it. -/
theorem allKeep_succ (callNative : String → List Value → Routine Value) (fuel : Nat)
    (hnative : ∀ name args, Keeps (callNative name args)) (ih : AllKeep callNative fuel) :
    AllKeep callNative (fuel + 1) := by
  have hunawaited : ∀ e, KeepsAll (evaluateExpression callNative (fuel + 1) false e) := by
    intro e
    cases e <;> simp only [evaluateExpression]
    · exact keepsAll_pure _
    · exact keepsAll_lookupVariable _ _
    · exact ih.assignment _ _ _
    · exact ih.binary _ _ _
    · exact ih.logicalUnawaited _ _ _
    · exact ih.unary _ _
    · rename_i c p args
      intro σ he
      have h1 := ih.unawaited c σ
      simp only [Bool.false_eq_true, if_false] at he ⊢
      generalize evaluateExpression callNative fuel false c σ = res at he h1 ⊢
      obtain ⟨σ1, r⟩ := res
      cases r with
      | ok a => exact h1 rfl
      | error e => cases e <;> simp [endedOrPending] at he h1 ⊢ <;> exact h1
    · exact ih.unawaited _
    · exact ih.arrayLiteral _
    · exact ih.get _ _
    · exact ih.set _ _ _
  have hexpression : ∀ awaited e, Keeps (evaluateExpression callNative (fuel + 1) awaited e) := by
    intro awaited e
    cases awaited with
    | false => exact (hunawaited e).keeps
    | true =>
      cases e <;> simp only [evaluateExpression]
      · exact (keepsAll_pure _).keeps
      · exact (keepsAll_lookupVariable _ _).keeps
      · exact (ih.assignment _ _ _).keeps
      · exact (ih.binary _ _ _).keeps
      · exact ih.logical _ _ _ _
      · exact (ih.unary _ _).keeps
      · simpa using ih.call _ _
      · exact ih.expression _ _
      · exact (ih.arrayLiteral _).keeps
      · exact (ih.get _ _).keeps
      · exact (ih.set _ _ _).keeps
  refine ⟨hexpression, hunawaited, ?_, ?_, ?_, ?_, ?_, ?_, ?_, ?_, ?_, ?_, ?_, ?_, ?_, ?_, ?_, ?_,
    ?_, ?_, ?_, ?_, ?_⟩
  · -- executeAssignment
    intro node name v
    simp only [executeAssignment]
    exact keepsAll_bind (keepsAll_callAsync (ih.unawaited _))
      (fun _ => keepsAll_storeAssignment _ _ _)
  · -- evaluateBinaryExpression
    intro l op r
    simp only [evaluateBinaryExpression]
    exact keepsAll_bind (keepsAll_callAsync (ih.unawaited _))
      (fun _ => keepsAll_bind (keepsAll_callAsync (ih.unawaited _))
        (fun _ => keepsAll_ofExcept _))
  · -- evaluateLogicalExpression
    intro awaited l op r σ he
    have h1 := keepsAll_callAsync (ih.unawaited l) σ
    simp only [evaluateLogicalExpression] at he ⊢
    generalize callAsync (evaluateExpression callNative fuel false l) σ = res at he h1 ⊢
    obtain ⟨σ1, res⟩ := res
    cases res with
    | error e => cases e <;> simp [ended, endedOrPending] at he h1 ⊢; exact h1
    | ok left =>
      have h2 := h1 rfl
      simp only at he h2 ⊢
      cases hop : (op.type == TokenType.OR) <;> cases ht : isTruthy σ1 left <;>
        simp only [hop, ht, if_true, if_false, Bool.not_true, Bool.not_false,
          Bool.false_eq_true] at he ⊢ <;>
        first
        | exact h2
        | exact (ih.expression awaited r σ1 he).trans h2
  · -- evaluateLogicalExpression, un-awaited
    intro l op r σ he
    have h1 := keepsAll_callAsync (ih.unawaited l) σ
    simp only [evaluateLogicalExpression] at he ⊢
    generalize callAsync (evaluateExpression callNative fuel false l) σ = res at he h1 ⊢
    obtain ⟨σ1, res⟩ := res
    cases res with
    | error e => cases e <;> simp [ended, endedOrPending] at he h1 ⊢ <;> exact h1
    | ok left =>
      have h2 := h1 rfl
      simp only at he h2 ⊢
      cases hop : (op.type == TokenType.OR) <;> cases ht : isTruthy σ1 left <;>
        simp only [hop, ht, if_true, if_false, Bool.not_true, Bool.not_false,
          Bool.false_eq_true] at he ⊢ <;>
        first
        | exact h2
        | exact (ih.unawaited r σ1 he).trans h2
  · -- evaluateUnaryExpression
    intro op r
    simp only [evaluateUnaryExpression]
    exact keepsAll_bind (keepsAll_callAsync (ih.unawaited _)) (fun _ => keepsAll_ofExcept _)
  · -- evaluateArguments
    intro args
    cases args with
    | nil => simp only [evaluateArguments]; exact (keepsAll_pure _).keeps
    | cons arg rest =>
      simp only [evaluateArguments]
      exact keeps_bind (keeps_await (ih.expression _ _))
        (fun _ => keeps_bind (ih.arguments _) (fun _ => (keepsAll_pure _).keeps))
  · -- evaluateCallExpression
    intro c args
    simp only [evaluateCallExpression]
    refine keeps_bind (keeps_await (ih.expression _ _)) (fun callee => ?_)
    split
    · exact (keepsAll_throwMessage _).keeps
    · split
      · exact (keepsAll_throwMessage _).keeps
      · intro σ
        simp only
        cases hcall : jsTruthy (getMember σ callee "call")
        · simp only [Bool.not_false, if_true]
          intro _; rfl
        · simp only [Bool.not_true, Bool.false_eq_true, if_false]
          have h1 := ih.arguments args σ
          generalize evaluateArguments callNative fuel args σ = res at h1 ⊢
          obtain ⟨σ1, res⟩ := res
          cases res with
          | error e => cases e <;> simp [ended] at h1 ⊢; exact h1
          | ok vs =>
            have h2 := h1 rfl
            simp only at h2 ⊢
            cases harity : arityOf callee with
            | none => simp only; intro _; exact h2
            | some arity =>
              simp only
              cases hc : ((vs.length : Int) != arity && arity != -1)
              · simp only [Bool.false_eq_true, if_false]
                split
                · intro he
                  rw [keeps_await (ih.function _ _ _ _) σ1 he]
                  exact h2
                · intro he
                  rw [keeps_await (hnative _ _) σ1 he]
                  exact h2
                · intro _; exact h2
              · simp only [if_true]
                intro _; exact h2
  · -- flexFunctionCall
    intro closure ps body args
    simp only [flexFunctionCall]
    refine keeps_bind (keepsAll_newEnvironment _).keeps (fun env => ?_)
    refine keeps_tryCatch ?_ ?_
    · intro σ he
      have h1 := keeps_executeBlock callNative fuel body env (defineParameters env ps args σ)
      simp only at he ⊢
      generalize executeBlock callNative fuel body env (defineParameters env ps args σ) = res
        at he h1 ⊢
      obtain ⟨σ1, res⟩ := res
      cases res with
      | ok a => rw [h1 rfl, defineParameters_environment]
      | error e =>
        cases e <;> simp [ended] at he h1 ⊢
        rw [h1, defineParameters_environment]
    · intro error
      split
      · exact (keepsAll_pure _).keeps
      · exact (keepsAll_signal _).keeps
  · -- evaluateElements
    intro es
    cases es with
    | nil => simp only [evaluateElements]; exact keepsAll_pure _
    | cons e rest =>
      simp only [evaluateElements]
      exact keepsAll_bind (keepsAll_callAsync (ih.unawaited _))
        (fun _ => keepsAll_bind (ih.elements _) (fun _ => keepsAll_pure _))
  · -- evaluateArrayLiteral
    intro es
    simp only [evaluateArrayLiteral]
    exact keepsAll_bind (ih.elements _) (fun _ => keepsAll_of_state _ (fun _ => rfl))
  · -- evaluateGetExpression
    intro o n
    simp only [evaluateGetExpression]
    exact keepsAll_bind (keepsAll_callAsync (ih.unawaited _)) (fun _ => keepsAll_ofExcept _)
  · -- evaluateSetExpression
    intro o n v
    simp only [evaluateSetExpression]
    refine keepsAll_bind (keepsAll_callAsync (ih.unawaited _)) (fun object => ?_)
    split
    · exact keepsAll_throwMessage _
    · exact keepsAll_bind (keepsAll_callAsync (ih.unawaited _))
        (fun _ => keepsAll_of_state _ (fun _ => setProperty_environment _ _ _ _))
  · -- executeStatements
    intro ss
    cases ss with
    | nil => simp only [executeStatements]; exact (keepsAll_pure _).keeps
    | cons st rest =>
      intro σ
      simp only [executeStatements]
      cases hstop : σ.isStopped
      · simp only [Bool.false_eq_true, if_false]
        have h1 := keeps_await (ih.statement st) σ
        generalize await (executeStatement callNative fuel st) σ = res at h1 ⊢
        obtain ⟨σ1, res⟩ := res
        cases res with
        | error e => cases e <;> simp [ended] at h1 ⊢; exact h1
        | ok v =>
          intro he
          exact (ih.statements rest σ1 he).trans (h1 rfl)
      · simp only [if_true]
        intro _; trivial
  · -- executeBlock
    exact fun ss env => keeps_executeBlock callNative (fuel + 1) ss env
  · -- executeStatement
    intro st σ
    simp only [executeStatement]
    cases hstop : σ.isStopped
    · simp only [Bool.false_eq_true, if_false]
      refine keeps_tryCatch ?_ ?_ σ
      · cases st <;> simp only
        · exact keeps_await (ih.expression _ _)
        · exact ih.print _ _
        · exact ih.input _
        · exact ih.declaration _ _
        · exact (ih.assignment _ _ _).keeps
        · exact keeps_bind (keepsAll_newEnvironment _).keeps
            (fun _ => keeps_bind (ih.block _ _) (fun _ => (keepsAll_pure _).keeps))
        · exact ih.ifStatement _ _ _
        · exact ih.whileStatement _ _
        · exact fun σ0 _ => define_environment _ _ _ _
        · exact ih.returnStatement _
      · intro error
        split
        · exact (keepsAll_signal _).keeps
        · exact fun σ1 _ => handleError_environment _ _
    · simp only [if_true]
      intro _; trivial
  · -- executePrintStatement
    intro e b
    simp only [executePrintStatement]
    refine keeps_bind (keeps_await (ih.expression _ _))
      (fun _ => keeps_bind (keepsAll_ofExcept _).keeps (fun _ => ?_))
    split <;>
      exact keeps_bind (keepsAll_terminalCall _).keeps (fun _ => (keepsAll_pure _).keeps)
  · -- executeInputStatement
    intro p
    simp only [executeInputStatement]
    have htail : ∀ input : Value, Keeps (match input with
        | .null => (throwMessage "Input cancelled" : Routine Value)
        | _ => pure input) := by
      intro input
      split
      · exact (keepsAll_throwMessage _).keeps
      · exact (keepsAll_pure _).keeps
    split
    · exact keeps_bind (keeps_await (ih.expression _ _))
        (fun _ => keeps_bind (keepsAll_ofExcept _).keeps
          (fun _ => keeps_bind (keepsAll_requestInput _).keeps htail))
    · exact keeps_bind (keepsAll_pure _).keeps
        (fun _ => keeps_bind (keepsAll_requestInput _).keeps htail)
  · -- executeVariableDeclaration
    intro n i
    simp only [executeVariableDeclaration]
    have htail : ∀ value : Value, Keeps (fun σ =>
        ((Environment.define σ σ.environment n value, .ok .undefined) :
          Interp × Except Signal Value)) :=
      fun _ => (keepsAll_of_state _ (fun _ => define_environment _ _ _ _)).keeps
    split
    · exact keeps_bind (keepsAll_callAsync (ih.unawaited _)).keeps htail
    · exact keeps_bind (keepsAll_pure _).keeps htail
  · -- executeIfStatement
    intro c t e σ
    simp only [executeIfStatement]
    have h1 := keeps_await (ih.expression true c) σ
    generalize await (evaluateExpression callNative fuel true c) σ = res at h1 ⊢
    obtain ⟨σ1, res⟩ := res
    cases res with
    | error e => cases e <;> simp [ended] at h1 ⊢; exact h1
    | ok v =>
      have h2 := h1 rfl
      simp only at h2 ⊢
      cases ht : isTruthy σ1 v
      · simp only [Bool.false_eq_true, if_false]
        cases e with
        | none => intro _; exact h2
        | some s =>
          simp only
          have h3 := keeps_await (ih.statement s) σ1
          generalize await (executeStatement callNative fuel s) σ1 = res2 at h3 ⊢
          obtain ⟨σ2, res2⟩ := res2
          cases res2 with
          | error e => cases e <;> simp [ended] at h3 ⊢; exact h3.trans h2
          | ok w => intro _; exact (h3 rfl).trans h2
      · simp only [if_true]
        have h3 := keeps_await (ih.statement t) σ1
        generalize await (executeStatement callNative fuel t) σ1 = res2 at h3 ⊢
        obtain ⟨σ2, res2⟩ := res2
        cases res2 with
        | error e => cases e <;> simp [ended] at h3 ⊢; exact h3.trans h2
        | ok w => intro _; exact (h3 rfl).trans h2
  · -- executeWhileStatement
    intro c b σ
    simp only [executeWhileStatement]
    have h1 := keeps_await (ih.expression true c) σ
    generalize await (evaluateExpression callNative fuel true c) σ = res at h1 ⊢
    obtain ⟨σ1, res⟩ := res
    cases res with
    | error e => cases e <;> simp [ended] at h1 ⊢; exact h1
    | ok v =>
      have h2 := h1 rfl
      simp only at h2 ⊢
      cases ht : (isTruthy σ1 v && !σ1.isStopped)
      · simp only [Bool.false_eq_true, if_false]
        intro _; exact h2
      · simp only [if_true]
        have h3 := keeps_await (ih.statement b) σ1
        generalize await (executeStatement callNative fuel b) σ1 = res2 at h3 ⊢
        obtain ⟨σ2, res2⟩ := res2
        cases res2 with
        | error e => cases e <;> simp [ended] at h3 ⊢; exact h3.trans h2
        | ok w =>
          intro he
          exact (ih.whileStatement c b σ2 he).trans ((h3 rfl).trans h2)
  · -- executeReturnStatement
    intro v
    simp only [executeReturnStatement]
    split
    · exact keeps_bind (keepsAll_callAsync (ih.unawaited _)).keeps
        (fun _ => (keepsAll_signal _).keeps)
    · exact keeps_bind (keepsAll_pure _).keeps (fun _ => (keepsAll_signal _).keeps)

/-- Every routine of the evaluator keeps the environment, provided the native functions keep it. -/
theorem allKeep (callNative : String → List Value → Routine Value)
    (hnative : ∀ name args, Keeps (callNative name args)) (fuel : Nat) :
    AllKeep callNative fuel := by
  induction fuel with
  | zero => exact allKeep_zero callNative
  | succ fuel ih => exact allKeep_succ callNative fuel hnative ih

/-- The statement loop of `execute` keeps the environment. -/
theorem keeps_executeProgram (callNative : String → List Value → Routine Value)
    (hnative : ∀ name args, Keeps (callNative name args)) (fuel : Nat) (ss : List Stmt) :
    Keeps (executeProgram callNative fuel ss) := by
  induction ss with
  | nil => exact (keepsAll_pure _).keeps
  | cons st rest ih =>
    intro σ
    simp only [executeProgram]
    cases hstop : σ.isStopped
    · simp only [Bool.false_eq_true, if_false]
      have h1 := keeps_await ((allKeep callNative hnative fuel).statement st) σ
      generalize await (executeStatement callNative fuel st) σ = res at h1 ⊢
      obtain ⟨σ1, res⟩ := res
      cases res with
      | error e => cases e <;> simp [ended] at h1 ⊢; exact h1
      | ok v =>
        intro he
        exact (ih σ1 he).trans (h1 rfl)
    · simp only [if_true]
      exact (keepsAll_terminalCall _).keeps σ

/-- A `try` with a `finally` keeps the environment when its body and its cleanup do. -/
theorem keeps_tryFinally {α : Type} {m : Routine α} {cleanup : Interp → Interp} (hm : Keeps m)
    (hc : ∀ σ, (cleanup σ).environment = σ.environment) : Keeps (tryFinally m cleanup) := by
  intro σ he
  have h1 := hm σ
  simp only [tryFinally] at he ⊢
  rcases hr : m σ with ⟨σ1, r⟩
  rw [hr] at he h1
  cases r with
  | ok a => simp only; rw [hc]; exact h1 rfl
  | error e => cases e <;> simp [ended] at he h1 ⊢; rw [hc]; exact h1

/-- `execute` keeps the environment. -/
theorem keeps_execute (callNative : String → List Value → Routine Value)
    (hnative : ∀ name args, Keeps (callNative name args)) (fuel : Nat) (code : String) :
    Keeps (execute callNative fuel code) := by
  unfold execute
  refine keeps_tryFinally (keeps_tryCatch ?_ (fun _ => fun σ _ => handleError_environment _ _))
    (fun _ => rfl)
  refine keeps_bind (fun _ _ => rfl) (fun _ => keeps_bind (keepsAll_terminalCall _).keeps
    (fun _ => keeps_bind (keepsAll_terminalCall _).keeps (fun _ => ?_)))
  split
  · exact (keepsAll_signal _).keeps
  · refine keeps_bind (keepsAll_terminalCall _).keeps (fun _ =>
      keeps_bind (keeps_executeProgram callNative hnative fuel _) (fun _ => ?_))
    intro σ
    simp only
    cases σ.isStopped <;> simp [terminalCall]

/-- C38, code defect.  The claim fails on a call that is left un-awaited: its rest runs
while the statements after it run, with `this.environment` set to the frame of the
callee.  This embedding does not run that rest; it records the call in `deferred`, as it
does for `function f()\x7b etb3(1); \x7d !f(); function g()\x7b\x7d g(); etb3(2);`.  In
every other run the claim holds: for every recursion budget, block, statement, source and
state, and for native functions that leave `this.environment` alone when they return or
throw, when `executeBlock` returns or throws (a return signal included) and no call was
left un-awaited, `this.environment` is the environment of before the call; and so it is
after an awaited `executeStatement` and after `execute`, which run blocks and function
bodies only through `executeBlock`. -/
theorem environment_restored (callNative : String → List Value → Routine Value)
    (hnative : ∀ name args σ, ended (callNative name args σ).2 = true →
      (callNative name args σ).1.environment = σ.environment)
    (fuel : Nat) (statements : List Stmt) (environment : Nat) (statement : Stmt)
    (code : String) (σ : Interp) :
    (ended (executeBlock callNative fuel statements environment σ).2 = true →
      (executeBlock callNative fuel statements environment σ).1.deferred = false →
      (executeBlock callNative fuel statements environment σ).1.environment = σ.environment) ∧
    (ended (await (executeStatement callNative fuel statement) σ).2 = true →
      (await (executeStatement callNative fuel statement) σ).1.deferred = false →
      (await (executeStatement callNative fuel statement) σ).1.environment = σ.environment) ∧
    (ended (execute callNative fuel code σ).2 = true →
      (execute callNative fuel code σ).1.deferred = false →
      (execute callNative fuel code σ).1.environment = σ.environment) ∧
    (run "function f()\x7b etb3(1); \x7d !f(); function g()\x7b\x7d g(); etb3(2);").1.deferred =
      true :=
  ⟨fun h _ => keeps_executeBlock callNative fuel statements environment σ h,
    fun h _ => keeps_await ((allKeep callNative hnative fuel).statement statement) σ h,
    fun h _ => keeps_execute callNative hnative fuel code σ h,
    by decide!⟩

/-- C38 at a block that prints `true`, entered with a new environment while the current
one is the global environment. -/
theorem environment_restored_witness :
    (∀ name args σ, ended (nativesNotEmbedded name args σ).2 = true →
      (nativesNotEmbedded name args σ).1.environment = σ.environment) ∧
    ended (executeBlock nativesNotEmbedded 20 [Stmt.printStatement (.literal (.bool true)) true] 1 (newEnvironment (some 0) (FlexInterpreter.new standardLibrary)).1).2 = true ∧
    (executeBlock nativesNotEmbedded 20 [Stmt.printStatement (.literal (.bool true)) true] 1 (newEnvironment (some 0) (FlexInterpreter.new standardLibrary)).1).1.deferred = false ∧
    (executeBlock nativesNotEmbedded 20 [Stmt.printStatement (.literal (.bool true)) true] 1 (newEnvironment (some 0) (FlexInterpreter.new standardLibrary)).1).1.terminal = [.writeLine "true" ""] ∧
    (executeBlock nativesNotEmbedded 20 [Stmt.printStatement (.literal (.bool true)) true] 1 (newEnvironment (some 0) (FlexInterpreter.new standardLibrary)).1).1.environment =
      (newEnvironment (some 0) (FlexInterpreter.new standardLibrary)).1.environment :=
  ⟨fun _ _ _ h => Bool.noConfusion h, rfl, rfl, by decide,
    (environment_restored nativesNotEmbedded (fun _ _ _ h => Bool.noConfusion h) 20
      [Stmt.printStatement (.literal (.bool true)) true] 1 (.block [Stmt.printStatement (.literal (.bool true)) true]) "etb3(true);" (newEnvironment (some 0) (FlexInterpreter.new standardLibrary)).1).1 rfl rfl⟩

/-! ### The parser returns -/

theorem advances_ok {α : Type} {E g k f c c1 : Nat} {x : α} (h1 : c + g ≤ c1) (h2 : c1 ≤ E) :
    Advances E g k f c (.ok (x, c1)) := ⟨h1, h2⟩

theorem advances_syntaxError {α : Type} {E g k f c p : Nat} {m : String} (h1 : c ≤ p) (h2 : p ≤ E) :
    Advances (α := α) E g k f c (.error (.syntaxError m p)) := ⟨h1, h2⟩

theorem Advances.mono {α : Type} {E a i f d g k c : Nat} {r : Except ParseError (α × Nat)}
    (h : Advances E a i f d r) (hc : c ≤ d) (hg : c + g ≤ d + a)
    (hk : i + 16 * c ≤ k + 16 * d) : Advances E g k f c r := by
  rcases r with (⟨m, p⟩ | _) | ⟨x, c1⟩ <;> simp only [Advances] at h ⊢ <;> omega

theorem Advances.step {α : Type} {E g k f c : Nat} {r : Except ParseError (α × Nat)}
    (h : Advances E g k f c r) : Advances E g (k + 1) (f + 1) c r := by
  rcases r with (⟨m, p⟩ | _) | ⟨x, c1⟩ <;> simp only [Advances] at h ⊢ <;> omega

theorem Advances.bind {α β : Type} {E a i f c g k : Nat} {A : Except ParseError (α × Nat)}
    {B : α × Nat → Except ParseError (β × Nat)}
    (hA : Advances E a i f c A) (hi : i ≤ k)
    (hB : ∀ x c1, c + a ≤ c1 → c1 ≤ E → Advances E (g - a) (k + 16 * a) f c1 (B (x, c1))) :
    Advances E g k f c (A >>= B) := by
  rcases A with (⟨m, p⟩ | _) | ⟨x, c1⟩
  · simp only [Advances] at hA
    show Advances E g k f c (.error _)
    simp only [Advances]; omega
  · simp only [Advances] at hA
    show Advances E g k f c (.error _)
    simp only [Advances]; omega
  · simp only [Advances] at hA
    have h := hB x c1 hA.1 hA.2
    show Advances E g k f c (B (x, c1))
    exact h.mono (by omega) (by omega) (by omega)

theorem isAtEnd_length (tokens : List Token) : isAtEnd tokens tokens.length = true := by
  simp [isAtEnd, peek, eofToken]

theorem lt_of_isAtEnd {tokens : List Token} {c : Nat} (hc : c ≤ tokens.length)
    (h : isAtEnd tokens c = false) : c < tokens.length := by
  rcases Nat.lt_or_ge c tokens.length with h1 | h1
  · exact h1
  · have : c = tokens.length := by omega
    subst this
    rw [isAtEnd_length] at h; cases h

theorem lt_of_check {tokens : List Token} {c : Nat} {t : TokenType} (hc : c ≤ tokens.length)
    (h : check tokens c t = true) : c < tokens.length := by
  apply lt_of_isAtEnd hc
  unfold check at h
  cases hh : isAtEnd tokens c
  · rfl
  · rw [hh] at h; simp at h

theorem lt_of_matchAny {tokens : List Token} {c : Nat} {ts : List TokenType}
    (hc : c ≤ tokens.length) (h : matchAny tokens c ts = true) : c < tokens.length := by
  unfold matchAny at h
  rw [List.any_eq_true] at h
  obtain ⟨t, _, ht⟩ := h
  exact lt_of_check hc ht

theorem advance_bounds {tokens : List Token} {c : Nat} (hc : c ≤ tokens.length) :
    c ≤ advance tokens c ∧ advance tokens c ≤ tokens.length := by
  unfold advance
  cases h : isAtEnd tokens c
  · have := lt_of_isAtEnd hc h
    simp; omega
  · simp; omega

theorem advance_of_not_isAtEnd {tokens : List Token} {c : Nat}
    (h : isAtEnd tokens c = false) : advance tokens c = c + 1 := by
  simp [advance, h]

theorem advances_consume {tokens : List Token} {t : TokenType} {m : String} {k f c : Nat}
    (hc : c ≤ tokens.length) :
    Advances tokens.length 1 k f c (consume tokens c t m) := by
  unfold consume
  cases h : check tokens c t
  · simp only [Bool.false_eq_true, if_false, parseErrorAt]
    exact advances_syntaxError (Nat.le_refl _) hc
  · have hlt := lt_of_check hc h
    have hat : isAtEnd tokens c = false := by
      unfold check at h
      cases hh : isAtEnd tokens c
      · rfl
      · rw [hh] at h; simp at h
    simp only [if_true, advance_of_not_isAtEnd hat]
    exact advances_ok (Nat.le_refl _) hlt

theorem synchronizeLoop_bounds (tokens : List Token) :
    ∀ n c, c ≤ tokens.length →
      c ≤ synchronizeLoop tokens n c ∧ synchronizeLoop tokens n c ≤ tokens.length := by
  intro n
  induction n with
  | zero => intro c hc; simp [synchronizeLoop, hc]
  | succ n ih =>
    intro c hc
    unfold synchronizeLoop
    split
    · exact ⟨Nat.le_refl _, hc⟩
    · split
      · exact ⟨Nat.le_refl _, hc⟩
      · split
        · exact ⟨Nat.le_refl _, hc⟩
        · have ha := advance_bounds hc
          have := ih _ ha.2
          omega

theorem synchronize_bounds {tokens : List Token} {c : Nat} (hc : c ≤ tokens.length) :
    advance tokens c ≤ synchronize tokens c ∧ synchronize tokens c ≤ tokens.length := by
  unfold synchronize
  exact synchronizeLoop_bounds tokens _ _ (advance_bounds hc).2

theorem advances_parametersLoop (tokens : List Token) (k f : Nat) :
    ∀ n ps c, c ≤ tokens.length → tokens.length < n + c →
      Advances tokens.length 1 k f c (parametersLoop tokens n ps c) := by
  intro n
  induction n with
  | zero => intro ps c hc hn; omega
  | succ n ih =>
    intro ps c hc hn
    unfold parametersLoop
    split
    · exact advances_syntaxError (Nat.le_refl _) hc
    · have h := advances_consume (t := .IDENTIFIER) (m := "Expect parameter name.") (k := k) (f := f) hc
      rcases hr : consume tokens c .IDENTIFIER "Expect parameter name." with e | ⟨p, c1⟩
      · rw [hr] at h
        rcases e with ⟨m, p⟩ | _
        · exact h
        · exact h
      · rw [hr] at h
        simp only [Advances] at h
        simp only []
        split
        · rename_i hcomma
          have hlt := lt_of_check h.2 hcomma
          exact (ih _ (c1 + 1) hlt (by omega)).mono (by omega) (by omega) (by omega)
        · exact advances_ok h.1 h.2

theorem advances_leftAssocLoop (tokens : List Token) (ops : List TokenType)
    (mk : Expr → Token → Expr → Expr) (operand : Nat → Except ParseError (Expr × Nat))
    (i k f : Nat) (hi : i ≤ k + 16)
    (hop : ∀ c, c ≤ tokens.length → Advances tokens.length 1 i f c (operand c)) :
    ∀ n e c, c ≤ tokens.length → tokens.length < n + c →
      Advances tokens.length 0 k f c (leftAssocLoop tokens ops mk operand n e c) := by
  intro n
  induction n with
  | zero => intro e c hc hn; omega
  | succ n ih =>
    intro e c hc hn
    unfold leftAssocLoop
    split
    · rename_i hm
      have hlt := lt_of_matchAny hc hm
      have h := hop (c + 1) hlt
      rcases hr : operand (c + 1) with e1 | ⟨right, c1⟩
      · rw [hr] at h
        rcases e1 with ⟨m, p⟩ | _
        · exact Advances.mono (α := Expr) (r := .error (.syntaxError m p)) h (by omega) (by omega) (by omega)
        · exact Advances.mono (α := Expr) (r := .error .outOfFuel) h (by omega) (by omega) (by omega)
      · rw [hr] at h
        simp only [Advances] at h
        simp only []
        exact (ih _ c1 h.2 (by omega)).mono (by omega) (by omega) (by omega)
    · exact advances_ok (Nat.le_refl _) hc

theorem parserAdvances_zero (tokens : List Token) : ParserAdvances tokens 0 := by
  constructor <;> intros <;>
    simp only [declaration, functionDeclaration, statement, ifStatement, whileStatement,
      forStatement, returnStatement, printStatement, inputStatement, blockLoop, block,
      expressionStatement, expression, assignment, logicalOr, logicalAnd, equality, comparison,
      term, factor, unary, callLoop, call, argumentsLoop, finishCall, elementsLoop, primary,
      Advances] <;> omega

theorem Advances.map {α β : Type} {E g k f c : Nat} {r : Except ParseError (α × Nat)}
    {r2 : Except ParseError (β × Nat)} (h : Advances E g k f c r)
    (hr : r2.map Prod.snd = r.map Prod.snd) : Advances E g k f c r2 := by
  rcases r with (⟨m, p⟩ | _) | ⟨x, c1⟩ <;> rcases r2 with (⟨m2, p2⟩ | _) | ⟨x2, c2⟩ <;>
    simp [Except.map] at hr <;> simp only [Advances] at h ⊢
  · obtain ⟨_, rfl⟩ := hr; exact h
  · exact h
  · subst hr; exact h

theorem Advances.shift {α : Type} {E f d g k c : Nat} {r : Except ParseError (α × Nat)}
    (hc : c ≤ d) (h : Advances E (g - (d - c)) (k + 16 * (d - c)) f d r) :
    Advances E g k f c r :=
  h.mono hc (by omega) (by omega)

theorem Advances.error {α β : Type} {E g k f c : Nat} {e : ParseError}
    (h : Advances (α := α) E g k f c (.error e)) : Advances (α := β) E g k f c (.error e) := by
  cases e <;> exact h

theorem succ_primary {tokens : List Token} {f : Nat} (ih : ParserAdvances tokens f) :
    ∀ c, c ≤ tokens.length → Advances tokens.length 1 1 (f + 1) c (primary tokens (f + 1) c) := by
  intro c hc
  apply Advances.step
  simp only [primary]
  split
  · rename_i h; exact advances_ok (Nat.le_refl _) (lt_of_check hc h)
  split
  · rename_i h; exact advances_ok (Nat.le_refl _) (lt_of_check hc h)
  split
  · rename_i h; exact advances_ok (Nat.le_refl _) (lt_of_check hc h)
  split
  · rename_i h; exact advances_ok (Nat.le_refl _) (lt_of_matchAny hc h)
  split
  · rename_i h; exact advances_ok (Nat.le_refl _) (lt_of_check hc h)
  split
  · rename_i h
    have hlt := lt_of_check hc h
    have h1 := ih.expression (c + 1) hlt
    rcases hr : expression tokens f (c + 1) with e | ⟨x, c1⟩
    · rw [hr] at h1
      exact (h1.mono (by omega) (by omega) (by omega)).map (by cases e <;> rfl)
    · rw [hr] at h1
      simp only [Advances] at h1
      simp only []
      have h2 := advances_consume (t := .RIGHT_PAREN) (m := "Expect ')' after expression.")
        (k := 0) (f := f) h1.2
      rcases hr2 : consume tokens c1 .RIGHT_PAREN "Expect ')' after expression." with e | ⟨x, c2⟩
      · rw [hr2] at h2
        exact (h2.mono (by omega) (by omega) (by omega)).map (by cases e <;> rfl)
      · rw [hr2] at h2
        simp only [Advances] at h2
        exact advances_ok (by omega) h2.2
  split
  · rename_i h
    have hlt := lt_of_check hc h
    have h1 : Advances tokens.length 0 12 f (c + 1)
        (if (!check tokens (c + 1) .RIGHT_BRACKET) = true then
          elementsLoop tokens f [] (c + 1)
        else (.ok ([], c + 1) : Except ParseError ((List Expr) × Nat))) := by
      split
      · exact (ih.elementsLoop [] (c + 1) hlt).mono (Nat.le_refl _) (by omega) (by omega)
      · exact advances_ok (Nat.le_refl _) hlt
    revert h1
    generalize (if (!check tokens (c + 1) .RIGHT_BRACKET) = true then
          elementsLoop tokens f [] (c + 1)
        else (.ok ([], c + 1) : Except ParseError ((List Expr) × Nat))) = r
    intro h1
    rcases r with e | ⟨x, c1⟩
    · exact (h1.mono (by omega) (by omega) (by omega)).map (by cases e <;> rfl)
    · simp only [Advances] at h1
      simp only []
      have h2 := advances_consume (t := .RIGHT_BRACKET) (m := "Expect ']' after array elements.")
        (k := 0) (f := f) h1.2
      rcases hr2 : consume tokens c1 .RIGHT_BRACKET "Expect ']' after array elements."
        with e | ⟨x, c2⟩
      · rw [hr2] at h2
        exact (h2.mono (by omega) (by omega) (by omega)).map (by cases e <;> rfl)
      · rw [hr2] at h2
        simp only [Advances] at h2
        exact advances_ok (by omega) h2.2
  · exact advances_syntaxError (Nat.le_refl _) hc

theorem succ_call {tokens : List Token} {f : Nat} (ih : ParserAdvances tokens f) :
    ∀ c, c ≤ tokens.length → Advances tokens.length 1 2 (f + 1) c (call tokens (f + 1) c) := by
  intro c hc
  apply Advances.step
  simp only [call]
  refine Advances.bind (ih.primary c hc) (by omega) ?_
  intro _ c1 h1 h1E
  exact (ih.callLoop _ c1 h1E).mono (Nat.le_refl _) (by omega) (by omega)

theorem succ_callLoop {tokens : List Token} {f : Nat} (ih : ParserAdvances tokens f) :
    ∀ e c, c ≤ tokens.length →
      Advances tokens.length 0 1 (f + 1) c (callLoop tokens (f + 1) e c) := by
  intro e c hc
  apply Advances.step
  simp only [callLoop]
  split
  · rename_i h
    have hlt := lt_of_check hc h
    have h1 := ih.finishCall e (c + 1) hlt
    rcases hr : finishCall tokens f e (c + 1) with e1 | ⟨x, c1⟩
    · rw [hr] at h1
      exact (h1.mono (by omega) (by omega) (by omega)).map (by cases e1 <;> rfl)
    · rw [hr] at h1
      simp only [Advances] at h1
      simp only []
      exact (ih.callLoop _ c1 h1.2).mono (by omega) (by omega) (by omega)
  split
  · rename_i h
    have hlt := lt_of_check hc h
    have h1 := advances_consume (t := .IDENTIFIER) (m := "Expect property name after '.'.")
      (k := 0) (f := f) hlt
    rcases hr : consume tokens (c + 1) .IDENTIFIER "Expect property name after '.'."
      with e1 | ⟨x, c1⟩
    · rw [hr] at h1
      exact (h1.mono (by omega) (by omega) (by omega)).map (by cases e1 <;> rfl)
    · rw [hr] at h1
      simp only [Advances] at h1
      simp only []
      exact (ih.callLoop _ c1 h1.2).mono (by omega) (by omega) (by omega)
  · exact advances_ok (Nat.le_refl _) hc

theorem succ_unary {tokens : List Token} {f : Nat} (ih : ParserAdvances tokens f) :
    ∀ c, c ≤ tokens.length → Advances tokens.length 1 3 (f + 1) c (unary tokens (f + 1) c) := by
  intro c hc
  apply Advances.step
  simp only [unary]
  split
  · rename_i h
    have hlt := lt_of_matchAny hc h
    exact ((ih.unary (c + 1) hlt).mono (by omega) (by omega) (by omega)).map
      (by rcases unary tokens f (c + 1) with e | ⟨x, c1⟩ <;> rfl)
  · exact ih.call c hc

theorem succ_factor {tokens : List Token} {f : Nat} (ih : ParserAdvances tokens f) :
    ∀ c, c ≤ tokens.length → Advances tokens.length 1 4 (f + 1) c (factor tokens (f + 1) c) := by
  intro c hc
  apply Advances.step
  simp only [factor]
  refine Advances.bind (ih.unary c hc) (by omega) ?_
  intro _ c1 h1 h1E
  exact advances_leftAssocLoop tokens _ _ _ 3 _ f (by omega) ih.unary _ _ c1 h1E (by omega)

theorem succ_term {tokens : List Token} {f : Nat} (ih : ParserAdvances tokens f) :
    ∀ c, c ≤ tokens.length → Advances tokens.length 1 5 (f + 1) c (term tokens (f + 1) c) := by
  intro c hc
  apply Advances.step
  simp only [term]
  refine Advances.bind (ih.factor c hc) (by omega) ?_
  intro _ c1 h1 h1E
  exact advances_leftAssocLoop tokens _ _ _ 4 _ f (by omega) ih.factor _ _ c1 h1E (by omega)

theorem succ_comparison {tokens : List Token} {f : Nat} (ih : ParserAdvances tokens f) :
    ∀ c, c ≤ tokens.length →
      Advances tokens.length 1 6 (f + 1) c (comparison tokens (f + 1) c) := by
  intro c hc
  apply Advances.step
  simp only [comparison]
  refine Advances.bind (ih.term c hc) (by omega) ?_
  intro _ c1 h1 h1E
  exact advances_leftAssocLoop tokens _ _ _ 5 _ f (by omega) ih.term _ _ c1 h1E (by omega)

theorem succ_equality {tokens : List Token} {f : Nat} (ih : ParserAdvances tokens f) :
    ∀ c, c ≤ tokens.length →
      Advances tokens.length 1 7 (f + 1) c (equality tokens (f + 1) c) := by
  intro c hc
  apply Advances.step
  simp only [equality]
  refine Advances.bind (ih.comparison c hc) (by omega) ?_
  intro _ c1 h1 h1E
  exact advances_leftAssocLoop tokens _ _ _ 6 _ f (by omega) ih.comparison _ _ c1 h1E (by omega)

theorem succ_logicalAnd {tokens : List Token} {f : Nat} (ih : ParserAdvances tokens f) :
    ∀ c, c ≤ tokens.length →
      Advances tokens.length 1 8 (f + 1) c (logicalAnd tokens (f + 1) c) := by
  intro c hc
  apply Advances.step
  simp only [logicalAnd]
  refine Advances.bind (ih.equality c hc) (by omega) ?_
  intro _ c1 h1 h1E
  exact advances_leftAssocLoop tokens _ _ _ 7 _ f (by omega) ih.equality _ _ c1 h1E (by omega)

theorem succ_logicalOr {tokens : List Token} {f : Nat} (ih : ParserAdvances tokens f) :
    ∀ c, c ≤ tokens.length →
      Advances tokens.length 1 9 (f + 1) c (logicalOr tokens (f + 1) c) := by
  intro c hc
  apply Advances.step
  simp only [logicalOr]
  refine Advances.bind (ih.logicalAnd c hc) (by omega) ?_
  intro _ c1 h1 h1E
  exact advances_leftAssocLoop tokens _ _ _ 8 _ f (by omega) ih.logicalAnd _ _ c1 h1E (by omega)

theorem succ_assignment {tokens : List Token} {f : Nat} (ih : ParserAdvances tokens f) :
    ∀ c, c ≤ tokens.length →
      Advances tokens.length 1 10 (f + 1) c (assignment tokens (f + 1) c) := by
  intro c hc
  apply Advances.step
  simp only [assignment]
  refine Advances.bind (ih.logicalOr c hc) (by omega) ?_
  intro target c1 h1 h1E
  dsimp only
  split
  · rename_i h
    have hlt := lt_of_check h1E h
    refine Advances.shift (d := c1 + 1) (by omega) ?_
    refine Advances.bind (ih.assignment (c1 + 1) hlt) (by omega) ?_
    intro _ c2 h2 h2E
    dsimp only
    split
    · exact advances_ok (by omega) h2E
    · exact advances_ok (by omega) h2E
    · exact advances_syntaxError (by omega) h2E
  · exact advances_ok (by omega) h1E

theorem succ_expression {tokens : List Token} {f : Nat} (ih : ParserAdvances tokens f) :
    ∀ c, c ≤ tokens.length →
      Advances tokens.length 1 11 (f + 1) c (expression tokens (f + 1) c) := by
  intro c hc
  apply Advances.step
  simp only [expression]
  exact ih.assignment c hc

theorem succ_expressionStatement {tokens : List Token} {f : Nat} (ih : ParserAdvances tokens f) :
    ∀ c, c ≤ tokens.length →
      Advances tokens.length 1 12 (f + 1) c (expressionStatement tokens (f + 1) c) := by
  intro c hc
  apply Advances.step
  simp only [expressionStatement]
  refine Advances.bind (ih.expression c hc) (by omega) ?_
  intro _ c1 h1 h1E
  refine Advances.bind (advances_consume (k := 0) h1E) (by omega) ?_
  intro _ c2 h2 h2E
  exact advances_ok (by omega) h2E

theorem succ_elementsLoop {tokens : List Token} {f : Nat} (ih : ParserAdvances tokens f) :
    ∀ es c, c ≤ tokens.length →
      Advances tokens.length 1 12 (f + 1) c (elementsLoop tokens (f + 1) es c) := by
  intro es c hc
  apply Advances.step
  simp only [elementsLoop]
  have h1 := ih.expression c hc
  rcases hr : expression tokens f c with e | ⟨x, c1⟩
  · rw [hr] at h1
    exact (h1.mono (by omega) (by omega) (by omega)).map (by cases e <;> rfl)
  · rw [hr] at h1
    simp only [Advances] at h1
    simp only []
    split
    · rename_i h
      have hlt := lt_of_check h1.2 h
      exact (ih.elementsLoop _ (c1 + 1) hlt).mono (by omega) (by omega) (by omega)
    · exact advances_ok (by omega) h1.2

theorem succ_argumentsLoop {tokens : List Token} {f : Nat} (ih : ParserAdvances tokens f) :
    ∀ es c, c ≤ tokens.length →
      Advances tokens.length 1 12 (f + 1) c (argumentsLoop tokens (f + 1) es c) := by
  intro es c hc
  apply Advances.step
  simp only [argumentsLoop]
  split
  · exact advances_syntaxError (Nat.le_refl _) hc
  have h1 := ih.expression c hc
  rcases hr : expression tokens f c with e | ⟨x, c1⟩
  · rw [hr] at h1
    exact (h1.mono (by omega) (by omega) (by omega)).map (by cases e <;> rfl)
  · rw [hr] at h1
    simp only [Advances] at h1
    simp only []
    split
    · rename_i h
      have hlt := lt_of_check h1.2 h
      exact (ih.argumentsLoop _ (c1 + 1) hlt).mono (by omega) (by omega) (by omega)
    · exact advances_ok (by omega) h1.2

theorem succ_finishCall {tokens : List Token} {f : Nat} (ih : ParserAdvances tokens f) :
    ∀ e c, c ≤ tokens.length →
      Advances tokens.length 1 13 (f + 1) c (finishCall tokens (f + 1) e c) := by
  intro e c hc
  apply Advances.step
  simp only [finishCall]
  split
  · refine Advances.bind (ih.argumentsLoop [] c hc) (by omega) ?_
    intro _ c1 h1 h1E
    refine Advances.bind (advances_consume (k := 0) h1E) (by omega) ?_
    intro _ c2 h2 h2E
    exact advances_ok (by omega) h2E
  · refine Advances.bind (advances_ok (g := 0) (k := 0) (Nat.le_refl _) hc) (by omega) ?_
    intro _ c1 h1 h1E
    refine Advances.bind (advances_consume (k := 0) h1E) (by omega) ?_
    intro _ c2 h2 h2E
    exact advances_ok (by omega) h2E

theorem succ_ifStatement {tokens : List Token} {f : Nat} (ih : ParserAdvances tokens f) :
    ∀ c, c ≤ tokens.length →
      Advances tokens.length 1 1 (f + 1) c (ifStatement tokens (f + 1) c) := by
  intro c hc
  apply Advances.step
  simp only [ifStatement]
  refine Advances.bind (advances_consume (k := 0) hc) (Nat.le_refl _) ?_
  intro _ c1 h1 h1E
  refine Advances.bind (ih.expression c1 h1E) (by omega) ?_
  intro _ c2 h2 h2E
  refine Advances.bind (advances_consume (k := 0) h2E) (by omega) ?_
  intro _ c3 h3 h3E
  refine Advances.bind (ih.statement c3 h3E) (by omega) ?_
  intro _ c4 h4 h4E
  dsimp only
  split
  · rename_i h
    refine Advances.shift (d := c4 + 1) (by omega) ?_
    refine Advances.bind (ih.statement (c4 + 1) (lt_of_check h4E h)) (by omega) ?_
    intro _ c5 h5 h5E
    exact advances_ok (by omega) h5E
  · exact advances_ok (by omega) h4E

theorem succ_whileStatement {tokens : List Token} {f : Nat} (ih : ParserAdvances tokens f) :
    ∀ c, c ≤ tokens.length →
      Advances tokens.length 1 1 (f + 1) c (whileStatement tokens (f + 1) c) := by
  intro c hc
  apply Advances.step
  simp only [whileStatement]
  refine Advances.bind (advances_consume (k := 0) hc) (Nat.le_refl _) ?_
  intro _ c1 h1 h1E
  refine Advances.bind (ih.expression c1 h1E) (by omega) ?_
  intro _ c2 h2 h2E
  refine Advances.bind (advances_consume (k := 0) h2E) (by omega) ?_
  intro _ c3 h3 h3E
  refine Advances.bind (ih.statement c3 h3E) (by omega) ?_
  intro _ c4 h4 h4E
  exact advances_ok (by omega) h4E

theorem succ_printStatement {tokens : List Token} {f : Nat} (ih : ParserAdvances tokens f) :
    ∀ c, c ≤ tokens.length →
      Advances tokens.length 1 1 (f + 1) c (printStatement tokens (f + 1) c) := by
  intro c hc
  apply Advances.step
  simp only [printStatement]
  refine Advances.bind (advances_consume (k := 0) hc) (Nat.le_refl _) ?_
  intro _ c1 h1 h1E
  refine Advances.bind (ih.expression c1 h1E) (by omega) ?_
  intro _ c2 h2 h2E
  refine Advances.bind (advances_consume (k := 0) h2E) (by omega) ?_
  intro _ c3 h3 h3E
  refine Advances.bind (advances_consume (k := 0) h3E) (by omega) ?_
  intro _ c4 h4 h4E
  exact advances_ok (by omega) h4E

theorem succ_returnStatement {tokens : List Token} {f : Nat} (ih : ParserAdvances tokens f) :
    ∀ c, c ≤ tokens.length →
      Advances tokens.length 1 12 (f + 1) c (returnStatement tokens (f + 1) c) := by
  intro c hc
  apply Advances.step
  unfold returnStatement
  dsimp only
  split
  all_goals first
    | (have hx := ih.expression c hc
       rcases hr : expression tokens f c with e | ⟨x, cx⟩
       all_goals rw [hr] at hx
       all_goals dsimp only
       all_goals first
         | refine Advances.bind hx.error (by omega) ?_
         | refine Advances.bind (hx.map rfl) (by omega) ?_)
    | refine Advances.bind (advances_ok (g := 0) (k := 0) (Nat.le_refl _) hc) (by omega) ?_
  all_goals
    intro _ c1 h1 h1E
    refine Advances.bind (advances_consume (k := 0) h1E) (by omega) ?_
    intro _ c2 h2 h2E
    exact advances_ok (by omega) h2E

theorem succ_inputStatement {tokens : List Token} {f : Nat} (ih : ParserAdvances tokens f) :
    ∀ c, c ≤ tokens.length →
      Advances tokens.length 1 1 (f + 1) c (inputStatement tokens (f + 1) c) := by
  intro c hc
  apply Advances.step
  unfold inputStatement
  refine Advances.bind (advances_consume (k := 0) hc) (Nat.le_refl _) ?_
  intro _ c1 h1 h1E
  dsimp only
  split
  all_goals first
    | (have hx := ih.expression c1 h1E
       rcases hr : expression tokens f c1 with e | ⟨x, cx⟩
       all_goals rw [hr] at hx
       all_goals dsimp only
       all_goals first
         | refine Advances.bind hx.error (by omega) ?_
         | refine Advances.bind (hx.map rfl) (by omega) ?_)
    | refine Advances.bind (advances_ok (g := 0) (k := 0) (Nat.le_refl _) h1E) (by omega) ?_
  all_goals
    intro _ c2 h2 h2E
    refine Advances.bind (advances_consume (k := 0) h2E) (by omega) ?_
    intro _ c3 h3 h3E
    refine Advances.bind (advances_consume (k := 0) h3E) (by omega) ?_
    intro _ c4 h4 h4E
    exact advances_ok (by omega) h4E

theorem succ_forStatement {tokens : List Token} {f : Nat} (ih : ParserAdvances tokens f) :
    ∀ c, c ≤ tokens.length →
      Advances tokens.length 1 1 (f + 1) c (forStatement tokens (f + 1) c) := by
  intro c hc
  apply Advances.step
  unfold forStatement
  refine Advances.bind (advances_consume (k := 0) hc) (Nat.le_refl _) ?_
  intro _ c1 h1 h1E
  dsimp only
  split
  · rename_i h
    refine Advances.bind (advances_ok (g := 1) (k := 0) (Nat.le_refl _) (lt_of_check h1E h))
      (by omega) ?_
    intro _ c2 h2 h2E
    split
    all_goals first
      | (have hx := ih.expression c2 h2E
         rcases hr : expression tokens f c2 with e | ⟨x, cx⟩
         all_goals rw [hr] at hx
         all_goals dsimp only
         all_goals first
         | refine Advances.bind hx.error (by omega) ?_
         | refine Advances.bind (hx.map rfl) (by omega) ?_)
      | refine Advances.bind (advances_ok (g := 0) (k := 0) (Nat.le_refl _) h2E) (by omega) ?_
    all_goals
      intro _ c3 h3 h3E
      refine Advances.bind (advances_consume (k := 0) h3E) (by omega) ?_
      intro _ c4 h4 h4E
      dsimp only
      split
    all_goals first
      | (have hx := ih.expression c4 h4E
         rcases hr : expression tokens f c4 with e | ⟨x, cx⟩
         all_goals rw [hr] at hx
         all_goals dsimp only
         all_goals first
         | refine Advances.bind hx.error (by omega) ?_
         | refine Advances.bind (hx.map rfl) (by omega) ?_)
      | refine Advances.bind (advances_ok (g := 0) (k := 0) (Nat.le_refl _) h4E) (by omega) ?_
    all_goals
      intro _ c5 h5 h5E
      refine Advances.bind (advances_consume (k := 0) h5E) (by omega) ?_
      intro _ c6 h6 h6E
      refine Advances.bind (ih.statement c6 h6E) (by omega) ?_
      intro _ c7 h7 h7E
      exact advances_ok (by omega) h7E
  · have hs := ih.expressionStatement c1 h1E
    rcases hr : expressionStatement tokens f c1 with e | ⟨x, cx⟩
    all_goals rw [hr] at hs
    all_goals dsimp only
    all_goals first
      | refine Advances.bind hs.error (by omega) ?_
      | refine Advances.bind (hs.map rfl) (by omega) ?_
    all_goals intro _ c2 h2 h2E
    all_goals split
    all_goals first
      | (have hx := ih.expression c2 h2E
         rcases hr : expression tokens f c2 with e | ⟨x, cx⟩
         all_goals rw [hr] at hx
         all_goals dsimp only
         all_goals first
         | refine Advances.bind hx.error (by omega) ?_
         | refine Advances.bind (hx.map rfl) (by omega) ?_)
      | refine Advances.bind (advances_ok (g := 0) (k := 0) (Nat.le_refl _) h2E) (by omega) ?_
    all_goals
      intro _ c3 h3 h3E
      refine Advances.bind (advances_consume (k := 0) h3E) (by omega) ?_
      intro _ c4 h4 h4E
      dsimp only
      split
    all_goals first
      | (have hx := ih.expression c4 h4E
         rcases hr : expression tokens f c4 with e | ⟨x, cx⟩
         all_goals rw [hr] at hx
         all_goals dsimp only
         all_goals first
         | refine Advances.bind hx.error (by omega) ?_
         | refine Advances.bind (hx.map rfl) (by omega) ?_)
      | refine Advances.bind (advances_ok (g := 0) (k := 0) (Nat.le_refl _) h4E) (by omega) ?_
    all_goals
      intro _ c5 h5 h5E
      refine Advances.bind (advances_consume (k := 0) h5E) (by omega) ?_
      intro _ c6 h6 h6E
      refine Advances.bind (ih.statement c6 h6E) (by omega) ?_
      intro _ c7 h7 h7E
      exact advances_ok (by omega) h7E

theorem succ_functionDeclaration {tokens : List Token} {f : Nat}
    (ih : ParserAdvances tokens f) :
    ∀ c, c ≤ tokens.length →
      Advances tokens.length 1 1 (f + 1) c (functionDeclaration tokens (f + 1) c) := by
  intro c hc
  apply Advances.step
  unfold functionDeclaration
  refine Advances.bind (advances_consume (k := 0) hc) (Nat.le_refl _) ?_
  intro _ c1 h1 h1E
  refine Advances.bind (advances_consume (k := 0) h1E) (by omega) ?_
  intro _ c2 h2 h2E
  dsimp only
  split
  all_goals first
    | refine Advances.bind (advances_parametersLoop tokens 0 f _ _ c2 h2E (by omega))
        (by omega) ?_
    | refine Advances.bind (advances_ok (g := 0) (k := 0) (Nat.le_refl _) h2E) (by omega) ?_
  all_goals
    intro _ c3 h3 h3E
    refine Advances.bind (advances_consume (k := 0) h3E) (by omega) ?_
    intro _ c4 h4 h4E
    refine Advances.bind (advances_consume (k := 0) h4E) (by omega) ?_
    intro _ c5 h5 h5E
    refine Advances.bind (ih.block c5 h5E) (by omega) ?_
    intro _ c6 h6 h6E
    exact advances_ok (by omega) h6E

theorem succ_block {tokens : List Token} {f : Nat} (ih : ParserAdvances tokens f) :
    ∀ c, c ≤ tokens.length → Advances tokens.length 1 16 (f + 1) c (block tokens (f + 1) c) := by
  intro c hc
  apply Advances.step
  unfold block
  refine Advances.bind (ih.blockLoop [] c hc) (by omega) ?_
  intro _ c1 h1 h1E
  refine Advances.bind (advances_consume (k := 0) h1E) (by omega) ?_
  intro _ c2 h2 h2E
  exact advances_ok (by omega) h2E

theorem succ_blockLoop {tokens : List Token} {f : Nat} (ih : ParserAdvances tokens f) :
    ∀ ss c, c ≤ tokens.length →
      Advances tokens.length 0 15 (f + 1) c (blockLoop tokens (f + 1) ss c) := by
  intro ss c hc
  apply Advances.step
  unfold blockLoop
  split
  · rename_i h
    have hat : isAtEnd tokens c = false := by
      simp only [Bool.and_eq_true, Bool.not_eq_true'] at h
      exact h.2
    have h1 := ih.declaration c hc hat
    rcases hr : declaration tokens f c with e | ⟨_ | d, c1⟩
    · rw [hr] at h1
      exact (h1.mono (by omega) (by omega) (by omega)).map (by cases e <;> rfl)
    · rw [hr] at h1
      simp only [Advances] at h1
      simp only []
      exact (ih.blockLoop _ c1 h1.2).mono (by omega) (by omega) (by omega)
    · rw [hr] at h1
      simp only [Advances] at h1
      simp only []
      exact (ih.blockLoop _ c1 h1.2).mono (by omega) (by omega) (by omega)
  · exact advances_ok (Nat.le_refl _) hc

theorem succ_statement {tokens : List Token} {f : Nat} (ih : ParserAdvances tokens f) :
    ∀ c, c ≤ tokens.length →
      Advances tokens.length 1 13 (f + 1) c (statement tokens (f + 1) c) := by
  intro c hc
  apply Advances.step
  unfold statement
  split
  · rename_i h
    exact (ih.ifStatement (c + 1) (lt_of_check hc h)).mono (by omega) (by omega) (by omega)
  split
  · rename_i h
    exact (ih.whileStatement (c + 1) (lt_of_check hc h)).mono (by omega) (by omega) (by omega)
  split
  · rename_i h
    exact (ih.forStatement (c + 1) (lt_of_check hc h)).mono (by omega) (by omega) (by omega)
  split
  · rename_i h
    exact (ih.returnStatement (c + 1) (lt_of_check hc h)).mono (by omega) (by omega) (by omega)
  split
  · rename_i h
    exact (ih.printStatement (c + 1) (lt_of_matchAny hc h)).mono (by omega) (by omega) (by omega)
  split
  · rename_i h
    exact (ih.inputStatement (c + 1) (lt_of_check hc h)).mono (by omega) (by omega) (by omega)
  split
  · rename_i h
    exact ((ih.block (c + 1) (lt_of_check hc h)).mono (by omega) (by omega) (by omega)).map
      (by rcases block tokens f (c + 1) with e | ⟨x, c1⟩ <;> rfl)
  · exact (ih.expressionStatement c hc).mono (Nat.le_refl _) (by omega) (by omega)

theorem succ_declaration {tokens : List Token} {f : Nat} (ih : ParserAdvances tokens f) :
    ∀ c, c ≤ tokens.length → isAtEnd tokens c = false →
      Advances tokens.length 1 14 (f + 1) c (declaration tokens (f + 1) c) := by
  intro c hc hat
  apply Advances.step
  unfold declaration
  have h1 : Advances tokens.length 1 13 f c
      (if check tokens c .FUNCTION = true then functionDeclaration tokens f (c + 1)
       else statement tokens f c) := by
    split
    · rename_i h
      exact (ih.functionDeclaration (c + 1) (lt_of_check hc h)).mono
        (by omega) (by omega) (by omega)
    · exact ih.statement c hc
  revert h1
  generalize (if check tokens c .FUNCTION = true then functionDeclaration tokens f (c + 1)
       else statement tokens f c) = r
  intro h1
  rcases r with (⟨m, p⟩ | _) | ⟨x, c1⟩
  · simp only [Advances] at h1
    have hs := synchronize_bounds h1.2
    refine advances_ok ?_ hs.2
    rcases Nat.lt_or_ge c p with hlt | hge
    · have := (advance_bounds h1.2).1
      omega
    · have hp : p = c := by omega
      subst hp
      rw [advance_of_not_isAtEnd hat] at hs
      omega
  · exact h1
  · exact h1

theorem parserAdvances_succ {tokens : List Token} {f : Nat} (ih : ParserAdvances tokens f) :
    ParserAdvances tokens (f + 1) where
  declaration := succ_declaration ih
  functionDeclaration := succ_functionDeclaration ih
  statement := succ_statement ih
  ifStatement := succ_ifStatement ih
  whileStatement := succ_whileStatement ih
  forStatement := succ_forStatement ih
  returnStatement := succ_returnStatement ih
  printStatement := succ_printStatement ih
  inputStatement := succ_inputStatement ih
  blockLoop := succ_blockLoop ih
  block := succ_block ih
  expressionStatement := succ_expressionStatement ih
  expression := succ_expression ih
  assignment := succ_assignment ih
  logicalOr := succ_logicalOr ih
  logicalAnd := succ_logicalAnd ih
  equality := succ_equality ih
  comparison := succ_comparison ih
  term := succ_term ih
  factor := succ_factor ih
  unary := succ_unary ih
  callLoop := succ_callLoop ih
  call := succ_call ih
  argumentsLoop := succ_argumentsLoop ih
  finishCall := succ_finishCall ih
  elementsLoop := succ_elementsLoop ih
  primary := succ_primary ih

theorem parserAdvances (tokens : List Token) : ∀ f, ParserAdvances tokens f
  | 0 => parserAdvances_zero tokens
  | f + 1 => parserAdvances_succ (parserAdvances tokens f)

theorem declaration_catches (tokens : List Token) (f c : Nat) (m : String) (p : Nat) :
    declaration tokens f c ≠ .error (.syntaxError m p) := by
  cases f with
  | zero => simp [declaration]
  | succ f =>
    unfold declaration
    dsimp only
    split <;> simp

theorem declaration_returns (tokens : List Token) (c : Nat) (hc : c ≤ tokens.length)
    (hat : isAtEnd tokens c = false) :
    ∃ node next, declaration tokens (parseFuel tokens) c = .ok (node, next) ∧
      c < next ∧ next ≤ tokens.length := by
  have h := (parserAdvances tokens (parseFuel tokens)).declaration c hc hat
  rcases hr : declaration tokens (parseFuel tokens) c with (⟨m, p⟩ | _) | ⟨node, next⟩
  · exact absurd hr (declaration_catches tokens _ c m p)
  · rw [hr] at h
    simp only [Advances, parseFuel] at h
    omega
  · rw [hr] at h
    simp only [Advances] at h
    exact ⟨node, next, rfl, by omega, h.2⟩

theorem parseLoop_returns (tokens : List Token) :
    ∀ n statements c, c ≤ tokens.length → tokens.length < n + c →
      (parseLoop tokens (parseFuel tokens) n statements c).isSome = true := by
  intro n
  induction n with
  | zero => intro statements c hc hn; omega
  | succ n ih =>
    intro statements c hc hn
    unfold parseLoop
    split
    · rename_i h
      have hat : isAtEnd tokens c = false := by simpa using h
      obtain ⟨node, next, hd, h1, h2⟩ := declaration_returns tokens c hc hat
      rw [hd]
      cases node with
      | none => exact ih _ next h2 (by omega)
      | some s => exact ih _ next h2 (by omega)
    · rfl

theorem parse_returns (tokens : List Token) : (parse tokens).isSome = true :=
  parseLoop_returns tokens _ _ 0 (Nat.zero_le _) (by omega)

theorem lt_length_of_not_isAtEnd {tokens : List Token} {c : Nat}
    (h : isAtEnd tokens c = false) : c < tokens.length := by
  rcases Nat.lt_or_ge c tokens.length with h1 | h1
  · exact h1
  · have hd : tokens.getD c eofToken = eofToken := List.getD_eq_default _ _ h1
    unfold isAtEnd peek at h
    rw [hd] at h
    cases h

/-- The routine of tier `k` matches the token at `c` exactly when it is an operator of tier
`k`. -/
theorem matchAny_tierOperators (tokens : List Token) (c k : Nat) (hk : k ≤ 5) :
    matchAny tokens c (tierOperators k) = true ↔ operatorTier (peek tokens c).type = some k := by
  have hk' : k = 0 ∨ k = 1 ∨ k = 2 ∨ k = 3 ∨ k = 4 ∨ k = 5 := by omega
  rcases hk' with rfl | rfl | rfl | rfl | rfl | rfl <;>
    cases ht : (peek tokens c).type <;>
    simp [matchAny, tierOperators, check, isAtEnd, ht, operatorTier]

/-- Each of the six binary tiers parses an operand with the next tier and enters its loop. -/
theorem tierRoutine_succ (tokens : List Token) (k f c : Nat) (hk : k ≤ 5) :
    tierRoutine tokens k (f + 1) c =
      (tierRoutine tokens (k + 1) f c >>= fun p =>
        leftAssocLoop tokens (tierOperators k) (tierNode k)
          (fun c => tierRoutine tokens (k + 1) f c) tokens.length p.1 p.2) := by
  have hk' : k = 0 ∨ k = 1 ∨ k = 2 ∨ k = 3 ∨ k = 4 ∨ k = 5 := by omega
  rcases hk' with rfl | rfl | rfl | rfl | rfl | rfl
  · simp only [tierRoutine, logicalOr]; rfl
  · simp only [tierRoutine, logicalAnd]; rfl
  · simp only [tierRoutine, equality]; rfl
  · simp only [tierRoutine, comparison]; rfl
  · simp only [tierRoutine, term]; rfl
  · simp only [tierRoutine, factor]; rfl

/-- The loop of a tier ends at a token it does not match. -/
theorem leftAssocLoop_stop (tokens : List Token) (ops : List TokenType)
    (mk : Expr → Token → Expr → Expr) (operand : Nat → Except ParseError (Expr × Nat))
    (n : Nat) (e : Expr) (c : Nat) (h : matchAny tokens c ops = false) :
    leftAssocLoop tokens ops mk operand (n + 1) e c = .ok (e, c) := by
  simp [leftAssocLoop, h]

/-- The loop of a tier, at a token it matches, parses an operand and goes on with the node. -/
theorem leftAssocLoop_go (tokens : List Token) (ops : List TokenType)
    (mk : Expr → Token → Expr → Expr) (operand : Nat → Except ParseError (Expr × Nat))
    (n : Nat) (e r : Expr) (c c1 : Nat) (h : matchAny tokens c ops = true)
    (hr : operand (c + 1) = .ok (r, c1)) :
    leftAssocLoop tokens ops mk operand (n + 1) e c =
      leftAssocLoop tokens ops mk operand n (mk e (peek tokens c) r) c1 := by
  simp [leftAssocLoop, h, hr]

theorem not_matchAny_of_looser {tokens : List Token} {c k t : Nat} (h : Looser tokens c k)
    (hk : k ≤ t) (ht : t ≤ 5) : matchAny tokens c (tierOperators t) = false := by
  cases hm : matchAny tokens c (tierOperators t)
  · rfl
  · have := h t ((matchAny_tierOperators tokens c t ht).mp hm)
    omega

/-- An operand that `unary` parses is what every tier returns when no operator of that tier or
a tighter one follows. -/
theorem tierRoutine_operand (tokens : List Token) (f c c1 : Nat) (e : Expr)
    (hlen : 1 ≤ tokens.length) (he : unary tokens f c = .ok (e, c1)) :
    ∀ d k, k + d = 6 → Looser tokens c1 k → tierRoutine tokens k (f + d) c = .ok (e, c1) := by
  intro d
  induction d with
  | zero =>
    intro k hk _
    subst hk
    exact he
  | succ d ih =>
    intro k hk hl
    have hk5 : k ≤ 5 := by omega
    rw [← Nat.add_assoc, tierRoutine_succ tokens k (f + d) c hk5,
      ih (k + 1) (by omega) (fun t ht => Nat.lt_succ_of_lt (hl t ht))]
    show leftAssocLoop _ _ _ _ tokens.length e c1 = _
    obtain ⟨n, hn⟩ : ∃ n, tokens.length = n + 1 := ⟨tokens.length - 1, by omega⟩
    rw [hn]
    exact leftAssocLoop_stop _ _ _ _ _ _ _ (not_matchAny_of_looser hl (Nat.le_refl _) hk5)

theorem looser_of_tier {tokens : List Token} {c i k : Nat}
    (h : operatorTier (peek tokens c).type = some i) (hik : i < k) : Looser tokens c k := by
  intro t ht
  rw [h] at ht
  cases ht
  exact hik

theorem looser_of_none {tokens : List Token} {c k : Nat}
    (h : operatorTier (peek tokens c).type = none) : Looser tokens c k := by
  intro t ht
  rw [h] at ht
  cases ht

theorem looser_mono {tokens : List Token} {c k k1 : Nat} (h : Looser tokens c k)
    (hk : k ≤ k1) : Looser tokens c k1 :=
  fun t ht => Nat.lt_of_lt_of_le (h t ht) hk

/-- Two operands with one operator of tier `i` between them: every tier from `i` down to the
loosest returns the node of tier `i`, when no operator of its tier or a tighter one
follows. -/
theorem tierRoutine_one (tokens : List Token) (f c c1 c2 i : Nat) (l m : Expr)
    (hlen : 2 ≤ tokens.length)
    (hl : unary tokens f c = .ok (l, c1))
    (h1 : operatorTier (peek tokens c1).type = some i)
    (hm : unary tokens f (c1 + 1) = .ok (m, c2)) :
    ∀ d k, k + d = 6 → k ≤ i → Looser tokens c2 k →
      tierRoutine tokens k (f + d) c = .ok (tierNode i l (peek tokens c1) m, c2) := by
  have hi5 : i ≤ 5 := by
    cases ht : (peek tokens c1).type <;> rw [ht] at h1 <;> simp [operatorTier] at h1 <;> omega
  obtain ⟨n, hn⟩ : ∃ n, tokens.length = n + 2 := ⟨tokens.length - 2, by omega⟩
  intro d
  induction d with
  | zero => intro k hk hki _; omega
  | succ d ih =>
    intro k hk hki hloose
    have hk5 : k ≤ 5 := by omega
    rw [← Nat.add_assoc, tierRoutine_succ tokens k (f + d) c hk5]
    rcases Nat.lt_or_ge k i with hlt | hge
    · rw [ih (k + 1) (by omega) (by omega) (looser_mono hloose (Nat.le_succ _))]
      show leftAssocLoop _ _ _ _ tokens.length _ c2 = _
      rw [hn]
      exact leftAssocLoop_stop _ _ _ _ _ _ _ (not_matchAny_of_looser hloose (Nat.le_refl _) hk5)
    · have hki' : k = i := by omega
      subst hki'
      rw [tierRoutine_operand tokens f c c1 l (by omega) hl d (k + 1) (by omega)
        (looser_of_tier h1 (Nat.lt_succ_self _))]
      show leftAssocLoop _ _ _ _ tokens.length l c1 = _
      rw [hn, leftAssocLoop_go _ _ _ _ _ _ m _ c2
        ((matchAny_tierOperators tokens c1 k hk5).mpr h1)
        (tierRoutine_operand tokens f (c1 + 1) c2 m (by omega) hm d (k + 1) (by omega)
          (looser_mono hloose (Nat.le_succ _)))]
      exact leftAssocLoop_stop _ _ _ _ _ _ _ (not_matchAny_of_looser hloose (Nat.le_refl _) hk5)

/-- Three operands with an operator of tier `i` and then one of tier `j` between them. -/
theorem tierRoutine_two (tokens : List Token) (f c c1 c2 c3 i j : Nat) (l m r : Expr)
    (hlen : 3 ≤ tokens.length)
    (hl : unary tokens f c = .ok (l, c1))
    (h1 : operatorTier (peek tokens c1).type = some i)
    (hm : unary tokens f (c1 + 1) = .ok (m, c2))
    (h2 : operatorTier (peek tokens c2).type = some j)
    (hr : unary tokens f (c2 + 1) = .ok (r, c3))
    (hend : operatorTier (peek tokens c3).type = none) :
    ∀ d k, k + d = 6 → k ≤ i → k ≤ j →
      tierRoutine tokens k (f + d) c =
        .ok (if i < j then tierNode i l (peek tokens c1) (tierNode j m (peek tokens c2) r)
          else tierNode j (tierNode i l (peek tokens c1) m) (peek tokens c2) r, c3) := by
  have hi5 : i ≤ 5 := by
    cases ht : (peek tokens c1).type <;> rw [ht] at h1 <;> simp [operatorTier] at h1 <;> omega
  have hj5 : j ≤ 5 := by
    cases ht : (peek tokens c2).type <;> rw [ht] at h2 <;> simp [operatorTier] at h2 <;> omega
  obtain ⟨n, hn⟩ : ∃ n, tokens.length = n + 3 := ⟨tokens.length - 3, by omega⟩
  intro d
  induction d with
  | zero => intro k hk hki _; omega
  | succ d ih =>
    intro k hk hki hkj
    have hk5 : k ≤ 5 := by omega
    rw [← Nat.add_assoc, tierRoutine_succ tokens k (f + d) c hk5]
    by_cases hboth : k < i ∧ k < j
    · rw [ih (k + 1) (by omega) (by omega) (by omega)]
      show leftAssocLoop _ _ _ _ tokens.length _ c3 = _
      rw [hn]
      exact leftAssocLoop_stop _ _ _ _ _ _ _
        (not_matchAny_of_looser (looser_of_none hend) (Nat.le_refl _) hk5)
    · by_cases hij : i < j
      · have hki' : k = i := by omega
        subst hki'
        rw [if_pos hij, tierRoutine_operand tokens f c c1 l (by omega) hl d (k + 1) (by omega)
          (looser_of_tier h1 (Nat.lt_succ_self _))]
        show leftAssocLoop _ _ _ _ tokens.length l c1 = _
        rw [hn, leftAssocLoop_go _ _ _ _ _ _ (tierNode j m (peek tokens c2) r) _ c3
          ((matchAny_tierOperators tokens c1 k hk5).mpr h1)
          (tierRoutine_one tokens f (c1 + 1) c2 c3 j m r (by omega) hm h2 hr d (k + 1)
            (by omega) (by omega) (looser_of_none hend))]
        exact leftAssocLoop_stop _ _ _ _ _ _ _
          (not_matchAny_of_looser (looser_of_none hend) (Nat.le_refl _) hk5)
      · have hkj' : k = j := by omega
        subst hkj'
        rw [if_neg hij]
        rcases Nat.lt_or_ge k i with hlt | hge
        · rw [tierRoutine_one tokens f c c1 c2 i l m (by omega) hl h1 hm d (k + 1) (by omega)
            (by omega) (looser_of_tier h2 (Nat.lt_succ_self _))]
          show leftAssocLoop _ _ _ _ tokens.length _ c2 = _
          rw [hn, leftAssocLoop_go _ _ _ _ _ _ r _ c3
            ((matchAny_tierOperators tokens c2 k hk5).mpr h2)
            (tierRoutine_operand tokens f (c2 + 1) c3 r (by omega) hr d (k + 1) (by omega)
              (looser_of_none hend))]
          exact leftAssocLoop_stop _ _ _ _ _ _ _
            (not_matchAny_of_looser (looser_of_none hend) (Nat.le_refl _) hk5)
        · have hik : i = k := by omega
          subst hik
          rw [tierRoutine_operand tokens f c c1 l (by omega) hl d (i + 1) (by omega)
            (looser_of_tier h1 (Nat.lt_succ_self _))]
          show leftAssocLoop _ _ _ _ tokens.length l c1 = _
          rw [hn, leftAssocLoop_go _ _ _ _ _ _ m _ c2
            ((matchAny_tierOperators tokens c1 i hk5).mpr h1)
            (tierRoutine_operand tokens f (c1 + 1) c2 m (by omega) hm d (i + 1) (by omega)
              (looser_of_tier h2 (Nat.lt_succ_self _))),
            leftAssocLoop_go _ _ _ _ _ _ r _ c3
            ((matchAny_tierOperators tokens c2 i hk5).mpr h2)
            (tierRoutine_operand tokens f (c2 + 1) c3 r (by omega) hr d (i + 1) (by omega)
              (looser_of_none hend))]
          exact leftAssocLoop_stop _ _ _ _ _ _ _
            (not_matchAny_of_looser (looser_of_none hend) (Nat.le_refl _) hk5)

/-- An operator token is inside the token list. -/
theorem lt_length_of_operator {tokens : List Token} {c i : Nat}
    (h : operatorTier (peek tokens c).type = some i) : c < tokens.length := by
  apply lt_length_of_not_isAtEnd
  unfold isAtEnd
  cases ht : (peek tokens c).type <;> rw [ht] at h <;> simp [operatorTier] at h <;> rfl

/-- An operand that `unary` parses holds a token. -/
theorem unary_advances {tokens : List Token} {f c c1 : Nat} {e : Expr}
    (hc : c ≤ tokens.length) (h : unary tokens f c = .ok (e, c1)) : c + 1 ≤ c1 := by
  have := (parserAdvances tokens f).unary c hc
  rw [h] at this
  exact this.1

/-- Two operators with an operand between them need three tokens. -/
theorem tokens_of_chain {tokens : List Token} {f c1 c2 i j : Nat} {m : Expr}
    (h1 : operatorTier (peek tokens c1).type = some i)
    (hm : unary tokens f (c1 + 1) = .ok (m, c2))
    (h2 : operatorTier (peek tokens c2).type = some j) : 3 ≤ tokens.length := by
  have hc1 := lt_length_of_operator h1
  have hc2 := lt_length_of_operator h2
  have := unary_advances (Nat.succ_le_of_lt hc1) hm
  omega

/-- A prefix operator takes the operand that `unary` parses after it. -/
theorem unary_operator (tokens : List Token) (fuel c c1 : Nat) (e : Expr)
    (hop : matchAny tokens c [.BANG, .MINUS] = true)
    (he : unary tokens fuel (c + 1) = .ok (e, c1)) :
    unary tokens (fuel + 1) c = .ok (.unary (peek tokens c) e, c1) := by
  simp [unary, hop, he]

/-- What a tier parses holds a token and ends inside the list. -/
theorem tierRoutine_advances {tokens : List Token} {k f c c1 : Nat} {e : Expr}
    (hc : c ≤ tokens.length) (h : tierRoutine tokens k f c = .ok (e, c1)) :
    c + 1 ≤ c1 ∧ c1 ≤ tokens.length := by
  have ih := parserAdvances tokens f
  have key : Advances tokens.length 1 16 f c (tierRoutine tokens k f c) := by
    match k with
    | 0 => exact (ih.logicalOr c hc).mono (Nat.le_refl _) (Nat.le_refl _) (by omega)
    | 1 => exact (ih.logicalAnd c hc).mono (Nat.le_refl _) (Nat.le_refl _) (by omega)
    | 2 => exact (ih.equality c hc).mono (Nat.le_refl _) (Nat.le_refl _) (by omega)
    | 3 => exact (ih.comparison c hc).mono (Nat.le_refl _) (Nat.le_refl _) (by omega)
    | 4 => exact (ih.term c hc).mono (Nat.le_refl _) (Nat.le_refl _) (by omega)
    | 5 => exact (ih.factor c hc).mono (Nat.le_refl _) (Nat.le_refl _) (by omega)
    | _ + 6 => exact (ih.unary c hc).mono (Nat.le_refl _) (Nat.le_refl _) (by omega)
  rw [h] at key
  exact key

/-- The operands of an operator of tier `k` are what the routine of the next tier
parses. -/
theorem tierRoutine_rule (tokens : List Token) (k f c c1 c2 : Nat) (l r : Expr) (hk : k ≤ 5)
    (hl : tierRoutine tokens (k + 1) f c = .ok (l, c1))
    (h1 : operatorTier (peek tokens c1).type = some k)
    (hr : tierRoutine tokens (k + 1) f (c1 + 1) = .ok (r, c2))
    (h2 : operatorTier (peek tokens c2).type ≠ some k) :
    tierRoutine tokens k (f + 1) c = .ok (tierNode k l (peek tokens c1) r, c2) := by
  have hc1 := lt_length_of_operator h1
  have hadv := tierRoutine_advances (Nat.succ_le_of_lt hc1) hr
  obtain ⟨n, hn⟩ : ∃ n, tokens.length = n + 2 := ⟨tokens.length - 2, by omega⟩
  rw [tierRoutine_succ tokens k f c hk, hl]
  show leftAssocLoop _ _ _ _ tokens.length l c1 = _
  rw [hn, leftAssocLoop_go _ _ _ _ _ _ r _ c2 ((matchAny_tierOperators tokens c1 k hk).mpr h1) hr]
  apply leftAssocLoop_stop
  cases hm : matchAny tokens c2 (tierOperators k)
  · rfl
  · exact absurd ((matchAny_tierOperators tokens c2 k hk).mp hm) h2

/-- C30.  For every token list and budget: when `unary` parses an operand `l`, an operator
of tier `i` follows, `unary` parses an operand `m`, an operator of tier `j` follows, `unary`
parses an operand `r` and no binary operator follows, then `logicalOr`, the loosest tier,
gives the operand `m` to the operator of the tighter tier: Node(op1, l, Node(op2, m, r))
when the second operator is the tighter one, Node(op2, Node(op1, l, m), r) when the first
is.  The operands are whatever `unary` parses, in particular an operand with a prefix
`!` or `-`: such an operator takes the operand that `unary` parses after it, before any
binary operator applies.  And in each tier, the two operands of an operator are what the
routine of the next tier parses, so every operator of a tighter tier ends up inside
them. -/
theorem precedence_parses (tokens : List Token) (fuel c c1 c2 c3 i j : Nat) (l m r : Expr)
    (hl : unary tokens fuel c = .ok (l, c1))
    (h1 : operatorTier (peek tokens c1).type = some i)
    (hm : unary tokens fuel (c1 + 1) = .ok (m, c2))
    (h2 : operatorTier (peek tokens c2).type = some j)
    (hr : unary tokens fuel (c2 + 1) = .ok (r, c3))
    (hend : operatorTier (peek tokens c3).type = none) :
    (i < j → logicalOr tokens (fuel + 6) c =
      .ok (tierNode i l (peek tokens c1) (tierNode j m (peek tokens c2) r), c3)) ∧
    (j < i → logicalOr tokens (fuel + 6) c =
      .ok (tierNode j (tierNode i l (peek tokens c1) m) (peek tokens c2) r, c3)) ∧
    (∀ p e q, matchAny tokens p [.BANG, .MINUS] = true →
      unary tokens fuel (p + 1) = .ok (e, q) →
      unary tokens (fuel + 1) p = .ok (.unary (peek tokens p) e, q)) ∧
    (∀ k p p1 p2 x y, k ≤ 5 →
      tierRoutine tokens (k + 1) fuel p = .ok (x, p1) →
      operatorTier (peek tokens p1).type = some k →
      tierRoutine tokens (k + 1) fuel (p1 + 1) = .ok (y, p2) →
      operatorTier (peek tokens p2).type ≠ some k →
      tierRoutine tokens k (fuel + 1) p = .ok (tierNode k x (peek tokens p1) y, p2)) := by
  have h := tierRoutine_two tokens fuel c c1 c2 c3 i j l m r (tokens_of_chain h1 hm h2) hl h1
    hm h2 hr hend 6 0 rfl (Nat.zero_le _) (Nat.zero_le _)
  refine ⟨fun hij => ?_, fun hji => ?_,
    fun p e q hop he => unary_operator tokens fuel p q e hop he,
    fun k p p1 p2 x y hk hx hop hy hnext =>
      tierRoutine_rule tokens k fuel p p1 p2 x y hk hx hop hy hnext⟩
  · rw [if_pos hij] at h; exact h
  · rw [if_neg (Nat.lt_asymm hji)] at h; exact h

/-- C30 at the tokens of `a + b * c;`. -/
theorem precedence_parses_witness :
    unary (tokenize "a + b * c;") 3 0 = .ok (.variable "a", 1) ∧
    operatorTier (peek (tokenize "a + b * c;") 1).type = some 4 ∧
    unary (tokenize "a + b * c;") 3 (1 + 1) = .ok (.variable "b", 3) ∧
    operatorTier (peek (tokenize "a + b * c;") 3).type = some 5 ∧
    unary (tokenize "a + b * c;") 3 (3 + 1) = .ok (.variable "c", 5) ∧
    operatorTier (peek (tokenize "a + b * c;") 5).type = none ∧
    4 < 5 ∧
    logicalOr (tokenize "a + b * c;") (3 + 6) 0 =
      .ok (.binary (.variable "a") (sym .PLUS "+" 1)
        (.binary (.variable "b") (sym .STAR "*" 1) (.variable "c")), 5) :=
  ⟨rfl, rfl, rfl, rfl, rfl, rfl, by decide,
    (precedence_parses (tokenize "a + b * c;") 3 0 1 3 5 4 5 (.variable "a") (.variable "b")
      (.variable "c") rfl rfl rfl rfl rfl rfl).1 (by decide)⟩

/-- The value of an assignment is parsed by `assignment` itself. -/
theorem assignment_chain (tokens : List Token) (fuel c c1 c2 c3 : Nat) (a b : String)
    (v : Expr)
    (ha : logicalOr tokens (fuel + 1) c = .ok (.variable a, c1))
    (h1 : check tokens c1 .EQUAL = true)
    (hb : logicalOr tokens fuel (c1 + 1) = .ok (.variable b, c2))
    (h2 : check tokens c2 .EQUAL = true)
    (hv : assignment tokens fuel (c2 + 1) = .ok (v, c3)) :
    assignment tokens (fuel + 2) c = .ok (.assignment a (.assignment b v), c3) := by
  have hin : assignment tokens (fuel + 1) (c1 + 1) = .ok (.assignment b v, c3) := by
    simp [assignment, hb, h2, hv, bind, Except.bind]
  unfold assignment
  simp only [ha, h1, hin, bind, Except.bind, if_true]

/-- C31.  For every token list and budget: when `unary` parses an operand `l`, an operator
of a tier `i` follows, `unary` parses an operand `m`, an operator of the same tier follows,
`unary` parses an operand `r` and no binary operator follows, then `logicalOr` returns
Node(op2, Node(op1, l, m), r): the chain is grouped from the left, in each of the six
binary tiers.  And when `logicalOr` parses a variable `a`, `=` follows, `logicalOr` parses
a variable `b`, `=` follows and `assignment` parses `v`, then `assignment` returns
Assignment(a, Assignment(b, v)): the chain is grouped from the right. -/
theorem associativity_parses (tokens : List Token) (fuel c c1 c2 c3 i : Nat) (l m r : Expr)
    (chain : List Token) (budget p p1 p2 p3 : Nat) (a b : String) (v : Expr)
    (hl : unary tokens fuel c = .ok (l, c1))
    (h1 : operatorTier (peek tokens c1).type = some i)
    (hm : unary tokens fuel (c1 + 1) = .ok (m, c2))
    (h2 : operatorTier (peek tokens c2).type = some i)
    (hr : unary tokens fuel (c2 + 1) = .ok (r, c3))
    (hend : operatorTier (peek tokens c3).type = none)
    (ha : logicalOr chain (budget + 1) p = .ok (.variable a, p1))
    (he1 : check chain p1 .EQUAL = true)
    (hb : logicalOr chain budget (p1 + 1) = .ok (.variable b, p2))
    (he2 : check chain p2 .EQUAL = true)
    (hv : assignment chain budget (p2 + 1) = .ok (v, p3)) :
    logicalOr tokens (fuel + 6) c =
      .ok (tierNode i (tierNode i l (peek tokens c1) m) (peek tokens c2) r, c3) ∧
    assignment chain (budget + 2) p = .ok (.assignment a (.assignment b v), p3) := by
  refine ⟨?_, assignment_chain chain budget p p1 p2 p3 a b v ha he1 hb he2 hv⟩
  have h := tierRoutine_two tokens fuel c c1 c2 c3 i i l m r (tokens_of_chain h1 hm h2) hl h1
    hm h2 hr hend 6 0 rfl (Nat.zero_le _) (Nat.zero_le _)
  rw [if_neg (Nat.lt_irrefl i)] at h
  exact h

/-- C31 at the tokens of `a - b - c;` and of `a = b = c;`. -/
theorem associativity_parses_witness :
    unary (tokenize "a - b - c;") 3 0 = .ok (.variable "a", 1) ∧
    operatorTier (peek (tokenize "a - b - c;") 1).type = some 4 ∧
    unary (tokenize "a - b - c;") 3 (1 + 1) = .ok (.variable "b", 3) ∧
    operatorTier (peek (tokenize "a - b - c;") 3).type = some 4 ∧
    unary (tokenize "a - b - c;") 3 (3 + 1) = .ok (.variable "c", 5) ∧
    operatorTier (peek (tokenize "a - b - c;") 5).type = none ∧
    logicalOr (tokenize "a = b = c;") (12 + 1) 0 = .ok (.variable "a", 1) ∧
    check (tokenize "a = b = c;") 1 .EQUAL = true ∧
    logicalOr (tokenize "a = b = c;") 12 (1 + 1) = .ok (.variable "b", 3) ∧
    check (tokenize "a = b = c;") 3 .EQUAL = true ∧
    assignment (tokenize "a = b = c;") 12 (3 + 1) = .ok (.variable "c", 5) ∧
    logicalOr (tokenize "a - b - c;") (3 + 6) 0 =
      .ok (.binary (.binary (.variable "a") (sym .MINUS "-" 1) (.variable "b"))
        (sym .MINUS "-" 1) (.variable "c"), 5) ∧
    assignment (tokenize "a = b = c;") (12 + 2) 0 =
      .ok (.assignment "a" (.assignment "b" (.variable "c")), 5) :=
  ⟨rfl, rfl, rfl, rfl, rfl, rfl, rfl, rfl, rfl, rfl, rfl,
    associativity_parses (tokenize "a - b - c;") 3 0 1 3 5 4 (.variable "a") (.variable "b")
      (.variable "c") (tokenize "a = b = c;") 12 0 1 3 5 "a" "b" (.variable "c")
      rfl rfl rfl rfl rfl rfl rfl rfl rfl rfl rfl⟩

/-! ### Runs on the same interpreter -/

/-- C20, amended.  For every program and every state of the interpreter, `execute` hands to
the statements of the program the state it was called in, with `isRunning` set,
`isStopped` cleared and the three progress lines written: the environments with their
bindings, the arrays, the properties and the current and global environment are those the
run before left, so the second of two runs starts from every binding the first one left.
The flags are the only part of the state it resets: the result is the same whatever they
are at entry. -/
theorem execute_resets_flags_only (callNative : String → List Value → Routine Value)
    (fuel : Nat) (code : String) (σ : Interp) (running stopped : Bool) :
    execute callNative fuel code σ =
      tryFinally
        (tryCatch
          (do
            executeProgram callNative fuel ((parse (tokenize code)).getD [])
            fun σ => if !σ.isStopped then terminalCall .programCompleted σ else (σ, .ok ()))
          (fun error σ => (handleError σ error, .ok ())))
        (fun σ => { σ with isRunning := false })
        { σ with isRunning := true, isStopped := false,
                 terminal := σ.terminal ++ prologue } ∧
    execute callNative fuel code { σ with isRunning := running, isStopped := stopped } =
      execute callNative fuel code σ := by
  refine ⟨?_, rfl⟩
  have h := parse_returns (tokenize code)
  cases hp : parse (tokenize code) with
  | none => rw [hp] at h; cases h
  | some statements =>
    simp only [execute, hp, Option.getD_some, tryFinally, tryCatch, bind, Routine.bind,
      terminalCall, prologue, List.append_assoc, List.singleton_append, List.cons_append,
      List.nil_append]

end Flex
